import Mathlib

/-!
# Interactive cpufreq governor and hot-plug decider (linusyang/mako)

A shallow embedding of `drivers/cpufreq/cpufreq_interactive.c` and
`arch/arm/kernel/hotplug.c`, followed by the properties proved about it.

Conventions of the embedding:

* `unsigned int` and (32-bit ARM) `unsigned long` values are naturals reduced
  modulo `2^32` wherever the C arithmetic can wrap; `u64` values are reduced
  modulo `2^64`; `short` counters are integers wrapped to 16 bits.
* Globals read by a function are arguments; globals written are returned.
* A function returns `none` where the C code traps or has no defined result
  (division by zero, an array read outside its bounds, use of an index that a
  failed table lookup left unset).
* Values read from the platform (clocks, idle counters, lock attempts,
  hot-plug results) are explicit inputs.
-/

set_option autoImplicit false

namespace Mako

/-! ## Machine words -/

/-- The constant `UINT_MAX` of a 32-bit `unsigned int`. -/
def UINT_MAX : Nat := 4294967295

/-- Truncation to `unsigned int`. -/
def u32 (x : Nat) : Nat := x % 4294967296

/-- Truncation to `u64`. -/
def u64 (x : Nat) : Nat := x % 18446744073709551616

/-- Subtraction of `unsigned int` values, `a - b` modulo `2^32`. -/
def u32_sub (a b : Nat) : Nat := (a + (4294967296 - b % 4294967296)) % 4294967296

/-- Subtraction of `u64` values, `a - b` modulo `2^64`. -/
def u64_sub (a b : Nat) : Nat :=
  (a + (18446744073709551616 - b % 18446744073709551616)) % 18446744073709551616

/-- Truncation to a 16-bit signed `short`. -/
def to_short (x : Int) : Int := (x + 32768) % 65536 - 32768

/-! ## Data model of the governor -/

/-- The tuning profile `struct interactive_vaules`.  `target_loads` is the
array the pointer `target_loads` designates (its allocated contents) and
`ntarget_loads` the element count the code scans. -/
structure interactive_vaules where
  hispeed_freq : Nat
  go_hispeed_load : Nat
  min_sample_time : Nat
  timer_rate : Nat
  above_hispeed_delay_val : Nat
  timer_slack_val : Int
  target_loads : List Nat
  ntarget_loads : Nat
  deriving DecidableEq, Repr

/-- The initial value of `boost_values`: an 11-slot array, 7 slots configured. -/
def boost_values : interactive_vaules :=
  { hispeed_freq := 0, go_hispeed_load := 0, min_sample_time := 0, timer_rate := 0,
    above_hispeed_delay_val := 0, timer_slack_val := 0,
    target_loads := [30, 702000, 40, 1026000, 50, 1350000, 65, 0, 0, 0, 0],
    ntarget_loads := 11 }

/-- The initial value of `busy_values` (times in microseconds). -/
def busy_values : interactive_vaules :=
  { hispeed_freq := 1350000, go_hispeed_load := 93, min_sample_time := 60 * 1000,
    timer_rate := 20 * 1000, above_hispeed_delay_val := 30 * 1000,
    timer_slack_val := 40 * 1000,
    target_loads := [40, 702000, 50, 1026000, 60, 1350000, 70, 0, 0, 0, 0],
    ntarget_loads := 11 }

/-- The initial value of `idle_values`. -/
def idle_values : interactive_vaules :=
  { hispeed_freq := 702000, go_hispeed_load := 99, min_sample_time := 20 * 1000,
    timer_rate := 30 * 1000, above_hispeed_delay_val := 150 * 1000,
    timer_slack_val := -1,
    target_loads := [60, 702000, 70, 1026000, 80, 1350000, 90, 0, 0, 0, 0],
    ntarget_loads := 11 }

/-- The process-wide signals and profiles the governor reads: `gpu_idle`,
`boostpulse_endtime` and the three profiles. -/
structure tunables where
  gpu_idle : Bool
  boostpulse_endtime : Nat
  boost : interactive_vaules
  busy : interactive_vaules
  idle : interactive_vaules
  deriving DecidableEq, Repr

/-- The signals and profiles as the module initialises them. -/
def default_tunables : tunables :=
  { gpu_idle := false, boostpulse_endtime := 0,
    boost := boost_values, busy := busy_values, idle := idle_values }

/-! ## `freq_to_targetload` -/

/-- The scan loop of `freq_to_targetload`, started at index `i`:
`for (; i < n - 1 && freq >= tl[i+1] && tl[i+2] != 0; i += 2);` followed by
`ret = tl[i]`.  The conjunction short-circuits, so `tl[i+1]` is read only when
`i < n - 1` (written `i + 1 < n`, the comparison being signed) and `tl[i+2]`
only when `freq >= tl[i+1]`.  The first argument bounds the number of
iterations. -/
def freq_to_targetload_scan (target_loads : List Nat) (ntarget_loads : Nat) (freq : Nat) :
    Nat → Nat → Option Nat
  | 0, _ => none
  | fuel + 1, i =>
    if i + 1 < ntarget_loads then
      match target_loads[i + 1]? with
      | none => none
      | some boundary =>
        if freq ≥ boundary then
          match target_loads[i + 2]? with
          | none => none
          | some next =>
            if next ≠ 0 then
              freq_to_targetload_scan target_loads ntarget_loads freq fuel (i + 2)
            else target_loads[i]?
        else target_loads[i]?
    else target_loads[i]?

/-- The profile `freq_to_targetload` reads: `idle_values` when `gpu_idle`,
else `boost_values` while `boostpulse_endtime > ktime_to_ms(ktime_get())`,
else `busy_values`. -/
def targetload_values (g : tunables) (ktime_ms : Nat) : interactive_vaules :=
  if g.gpu_idle then g.idle
  else if g.boostpulse_endtime > ktime_ms then g.boost
  else g.busy

/-- The scan of one profile, with enough iterations for any `ntarget_loads`. -/
def freq_to_targetload_of (values : interactive_vaules) (freq : Nat) : Option Nat :=
  freq_to_targetload_scan values.target_loads values.ntarget_loads freq
    (values.ntarget_loads + 1) 0

/-- The function `freq_to_targetload(freq)`; `ktime_ms` is the clock value it
reads. -/
def freq_to_targetload (g : tunables) (ktime_ms : Nat) (freq : Nat) : Option Nat :=
  freq_to_targetload_of (targetload_values g ktime_ms) freq

/-! ## Frequency-table lookup -/

/-- The lookup relations `CPUFREQ_RELATION_L` and `CPUFREQ_RELATION_H`. -/
inductive relation where
  | L
  | H
  deriving DecidableEq, Repr

/-- Modelled from the spec: part of the table lookup, whose kernel source is
not among the files; the lowest entry of the table that is at least `req`, if
any. -/
def lowest_ge : List Nat → Nat → Option Nat
  | [], _ => none
  | f :: rest, req =>
    match lowest_ge rest req with
    | none => if req ≤ f then some f else none
    | some m => if req ≤ f ∧ f < m then some f else some m

/-- Modelled from the spec: part of the table lookup, whose kernel source is
not among the files; the highest entry of the table that is at most `req`, if
any. -/
def highest_le : List Nat → Nat → Option Nat
  | [], _ => none
  | f :: rest, req =>
    match highest_le rest req with
    | none => if f ≤ req then some f else none
    | some m => if f ≤ req ∧ m < f then some f else some m

/-- Modelled from the spec: the table entry a lookup of the kernel helper
`cpufreq_frequency_table_target` selects; for `L` the lowest entry at or above
the request, for `H` the highest entry at or below it, and the nearest entry
on the other side when no entry lies on the requested side. -/
def target_entry (table : List Nat) (target_freq : Nat) : relation → Option Nat
  | .L =>
    match lowest_ge table target_freq with
    | some f => some f
    | none => highest_le table target_freq
  | .H =>
    match highest_le table target_freq with
    | some f => some f
    | none => lowest_ge table target_freq

/-- Modelled from the spec: the kernel helper `cpufreq_frequency_table_target`,
whose source is not part of the two files; only its calls are.  It yields the
index of the selected entry (`L` returns lowest ≥ req, `H` returns highest
≤ req, the nearest entry otherwise), and fails on a table without entries. -/
def cpufreq_frequency_table_target (table : List Nat) (target_freq : Nat)
    (rel : relation) : Option Nat :=
  (target_entry table target_freq rel).map (fun f => table.indexOf f)

/-- A lookup followed by the read `freq_table[index].frequency`: the frequency
of the selected entry, `none` when the lookup fails. -/
def table_target_frequency (table : List Nat) (target_freq : Nat) (rel : relation) :
    Option Nat :=
  (cpufreq_frequency_table_target table target_freq rel).bind (fun index => table[index]?)

/-! ## `choose_freq` -/

/-- The outcome of one pass through the body of the `do ... while` loop of
`choose_freq`: the loop is left with a result, or runs again. -/
inductive choose_iter where
  | done (freq : Nat)
  | again (freq freqmin freqmax : Nat)
  deriving DecidableEq, Repr

/-- The statements of the loop body of `choose_freq` up to the loop test,
entered with the current `freq`, `freqmin` and `freqmax`: `done` is a `break`,
`again` carries the variables to the loop test.  `tlf` is
`freq_to_targetload`. -/
def choose_freq_pass (tlf : Nat → Option Nat) (table : List Nat) (loadadjfreq : Nat)
    (freq freqmin freqmax : Nat) : Option choose_iter :=
  let prevfreq := freq
  match tlf freq with
  | none => none
  | some tl =>
    if tl = 0 then none
    else
      match table_target_frequency table (loadadjfreq / tl) .L with
      | none => none
      | some freq =>
        if freq > prevfreq then
          let freqmin := prevfreq
          if freq ≥ freqmax then
            match table_target_frequency table (u32_sub freqmax 1) .H with
            | none => none
            | some freq =>
              if freq = freqmin then some (.done freqmax)
              else some (.again freq freqmin freqmax)
          else some (.again freq freqmin freqmax)
        else if freq < prevfreq then
          let freqmax := prevfreq
          if freq ≤ freqmin then
            match table_target_frequency table (u32 (freqmin + 1)) .L with
            | none => none
            | some freq =>
              if freq = freqmax then some (.done freq)
              else some (.again freq freqmin freqmax)
          else some (.again freq freqmin freqmax)
        else some (.again freq freqmin freqmax)

/-- One pass through the loop of `choose_freq`, the test
`while (freq != prevfreq)` included: the loop is left when the pass ends with
the frequency it started with. -/
def choose_freq_body (tlf : Nat → Option Nat) (table : List Nat) (loadadjfreq : Nat)
    (freq freqmin freqmax : Nat) : Option choose_iter :=
  match choose_freq_pass tlf table loadadjfreq freq freqmin freqmax with
  | none => none
  | some (.done r) => some (.done r)
  | some (.again f lo hi) => if f ≠ freq then some (.again f lo hi) else some (.done f)

/-- The `do ... while (freq != prevfreq)` loop of `choose_freq`; the first
argument bounds the number of passes. -/
def choose_freq_loop (tlf : Nat → Option Nat) (table : List Nat) (loadadjfreq : Nat) :
    Nat → Nat → Nat → Nat → Option Nat
  | 0, _, _, _ => none
  | fuel + 1, freq, freqmin, freqmax =>
    match choose_freq_body tlf table loadadjfreq freq freqmin freqmax with
    | none => none
    | some (.done r) => some r
    | some (.again f lo hi) => choose_freq_loop tlf table loadadjfreq fuel f lo hi

/-- The function `choose_freq(pcpu, loadadjfreq)`: the search starts at
`policy->cur` with the bracket `(0, UINT_MAX)`.  The profile signals and the
clock are those of the call; the loop is given one pass per table entry plus
one. -/
def choose_freq (g : tunables) (ktime_ms : Nat) (policy_cur : Nat) (freq_table : List Nat)
    (loadadjfreq : Nat) : Option Nat :=
  choose_freq_loop (freq_to_targetload g ktime_ms) freq_table loadadjfreq
    (freq_table.length + 1) policy_cur 0 UINT_MAX

/-! ## Per-CPU governor state -/

/-- The part of `struct timer_list` the governor uses: whether the timer is
pending and its expiry in jiffies. -/
structure timer_list where
  pending : Bool
  expires : Nat
  deriving DecidableEq, Repr

/-- The fields of `struct cpufreq_policy` the governor reads. -/
structure cpufreq_policy where
  cpus : List Nat
  min : Nat
  max : Nat
  cur : Nat
  deriving DecidableEq, Repr

/-- The per-CPU record `struct cpufreq_interactive_cpuinfo`.  `policy` is the
pointer to the policy object (a reference); `freq_table` holds the frequencies
of the table entries in table order. -/
structure cpufreq_interactive_cpuinfo where
  cpu_timer : timer_list
  cpu_slack_timer : timer_list
  time_in_idle : Nat
  time_in_idle_timestamp : Nat
  cputime_speedadj : Nat
  cputime_speedadj_timestamp : Nat
  policy : Nat
  freq_table : List Nat
  target_freq : Nat
  floor_freq : Nat
  floor_validate_time : Nat
  hispeed_validate_time : Nat
  governor_enabled : Bool
  deriving DecidableEq, Repr

/-- What one run of the timer function reads from the platform:
the result of `down_read_trylock(&pcpu->enable_sem)`, the wall and idle times
`get_cpu_idle_time` returns in `update_load`, the millisecond clock
`freq_to_targetload` reads, and for a re-arm the value of `jiffies`, the
conversion `usecs_to_jiffies` and the wall and idle times of the second
`get_cpu_idle_time`.  (The value of `timer_pending(&pcpu->cpu_timer)` is the
`pending` field of the per-CPU record.) -/
structure timer_input where
  trylock : Bool
  now : Nat
  now_idle : Nat
  ktime_ms : Nat
  jiffies : Nat
  usecs_to_jiffies : Nat → Nat
  resched_wall : Nat
  resched_idle : Nat

/-- What the timer function leaves behind: the per-CPU record, the mask
`speedchange_cpumask`, and whether `wake_up_process(speedchange_task)` ran. -/
structure timer_result where
  pcpu : cpufreq_interactive_cpuinfo
  speedchange_cpumask : Nat → Bool
  woken : Bool

/-- The mask operation `cpumask_set_cpu(cpu, &mask)`. -/
def cpumask_set_cpu (cpu : Nat) (mask : Nat → Bool) : Nat → Bool :=
  fun c => if c = cpu then true else mask c

/-- The profile the timer reads its knobs from:
`values = gpu_idle ? &idle_values : &busy_values`. -/
def timer_values (g : tunables) : interactive_vaules :=
  if g.gpu_idle then g.idle else g.busy

/-- The function `cpufreq_interactive_timer_resched(pcpu)`. -/
def cpufreq_interactive_timer_resched (inp : timer_input) (g : tunables)
    (policy : cpufreq_policy) (pcpu : cpufreq_interactive_cpuinfo) :
    cpufreq_interactive_cpuinfo :=
  let values := timer_values g
  let expires := u32 (inp.jiffies + inp.usecs_to_jiffies values.timer_rate)
  let pcpu := { pcpu with cpu_timer := { pending := true, expires := expires } }
  let pcpu :=
    if values.timer_slack_val ≥ 0 ∧ pcpu.target_freq > policy.min then
      let expires := u32 (expires + inp.usecs_to_jiffies values.timer_slack_val.toNat)
      { pcpu with cpu_slack_timer := { pending := true, expires := expires } }
    else pcpu
  { pcpu with
    time_in_idle := inp.resched_idle
    time_in_idle_timestamp := inp.resched_wall
    cputime_speedadj := 0
    cputime_speedadj_timestamp := inp.resched_wall }

/-- The function `update_load(cpu)` on the record of that CPU; `now` and
`now_idle` are the wall and idle times `get_cpu_idle_time` returns.  The
deltas are `unsigned int`, their difference is taken in `unsigned int` and
the accumulator is a `u64`.  The value returned by the C function is `now`. -/
def update_load (now now_idle : Nat) (policy : cpufreq_policy)
    (pcpu : cpufreq_interactive_cpuinfo) : cpufreq_interactive_cpuinfo :=
  let delta_idle := u32 (u64_sub now_idle pcpu.time_in_idle)
  let delta_time := u32 (u64_sub now pcpu.time_in_idle_timestamp)
  let active_time := u32_sub delta_time delta_idle
  { pcpu with
    cputime_speedadj := u64 (pcpu.cputime_speedadj + active_time * policy.cur)
    time_in_idle := now_idle
    time_in_idle_timestamp := now }

/-- The label `exit:` of the timer function. -/
def timer_exit (pcpu : cpufreq_interactive_cpuinfo) (mask : Nat → Bool) (woken : Bool) :
    timer_result :=
  { pcpu := pcpu, speedchange_cpumask := mask, woken := woken }

/-- The label `rearm:` of the timer function:
`if (!timer_pending(&pcpu->cpu_timer)) cpufreq_interactive_timer_resched(pcpu);`. -/
def timer_rearm (inp : timer_input) (g : tunables) (policy : cpufreq_policy)
    (pcpu : cpufreq_interactive_cpuinfo) (mask : Nat → Bool) (woken : Bool) : timer_result :=
  if !pcpu.cpu_timer.pending then
    timer_exit (cpufreq_interactive_timer_resched inp g policy pcpu) mask woken
  else timer_exit pcpu mask woken

/-- The label `rearm_if_notmax:` of the timer function. -/
def timer_rearm_if_notmax (inp : timer_input) (g : tunables) (policy : cpufreq_policy)
    (pcpu : cpufreq_interactive_cpuinfo) (mask : Nat → Bool) (woken : Bool) : timer_result :=
  if pcpu.target_freq = policy.max then timer_exit pcpu mask woken
  else timer_rearm inp g policy pcpu mask woken

/-- The choice of `new_freq` in the timer function (the `if` on `cpu_load`). -/
def timer_new_freq (inp : timer_input) (g : tunables) (policy : cpufreq_policy)
    (pcpu : cpufreq_interactive_cpuinfo) (values : interactive_vaules)
    (loadadjfreq cpu_load : Nat) : Option Nat :=
  if cpu_load ≥ values.go_hispeed_load then
    if pcpu.target_freq < values.hispeed_freq then some values.hispeed_freq
    else
      match choose_freq g inp.ktime_ms policy.cur pcpu.freq_table loadadjfreq with
      | none => none
      | some new_freq =>
        if new_freq < values.hispeed_freq then some values.hispeed_freq else some new_freq
  else choose_freq g inp.ktime_ms policy.cur pcpu.freq_table loadadjfreq

/-- The value `delta_time = (unsigned int)(now - pcpu->cputime_speedadj_timestamp)`
of the timer function, on the record `update_load` has updated. -/
def timer_delta_time (inp : timer_input) (pcpu : cpufreq_interactive_cpuinfo) : Nat :=
  u32 (u64_sub inp.now pcpu.cputime_speedadj_timestamp)

/-- The value `loadadjfreq` of the timer function:
`do_div(cputime_speedadj, delta_time)` followed by
`(unsigned int)cputime_speedadj * 100`, a product of `unsigned int`. -/
def timer_loadadjfreq (inp : timer_input) (pcpu : cpufreq_interactive_cpuinfo) : Nat :=
  u32 (u32 (pcpu.cputime_speedadj / timer_delta_time inp pcpu) * 100)

/-- The test of the above-hispeed gate of the timer function, on the fields
`target_freq` and `hispeed_validate_time` of the record. -/
def above_hispeed_gate (now : Nat) (values : interactive_vaules)
    (target_freq hispeed_validate_time new_freq : Nat) : Prop :=
  target_freq ≥ values.hispeed_freq ∧ new_freq > target_freq ∧
    u64_sub now hispeed_validate_time < values.above_hispeed_delay_val

instance (now : Nat) (values : interactive_vaules)
    (target_freq hispeed_validate_time new_freq : Nat) :
    Decidable (above_hispeed_gate now values target_freq hispeed_validate_time new_freq) :=
  inferInstanceAs (Decidable (target_freq ≥ values.hispeed_freq ∧ new_freq > target_freq ∧
    u64_sub now hispeed_validate_time < values.above_hispeed_delay_val))

/-- The test of the floor gate of the timer function, on the fields
`floor_freq` and `floor_validate_time` of the record and the quantized
`new_freq`. -/
def floor_gate (now : Nat) (values : interactive_vaules)
    (floor_freq floor_validate_time new_freq : Nat) : Prop :=
  new_freq < floor_freq ∧ u64_sub now floor_validate_time < values.min_sample_time

instance (now : Nat) (values : interactive_vaules)
    (floor_freq floor_validate_time new_freq : Nat) :
    Decidable (floor_gate now values floor_freq floor_validate_time new_freq) :=
  inferInstanceAs (Decidable (new_freq < floor_freq ∧
    u64_sub now floor_validate_time < values.min_sample_time))

/-- The floor update of the timer function:
`if (new_freq > values->hispeed_freq) { floor_freq = new_freq; floor_validate_time = now; }`. -/
def timer_floor_update (now : Nat) (values : interactive_vaules)
    (pcpu : cpufreq_interactive_cpuinfo) (new_freq : Nat) : cpufreq_interactive_cpuinfo :=
  if new_freq > values.hispeed_freq then
    { pcpu with floor_freq := new_freq, floor_validate_time := now }
  else pcpu

/-- The function `cpufreq_interactive_timer(data)` on the record of CPU `data`;
`policy` is the object `pcpu->policy` points to.  `cpu_load` is an `int`
compared with an `unsigned long`, which on this 32-bit target compares the
`unsigned int` quotient itself.  A failed table lookup goes to `rearm`;
otherwise `new_freq` becomes the frequency of the selected entry. -/
def cpufreq_interactive_timer (inp : timer_input) (g : tunables) (policy : cpufreq_policy)
    (data : Nat) (pcpu : cpufreq_interactive_cpuinfo) (mask : Nat → Bool) :
    Option timer_result :=
  if !inp.trylock then some (timer_exit pcpu mask false)
  else if !pcpu.governor_enabled then some (timer_exit pcpu mask false)
  else
    let pcpu := update_load inp.now inp.now_idle policy pcpu
    let now := inp.now
    let delta_time := timer_delta_time inp pcpu
    if delta_time = 0 then some (timer_rearm inp g policy pcpu mask false)
    else
      let values := timer_values g
      let loadadjfreq := timer_loadadjfreq inp pcpu
      if pcpu.target_freq = 0 then none
      else
        let cpu_load := loadadjfreq / pcpu.target_freq
        match timer_new_freq inp g policy pcpu values loadadjfreq cpu_load with
        | none => none
        | some new_freq =>
          if above_hispeed_gate now values pcpu.target_freq pcpu.hispeed_validate_time new_freq then
            some (timer_rearm inp g policy pcpu mask false)
          else
            let pcpu := { pcpu with hispeed_validate_time := now }
            match table_target_frequency pcpu.freq_table new_freq .L with
            | none => some (timer_rearm inp g policy pcpu mask false)
            | some new_freq =>
              if floor_gate now values pcpu.floor_freq pcpu.floor_validate_time new_freq then
                some (timer_rearm inp g policy pcpu mask false)
              else
                let pcpu := timer_floor_update now values pcpu new_freq
                if pcpu.target_freq = new_freq then
                  some (timer_rearm_if_notmax inp g policy pcpu mask false)
                else
                  let pcpu := { pcpu with target_freq := new_freq }
                  let mask := cpumask_set_cpu data mask
                  some (timer_rearm_if_notmax inp g policy pcpu mask true)

/-- The body of the `for_each_cpu(j, policy->cpus)` loop of
`CPUFREQ_GOV_START` on the record of one CPU: `policy_ref` is the pointer
`policy`, `policy` the object it points to, `freq_table` the table
`cpufreq_frequency_get_table` returns and `ktime_us` the value of
`ktime_to_us(ktime_get())`. -/
def governor_start_cpu (policy_ref : Nat) (policy : cpufreq_policy) (freq_table : List Nat)
    (ktime_us jiffies : Nat) (usecs_to_jiffies : Nat → Nat) (g : tunables)
    (pcpu : cpufreq_interactive_cpuinfo) : cpufreq_interactive_cpuinfo :=
  let pcpu := { pcpu with policy := policy_ref, target_freq := policy.cur }
  let pcpu := { pcpu with freq_table := freq_table, floor_freq := pcpu.target_freq }
  let pcpu := { pcpu with floor_validate_time := ktime_us }
  let pcpu := { pcpu with hispeed_validate_time := pcpu.floor_validate_time }
  let expires := u32 (jiffies + usecs_to_jiffies g.idle.timer_rate)
  let pcpu := { pcpu with cpu_timer := { pending := true, expires := expires } }
  let pcpu :=
    if g.idle.timer_slack_val ≥ 0 then
      let expires := u32 (expires + usecs_to_jiffies g.idle.timer_slack_val.toNat)
      { pcpu with cpu_slack_timer := { pending := true, expires := expires } }
    else pcpu
  { pcpu with governor_enabled := true }

/-! ## The speed-change worker -/

/-- The state the speed-change worker works on: the per-CPU records
`per_cpu(cpuinfo, ·)`, the policy objects by reference, and the shared mask
`speedchange_cpumask`. -/
structure governor_system where
  cpuinfo : Nat → cpufreq_interactive_cpuinfo
  policies : Nat → cpufreq_policy
  speedchange_cpumask : Nat → Bool

/-- A call `__cpufreq_driver_target(policy, target_freq, relation)`. -/
structure driver_request where
  policy : Nat
  target_freq : Nat
  rel : relation
  deriving DecidableEq, Repr

/-- What the worker reads from the platform: the number of CPU ids
`for_each_cpu` ranges over, the result of `down_read_trylock` on each CPU's
`enable_sem`, and the effect of the hardware driver on a policy object. -/
structure worker_input where
  nr_cpu_ids : Nat
  trylock : Nat → Bool
  driver : cpufreq_policy → Nat → relation → cpufreq_policy

/-- The inner loop of the worker over `pcpu->policy->cpus`:
`if (pjcpu->target_freq > max_freq) max_freq = pjcpu->target_freq;`
starting from `max_freq = 0`. -/
def speedchange_max_freq (cpuinfo : Nat → cpufreq_interactive_cpuinfo) (cpus : List Nat) :
    Nat :=
  cpus.foldl
    (fun max_freq j =>
      if (cpuinfo j).target_freq > max_freq then (cpuinfo j).target_freq else max_freq)
    0

/-- The body of the worker's `for_each_cpu(cpu, &tmp_mask)` loop for one CPU:
the new system state and the driver calls issued. -/
def speedchange_cpu (inp : worker_input) (sys : governor_system) (cpu : Nat) :
    governor_system × List driver_request :=
  let pcpu := sys.cpuinfo cpu
  if !inp.trylock cpu then (sys, [])
  else if !pcpu.governor_enabled then (sys, [])
  else
    let policy := sys.policies pcpu.policy
    let max_freq := speedchange_max_freq sys.cpuinfo policy.cpus
    if max_freq ≠ policy.cur then
      ({ sys with
          policies := fun r =>
            if r = pcpu.policy then inp.driver policy max_freq .H else sys.policies r },
       [{ policy := pcpu.policy, target_freq := max_freq, rel := .H }])
    else (sys, [])

/-- The worker's `for_each_cpu(cpu, &tmp_mask)` loop over a list of CPUs. -/
def speedchange_cpus (inp : worker_input) :
    List Nat → governor_system → governor_system × List driver_request
  | [], sys => (sys, [])
  | cpu :: rest, sys =>
    let r := speedchange_cpu inp sys cpu
    let r2 := speedchange_cpus inp rest r.1
    (r2.1, r.2 ++ r2.2)

/-- One drain of the worker `cpufreq_interactive_speedchange_task` once the
mask is non-empty: `tmp_mask = speedchange_cpumask`, `cpumask_clear`, then
the loop over the CPUs of `tmp_mask` in ascending order. -/
def speedchange_drain (inp : worker_input) (sys : governor_system) :
    governor_system × List driver_request :=
  let tmp_mask := sys.speedchange_cpumask
  let sys := { sys with speedchange_cpumask := fun _ => false }
  speedchange_cpus inp ((List.range inp.nr_cpu_ids).filter tmp_mask) sys

/-- The CPUs a drain processes, each with the system state in which its loop
body runs. -/
def speedchange_trace (inp : worker_input) :
    List Nat → governor_system → List (Nat × governor_system)
  | [], _ => []
  | cpu :: rest, sys => (cpu, sys) :: speedchange_trace inp rest (speedchange_cpu inp sys cpu).1

/-- The steps of one drain of the worker on the system `sys`: the CPUs of
`speedchange_cpumask` in ascending order, each with the state in which it is
processed, starting from `sys` with the shared mask cleared. -/
def speedchange_drain_trace (inp : worker_input) (sys : governor_system) :
    List (Nat × governor_system) :=
  speedchange_trace inp ((List.range inp.nr_cpu_ids).filter sys.speedchange_cpumask)
    { sys with speedchange_cpumask := fun _ => false }

/-! ## The hot-plug decider -/

/-- The constant `DEFAULT_COUNTER`. -/
def DEFAULT_COUNTER : Int := 50

/-- The constant `BOOST_TIME` (milliseconds). -/
def BOOST_TIME : Nat := 3000

/-- The constant `DEFAULT_CORES_ON_TOUCH`. -/
def DEFAULT_CORES_ON_TOUCH : Nat := 2

/-- The constant `ACTIVE_CORES`. -/
def ACTIVE_CORES : Nat := 4

/-- The table `hotplug_val[GPU_STATE][ACTIVE_CORES][TUNABLES]`; the source
labels the two columns `DEFAULT_THIRD_LEVEL, DEFAULT_FIRST_LEVEL`. -/
def hotplug_val : List (List (List Nat)) :=
  [[[0, 80], [40, 85], [50, 90], [60, 100]],
   [[0, 60], [30, 60], [30, 65], [40, 100]]]

/-- The CPUs `for_each_possible_cpu` ranges over: the decider is written for
the four cores of the platform (`ACTIVE_CORES`, the four rows of the table,
the scan from CPU 3 in `offline_core`). -/
def possible_cpus : List Nat := List.range ACTIVE_CORES

/-- The per-CPU record `struct cpu_load_data`. -/
structure cpu_load_data where
  prev_cpu_idle : Nat
  prev_cpu_wall : Nat
  deriving DecidableEq, Repr

/-- What `get_cpu_load` reads from the platform for one CPU: the wall and idle
times of `get_cpu_idle_time`, `policy.max` and `policy.cur` of
`cpufreq_get_policy`, and the value of `get_cur_max(policy.cpu)`. -/
structure load_sample where
  cur_wall_time : Nat
  cur_idle_time : Nat
  policy_max : Nat
  policy_cur : Nat
  cur_max : Nat
  deriving DecidableEq, Repr

/-- A hot-plug request issued by the decider. -/
inductive hotplug_request where
  | cpu_up (cpu : Nat)
  | cpu_down (cpu : Nat)
  deriving DecidableEq, Repr

/-- The state of the hot-plug driver: its static variables, the per-CPU load
records, the online mask of the kernel, and the requests issued so far (a
log, oldest first). -/
structure hotplug_state where
  cores_on_touch : Nat
  now : Nat
  coreboost_endtime : Nat
  first_counter : Int
  third_counter : Int
  cpuload : Nat → cpu_load_data
  cpu_online : Nat → Bool
  requests : List hotplug_request

/-- What one decider tick reads from the platform: the millisecond clock, the
signals `gpu_idle` and `boostpulse_endtime`, the load sample of each CPU, and
whether a hot-plug request succeeds. -/
structure hotplug_input where
  ktime_ms : Nat
  gpu_idle : Bool
  boostpulse_endtime : Nat
  samples : Nat → load_sample
  plug_ok : hotplug_request → Bool

/-- The function `get_cpu_load(cpu)`: the load and the updated record, `none`
for a division by a zero `max_freq`.  The deltas and the products are
`unsigned int`. -/
def get_cpu_load (s : load_sample) (pcpu : cpu_load_data) : Option (Nat × cpu_load_data) :=
  let wall_time := u32 (u64_sub s.cur_wall_time pcpu.prev_cpu_wall)
  let idle_time := u32 (u64_sub s.cur_idle_time pcpu.prev_cpu_idle)
  let pcpu := { prev_cpu_idle := s.cur_idle_time, prev_cpu_wall := s.cur_wall_time }
  if wall_time = 0 ∨ wall_time < idle_time then some (0, pcpu)
  else
    let cur_max := s.cur_max
    let max_freq := if cur_max ≥ s.policy_max then s.policy_max else cur_max
    let cur_freq :=
      if cur_max ≥ s.policy_max then s.policy_cur
      else if s.policy_cur > cur_max then cur_max else s.policy_cur
    let cur_load := u32 (100 * u32_sub wall_time idle_time) / wall_time
    if max_freq = 0 then none
    else some (u32 (cur_load * cur_freq) / max_freq, pcpu)

/-- The calls `cpu_up(cpu)` and `cpu_down(cpu)`: the request is logged and,
when it succeeds, the online mask changes. -/
def hotplug_call (inp : hotplug_input) (st : hotplug_state) (req : hotplug_request) :
    hotplug_state :=
  let st := { st with requests := st.requests ++ [req] }
  if inp.plug_ok req then
    match req with
    | .cpu_up cpu => { st with cpu_online := fun c => if c = cpu then true else st.cpu_online c }
    | .cpu_down cpu =>
      { st with cpu_online := fun c => if c = cpu then false else st.cpu_online c }
  else st

/-- The function `online_core(cpus_num)`. -/
def online_core (inp : hotplug_input) (st : hotplug_state) (cpus_num : Nat) : hotplug_state :=
  if cpus_num > 3 then st
  else
    let st :=
      match possible_cpus.find? (fun cpu => !st.cpu_online cpu) with
      | some cpu => hotplug_call inp st (.cpu_up cpu)
      | none => st
    { st with
      coreboost_endtime := u64 (st.now + BOOST_TIME)
      first_counter := 0
      third_counter := to_short (-DEFAULT_COUNTER) }

/-- The function `offline_core(cpus_num)`; the loop `for (cpu = 3; cpu; cpu--)`
scans CPUs 3, 2, 1. -/
def offline_core (inp : hotplug_input) (st : hotplug_state) (cpus_num : Nat) : hotplug_state :=
  if cpus_num = 1 ∨ (cpus_num = st.cores_on_touch ∧ st.coreboost_endtime > st.now) then st
  else
    let st :=
      match [3, 2, 1].find? (fun cpu => st.cpu_online cpu) with
      | some cpu => hotplug_call inp st (.cpu_down cpu)
      | none => st
    { st with
      coreboost_endtime := u64 (st.now + BOOST_TIME)
      first_counter := 0
      third_counter := 0 }

/-- An entry `hotplug_val[(gpu_idle)?0:1][online_cpus-1][k]`; the index
`online_cpus - 1` is computed in `unsigned int`, and a read outside the table
has no defined value. -/
def hotplug_val_at (gpu_idle : Bool) (online_cpus k : Nat) : Option Nat :=
  match hotplug_val[if gpu_idle then 0 else 1]? with
  | none => none
  | some rows =>
    match rows[u32_sub online_cpus 1]? with
    | none => none
    | some row => row[k]?

/-- The function `scale_first_level(online_cpus)`. -/
def scale_first_level (gpu_idle : Bool) (online_cpus : Nat) : Option Nat :=
  hotplug_val_at gpu_idle online_cpus 1

/-- The function `scale_third_level(online_cpus)`. -/
def scale_third_level (gpu_idle : Bool) (online_cpus : Nat) : Option Nat :=
  hotplug_val_at gpu_idle online_cpus 0

/-- The loop `for_each_online_cpu(cpu) { load = get_cpu_load(cpu); av_load += load; }`
over a list of CPUs: the sum (an `unsigned int`) and the updated records. -/
def hotplug_sum_loads (inp : hotplug_input) :
    List Nat → (Nat → cpu_load_data) → Nat → Option (Nat × (Nat → cpu_load_data))
  | [], cpuload, av_load => some (av_load, cpuload)
  | cpu :: rest, cpuload, av_load =>
    match get_cpu_load (inp.samples cpu) (cpuload cpu) with
    | none => none
    | some (load, data) =>
      hotplug_sum_loads inp rest (fun c => if c = cpu then data else cpuload c)
        (u32 (av_load + load))

/-- The counter deltas `(up_val, down_val)` of a tick. -/
def hotplug_vals (inp : hotplug_input) (st : hotplug_state) (online_cpus : Nat) : Nat × Nat :=
  if inp.gpu_idle then (3, 6)
  else if inp.boostpulse_endtime > st.now ∧ online_cpus < st.cores_on_touch then (15, 7)
  else (10, 5)

/-- The branch of `decide_hotplug_func` taken when
`av_load >= scale_first_level(online_cpus)`. -/
def hotplug_up (inp : hotplug_input) (st : hotplug_state) (online_cpus up_val : Nat) :
    hotplug_state :=
  let st := { st with coreboost_endtime := u64 (st.now + BOOST_TIME) }
  let st :=
    if st.first_counter < DEFAULT_COUNTER then
      { st with first_counter := to_short (st.first_counter + up_val) }
    else st
  let st :=
    if st.third_counter > 0 then
      { st with third_counter := to_short (st.third_counter - up_val) }
    else st
  if st.first_counter ≥ DEFAULT_COUNTER then online_core inp st online_cpus else st

/-- The branch of `decide_hotplug_func` taken when the first test fails and
`av_load <= scale_third_level(online_cpus)`. -/
def hotplug_down (inp : hotplug_input) (st : hotplug_state) (online_cpus down_val : Nat) :
    hotplug_state :=
  let st :=
    if st.third_counter < DEFAULT_COUNTER then
      { st with third_counter := to_short (st.third_counter + down_val) }
    else st
  let st :=
    if st.first_counter > 0 then
      { st with first_counter := to_short (st.first_counter - down_val) }
    else st
  if st.third_counter ≥ DEFAULT_COUNTER then offline_core inp st online_cpus else st

/-- The final `else` branch of `decide_hotplug_func`. -/
def hotplug_hold (st : hotplug_state) (down_val : Nat) : hotplug_state :=
  let st :=
    if u64 (st.now + BOOST_TIME / 2) > st.coreboost_endtime then
      { st with coreboost_endtime := u64 (st.now + BOOST_TIME / 2) }
    else st
  let st :=
    if st.first_counter > 0 then
      { st with first_counter := to_short (st.first_counter - down_val) }
    else st
  if st.third_counter > 0 then
    { st with third_counter := to_short (st.third_counter - down_val) }
  else st

/-- The branch a decider tick takes. -/
inductive hotplug_branch where
  | up
  | down
  | hold
  deriving DecidableEq, Repr

/-- The three-way test of `decide_hotplug_func` on the average load. -/
def hotplug_select (gpu_idle : Bool) (online_cpus av_load : Nat) : Option hotplug_branch :=
  match scale_first_level gpu_idle online_cpus with
  | none => none
  | some first_level =>
    if av_load ≥ first_level then some .up
    else
      match scale_third_level gpu_idle online_cpus with
      | none => none
      | some third_level => if av_load ≤ third_level then some .down else some .hold

/-- The part of `decide_hotplug_func` that follows the computation of
`av_load`: the choice of `up_val` and `down_val` and the three-way branch. -/
def hotplug_decide (inp : hotplug_input) (st : hotplug_state) (online_cpus av_load : Nat) :
    Option hotplug_state :=
  let vals := hotplug_vals inp st online_cpus
  match hotplug_select inp.gpu_idle online_cpus av_load with
  | none => none
  | some .up => some (hotplug_up inp st online_cpus vals.1)
  | some .down => some (hotplug_down inp st online_cpus vals.2)
  | some .hold => some (hotplug_hold st vals.2)

/-- The average load a decider tick computes: the sum of `get_cpu_load` over
the online CPUs divided by their number, with the updated load records. -/
def hotplug_av_load (inp : hotplug_input) (st : hotplug_state) :
    Option (Nat × (Nat → cpu_load_data)) :=
  let online := possible_cpus.filter st.cpu_online
  let online_cpus := online.length
  match hotplug_sum_loads inp online st.cpuload 0 with
  | none => none
  | some (sum, cpuload) => if online_cpus = 0 then none else some (sum / online_cpus, cpuload)

/-- The function `decide_hotplug_func` (one tick of the decider; the re-queue
after 30 ms is not part of the state). -/
def decide_hotplug_func (inp : hotplug_input) (st : hotplug_state) : Option hotplug_state :=
  let st := { st with now := inp.ktime_ms }
  let online_cpus := (possible_cpus.filter st.cpu_online).length
  match hotplug_av_load inp st with
  | none => none
  | some (av_load, cpuload) =>
    hotplug_decide inp { st with cpuload := cpuload } online_cpus av_load

/-! ## Concrete inputs -/

/-- A frequency table in kHz, lowest entry first. -/
def sample_freq_table : List Nat := [384000, 702000, 1026000, 1350000, 1512000]

/-- A per-CPU record as it is before the governor starts: all fields zero. -/
def boot_cpuinfo : cpufreq_interactive_cpuinfo :=
  { cpu_timer := { pending := false, expires := 0 },
    cpu_slack_timer := { pending := false, expires := 0 },
    time_in_idle := 0, time_in_idle_timestamp := 0, cputime_speedadj := 0,
    cputime_speedadj_timestamp := 0, policy := 0, freq_table := [], target_freq := 0,
    floor_freq := 0, floor_validate_time := 0, hispeed_validate_time := 0,
    governor_enabled := false }

/-- A policy over four CPUs running at the lowest table frequency. -/
def policy_at_min : cpufreq_policy :=
  { cpus := [0, 1, 2, 3], min := 384000, max := 1512000, cur := 384000 }

/-- A policy over four CPUs running at the highest table frequency. -/
def policy_at_max : cpufreq_policy :=
  { cpus := [0, 1, 2, 3], min := 384000, max := 1512000, cur := 1512000 }

/-- The conversion `usecs_to_jiffies` for a 100 Hz tick. -/
def sample_usecs_to_jiffies (u : Nat) : Nat := (u + 9999) / 10000

/-- The record of a CPU started at time 1000000 us on a policy running at the
lowest frequency. -/
def started_at_min : cpufreq_interactive_cpuinfo :=
  governor_start_cpu 0 policy_at_min sample_freq_table 1000000 100 sample_usecs_to_jiffies
    default_tunables boot_cpuinfo

/-- The record of a CPU started at time 1000000 us on a policy running at the
highest frequency. -/
def started_at_max : cpufreq_interactive_cpuinfo :=
  governor_start_cpu 0 policy_at_max sample_freq_table 1000000 100 sample_usecs_to_jiffies
    default_tunables boot_cpuinfo

/-- A run of the timer at time `now` us in which the CPU has been idle for
`idle` us since boot. -/
def timer_input_at (now idle : Nat) : timer_input :=
  { trylock := true, now := now, now_idle := idle, ktime_ms := now / 1000,
    jiffies := now / 10000, usecs_to_jiffies := sample_usecs_to_jiffies,
    resched_wall := now, resched_idle := idle }

/-- Four CPUs on one policy (reference 0) running at 384000 kHz; CPU 0 wants
1350000 kHz, the others 384000 kHz, CPU 3 is not governed; CPUs 0 and 3 are
in `speedchange_cpumask`. -/
def sample_system : governor_system :=
  { cpuinfo := fun j =>
      if j = 0 then { started_at_min with target_freq := 1350000 }
      else if j = 3 then { started_at_min with governor_enabled := false }
      else started_at_min
    policies := fun _ => policy_at_min
    speedchange_cpumask := fun j => j = 0 || j = 3 }

/-- A worker run on four CPU ids in which every try-lock succeeds and the
driver sets `policy.cur` to the requested frequency. -/
def sample_worker_input : worker_input :=
  { nr_cpu_ids := 4
    trylock := fun _ => true
    driver := fun policy target_freq _ => { policy with cur := target_freq } }

/-- Scenario D: a decider tick at 5000 ms with the GPU idle in which every CPU
reports a load of 85 (85 of 100 us busy at the maximum frequency). -/
def scenario_D_input : hotplug_input :=
  { ktime_ms := 5000, gpu_idle := true, boostpulse_endtime := 0,
    samples := fun _ =>
      { cur_wall_time := 100, cur_idle_time := 15, policy_max := 1512000,
        policy_cur := 1512000, cur_max := 1512000 },
    plug_ok := fun _ => true }

/-- Scenario D: CPUs 0, 1 and 2 online, `first_counter = 44`. -/
def scenario_D_state : hotplug_state :=
  { cores_on_touch := DEFAULT_CORES_ON_TOUCH, now := 0, coreboost_endtime := 0,
    first_counter := 44, third_counter := 0,
    cpuload := fun _ => { prev_cpu_idle := 0, prev_cpu_wall := 0 },
    cpu_online := fun c => decide (c < 3), requests := [] }

/-- Scenario E: a decider tick at 5000 ms with the GPU busy and the touch
boost active until 6000 ms, in which every CPU reports a load of 62. -/
def scenario_E_input : hotplug_input :=
  { ktime_ms := 5000, gpu_idle := false, boostpulse_endtime := 6000,
    samples := fun _ =>
      { cur_wall_time := 100, cur_idle_time := 38, policy_max := 1512000,
        policy_cur := 1512000, cur_max := 1512000 },
    plug_ok := fun _ => true }

/-- Scenario E: only CPU 0 online, `first_counter = 48`. -/
def scenario_E_state : hotplug_state :=
  { cores_on_touch := DEFAULT_CORES_ON_TOUCH, now := 0, coreboost_endtime := 0,
    first_counter := 48, third_counter := 0,
    cpuload := fun _ => { prev_cpu_idle := 0, prev_cpu_wall := 0 },
    cpu_online := fun c => decide (c = 0), requests := [] }

/-- The load records an average-load computation leaves (zero records when it
has no result). -/
def hotplug_cpuload_of (r : Option (Nat × (Nat → cpu_load_data))) : Nat → cpu_load_data :=
  (r.getD (0, fun _ => { prev_cpu_idle := 0, prev_cpu_wall := 0 })).2

/-- The counters, the boost deadline, the request log and the online CPUs a
decider tick leaves. -/
def hotplug_summary (r : Option hotplug_state) :
    Option (Int × Int × Nat × List hotplug_request × List Nat) :=
  r.map (fun st =>
    (st.first_counter, st.third_counter, st.coreboost_endtime, st.requests,
      possible_cpus.filter st.cpu_online))

/-- The result of a run of the timer function, or the unchanged record when
the run has no result. -/
def timer_result_of (r : Option timer_result) (p : cpufreq_interactive_cpuinfo) :
    timer_result :=
  r.getD (timer_exit p (fun _ => false) false)

/-- The target, floor and validation times a run of the timer leaves, with the
pending flag of the timer, the mask bit of CPU 0 and the wake-up flag. -/
def timer_summary (r : Option timer_result) :
    Option (Nat × Nat × Nat × Nat × Bool × Bool × Bool) :=
  r.map (fun r =>
    (r.pcpu.target_freq, r.pcpu.floor_freq, r.pcpu.floor_validate_time,
      r.pcpu.hispeed_validate_time, r.pcpu.cpu_timer.pending, r.speedchange_cpumask 0,
      r.woken))

/-! ## The outcomes of the timer function -/

/-- The ways one run of `cpufreq_interactive_timer` can end, each with the
conditions under which the code takes it and the result it leaves.  `p1` in
the descriptions is the record after `update_load`. -/
inductive timer_outcome (inp : timer_input) (g : tunables) (policy : cpufreq_policy)
    (data : Nat) (p : cpufreq_interactive_cpuinfo) (mask : Nat → Bool) :
    timer_result → Prop where
  | not_run :
      inp.trylock = false ∨ p.governor_enabled = false →
      timer_outcome inp g policy data p mask (timer_exit p mask false)
  | no_sample :
      inp.trylock = true → p.governor_enabled = true →
      timer_delta_time inp (update_load inp.now inp.now_idle policy p) = 0 →
      timer_outcome inp g policy data p mask
        (timer_rearm inp g policy (update_load inp.now inp.now_idle policy p) mask false)
  | above_hispeed (new_freq : Nat) :
      inp.trylock = true → p.governor_enabled = true →
      timer_delta_time inp (update_load inp.now inp.now_idle policy p) ≠ 0 →
      p.target_freq ≠ 0 →
      timer_new_freq inp g policy (update_load inp.now inp.now_idle policy p) (timer_values g)
        (timer_loadadjfreq inp (update_load inp.now inp.now_idle policy p))
        (timer_loadadjfreq inp (update_load inp.now inp.now_idle policy p) / p.target_freq)
        = some new_freq →
      above_hispeed_gate inp.now (timer_values g) p.target_freq p.hispeed_validate_time
        new_freq →
      timer_outcome inp g policy data p mask
        (timer_rearm inp g policy (update_load inp.now inp.now_idle policy p) mask false)
  | lookup_failed (new_freq : Nat) :
      inp.trylock = true → p.governor_enabled = true →
      timer_delta_time inp (update_load inp.now inp.now_idle policy p) ≠ 0 →
      p.target_freq ≠ 0 →
      timer_new_freq inp g policy (update_load inp.now inp.now_idle policy p) (timer_values g)
        (timer_loadadjfreq inp (update_load inp.now inp.now_idle policy p))
        (timer_loadadjfreq inp (update_load inp.now inp.now_idle policy p) / p.target_freq)
        = some new_freq →
      ¬ above_hispeed_gate inp.now (timer_values g) p.target_freq p.hispeed_validate_time
        new_freq →
      table_target_frequency p.freq_table new_freq .L = none →
      timer_outcome inp g policy data p mask
        (timer_rearm inp g policy
          { update_load inp.now inp.now_idle policy p with hispeed_validate_time := inp.now }
          mask false)
  | floor_held (new_freq q : Nat) :
      inp.trylock = true → p.governor_enabled = true →
      timer_delta_time inp (update_load inp.now inp.now_idle policy p) ≠ 0 →
      p.target_freq ≠ 0 →
      timer_new_freq inp g policy (update_load inp.now inp.now_idle policy p) (timer_values g)
        (timer_loadadjfreq inp (update_load inp.now inp.now_idle policy p))
        (timer_loadadjfreq inp (update_load inp.now inp.now_idle policy p) / p.target_freq)
        = some new_freq →
      ¬ above_hispeed_gate inp.now (timer_values g) p.target_freq p.hispeed_validate_time
        new_freq →
      table_target_frequency p.freq_table new_freq .L = some q →
      floor_gate inp.now (timer_values g) p.floor_freq p.floor_validate_time q →
      timer_outcome inp g policy data p mask
        (timer_rearm inp g policy
          { update_load inp.now inp.now_idle policy p with hispeed_validate_time := inp.now }
          mask false)
  | already (new_freq q : Nat) :
      inp.trylock = true → p.governor_enabled = true →
      timer_delta_time inp (update_load inp.now inp.now_idle policy p) ≠ 0 →
      p.target_freq ≠ 0 →
      timer_new_freq inp g policy (update_load inp.now inp.now_idle policy p) (timer_values g)
        (timer_loadadjfreq inp (update_load inp.now inp.now_idle policy p))
        (timer_loadadjfreq inp (update_load inp.now inp.now_idle policy p) / p.target_freq)
        = some new_freq →
      ¬ above_hispeed_gate inp.now (timer_values g) p.target_freq p.hispeed_validate_time
        new_freq →
      table_target_frequency p.freq_table new_freq .L = some q →
      ¬ floor_gate inp.now (timer_values g) p.floor_freq p.floor_validate_time q →
      p.target_freq = q →
      timer_outcome inp g policy data p mask
        (timer_rearm_if_notmax inp g policy
          (timer_floor_update inp.now (timer_values g)
            { update_load inp.now inp.now_idle policy p with hispeed_validate_time := inp.now }
            q)
          mask false)
  | changed (new_freq q : Nat) :
      inp.trylock = true → p.governor_enabled = true →
      timer_delta_time inp (update_load inp.now inp.now_idle policy p) ≠ 0 →
      p.target_freq ≠ 0 →
      timer_new_freq inp g policy (update_load inp.now inp.now_idle policy p) (timer_values g)
        (timer_loadadjfreq inp (update_load inp.now inp.now_idle policy p))
        (timer_loadadjfreq inp (update_load inp.now inp.now_idle policy p) / p.target_freq)
        = some new_freq →
      ¬ above_hispeed_gate inp.now (timer_values g) p.target_freq p.hispeed_validate_time
        new_freq →
      table_target_frequency p.freq_table new_freq .L = some q →
      ¬ floor_gate inp.now (timer_values g) p.floor_freq p.floor_validate_time q →
      p.target_freq ≠ q →
      timer_outcome inp g policy data p mask
        (timer_rearm_if_notmax inp g policy
          { timer_floor_update inp.now (timer_values g)
              { update_load inp.now inp.now_idle policy p with
                hispeed_validate_time := inp.now }
              q with
            target_freq := q }
          (cpumask_set_cpu data mask) true)

/-- The number of table entries strictly inside the bracket `(lo, hi)`. -/
def bracket_count (table : List Nat) (lo hi : Nat) : Nat :=
  (table.filter (fun e => decide (lo < e ∧ e < hi))).length

/-- The frequency `f` is fast enough for the load: the computed load
`loadadjfreq / freq_to_targetload(f)` does not exceed `f`. -/
def fast_enough (tlf : Nat → Option Nat) (loadadjfreq f : Nat) : Bool :=
  match tlf f with
  | some tl => decide (loadadjfreq / tl ≤ f)
  | none => false

/-- The target load is defined and non-zero at every frequency. -/
def loads_nonzero (tlf : Nat → Option Nat) : Prop :=
  ∀ f, ∃ tl, tlf f = some tl ∧ tl ≠ 0

/-- The target load is non-decreasing in the frequency. -/
def loads_monotone (tlf : Nat → Option Nat) : Prop :=
  ∀ f1 f2 t1 t2, f1 ≤ f2 → tlf f1 = some t1 → tlf f2 = some t2 → t1 ≤ t2

/-- The loop invariant of `choose_freq` under non-decreasing target loads: the
candidate is a table entry strictly inside the bracket, the lower end is the
initial 0 or an entry found too slow, the upper end is the initial `UINT_MAX`
or an entry found fast enough. -/
def choose_inv (tlf : Nat → Option Nat) (table : List Nat) (loadadjfreq : Nat)
    (f lo hi : Nat) : Prop :=
  f ∈ table ∧ lo < f ∧ f < hi ∧
  (lo = 0 ∨ (lo ∈ table ∧ fast_enough tlf loadadjfreq lo = false)) ∧
  (hi = UINT_MAX ∨ (hi ∈ table ∧ fast_enough tlf loadadjfreq hi = true))

/-- The postcondition of `choose_freq`: the lowest fast-enough table entry. -/
def choose_post (tlf : Nat → Option Nat) (table : List Nat) (loadadjfreq : Nat)
    (r : Nat) : Prop :=
  r ∈ table ∧ fast_enough tlf loadadjfreq r = true ∧
  ∀ e ∈ table, fast_enough tlf loadadjfreq e = true → r ≤ e

/-! ## Suspend and resume of the hot-plug driver -/

/-- The loop of `suspend_func` over a list of CPUs:
`for_each_possible_cpu(cpu) { if (cpu) cpu_down(cpu); }`. -/
def suspend_cpus (inp : hotplug_input) : List Nat → hotplug_state → hotplug_state
  | [], st => st
  | cpu :: rest, st =>
    if cpu ≠ 0 then suspend_cpus inp rest (hotplug_call inp st (.cpu_down cpu))
    else suspend_cpus inp rest st

/-- The function `suspend_func`: after the decider work is flushed and
cancelled, `cpu_down` for every possible CPU but CPU 0, then both counters are
set to 0.  Of the input only `plug_ok` is read. -/
def suspend_func (inp : hotplug_input) (st : hotplug_state) : hotplug_state :=
  let st := suspend_cpus inp possible_cpus st
  { st with first_counter := 0, third_counter := 0 }

/-- The loop of `resume_func` over a list of CPUs, entered with the count
`onlined`: `if (cpu) { cpu_up(cpu); if (++onlined == 2) break; }`. -/
def resume_cpus (inp : hotplug_input) : List Nat → Nat → hotplug_state → hotplug_state
  | [], _, st => st
  | cpu :: rest, onlined, st =>
    if cpu ≠ 0 then
      let st := hotplug_call inp st (.cpu_up cpu)
      if onlined + 1 = 2 then st else resume_cpus inp rest (onlined + 1) st
    else resume_cpus inp rest onlined st

/-- What `resume_func` leaves: the driver state and the globals it writes. -/
structure resume_result where
  st : hotplug_state
  idle_counter : Nat
  gpu_idle : Bool
  boostpulse_endtime : Nat

/-- The function `resume_func`; its `now` is a local variable set from the
clock (`inp.ktime_ms`), the static `now` is not written.  Of the input only
`ktime_ms` and `plug_ok` are read. -/
def resume_func (inp : hotplug_input) (boostpulse_duration_val : Nat) (st : hotplug_state) :
    resume_result :=
  let now := inp.ktime_ms
  let st := { st with coreboost_endtime := u64 (now + BOOST_TIME) }
  { st := resume_cpus inp possible_cpus 0 st
    idle_counter := 0
    gpu_idle := false
    boostpulse_endtime := u64 (now + boostpulse_duration_val) }

/-- The states of the hot-plug driver reachable from an initial state, in which
both counters are 0, by decider ticks, suspends and resumes with arbitrary
inputs. -/
inductive hotplug_reachable : hotplug_state → Prop where
  | init (st : hotplug_state) :
      st.first_counter = 0 → st.third_counter = 0 → hotplug_reachable st
  | tick (inp : hotplug_input) (st st2 : hotplug_state) :
      hotplug_reachable st → decide_hotplug_func inp st = some st2 → hotplug_reachable st2
  | suspend (inp : hotplug_input) (st : hotplug_state) :
      hotplug_reachable st → hotplug_reachable (suspend_func inp st)
  | resume (inp : hotplug_input) (boostpulse_duration_val : Nat) (st : hotplug_state) :
      hotplug_reachable st → hotplug_reachable (resume_func inp boostpulse_duration_val st).st

/-- The state a decider tick leaves, or the state it started from when the
tick has no result. -/
def hotplug_result_of (inp : hotplug_input) (st : hotplug_state) : hotplug_state :=
  (decide_hotplug_func inp st).getD st

/-- The state after `k` decider ticks with the same input. -/
def hotplug_run (inp : hotplug_input) (st : hotplug_state) : Nat → hotplug_state
  | 0 => st
  | k + 1 => hotplug_result_of inp (hotplug_run inp st k)

/-- Scenario F: a decider tick at 5000 ms with the GPU busy and no touch
boost, in which every CPU reports a load of 25. -/
def scenario_F_input : hotplug_input :=
  { ktime_ms := 5000, gpu_idle := false, boostpulse_endtime := 0,
    samples := fun _ =>
      { cur_wall_time := 100, cur_idle_time := 75, policy_max := 1512000,
        policy_cur := 1512000, cur_max := 1512000 },
    plug_ok := fun _ => true }

/-- Scenario F: CPUs 0 and 1 online, the core boost active until 6000 ms,
`third_counter = 45`. -/
def scenario_F_state : hotplug_state :=
  { cores_on_touch := DEFAULT_CORES_ON_TOUCH, now := 0, coreboost_endtime := 6000,
    first_counter := 0, third_counter := 45,
    cpuload := fun _ => { prev_cpu_idle := 0, prev_cpu_wall := 0 },
    cpu_online := fun c => decide (c < 2), requests := [] }

/-- A decider tick at 5000 ms with the GPU idle in which every CPU reports a
load of 0 (idle for the whole interval). -/
def idle_load_input : hotplug_input :=
  { ktime_ms := 5000, gpu_idle := true, boostpulse_endtime := 0,
    samples := fun _ =>
      { cur_wall_time := 100, cur_idle_time := 100, policy_max := 1512000,
        policy_cur := 1512000, cur_max := 1512000 },
    plug_ok := fun _ => true }

/-- An initial state of the hot-plug driver: both counters 0, only CPU 0
online, zero load records. -/
def hotplug_initial : hotplug_state :=
  { cores_on_touch := DEFAULT_CORES_ON_TOUCH, now := 0, coreboost_endtime := 0,
    first_counter := 0, third_counter := 0,
    cpuload := fun _ => { prev_cpu_idle := 0, prev_cpu_wall := 0 },
    cpu_online := fun c => decide (c = 0), requests := [] }

/-- The record a CPU started at the lowest frequency has after
`cpufreq_interactive_timer_resched` ran at wall time 1000000 us with an idle
time of 0 us: its timer is pending and both timestamps are 1000000. -/
def resched_at_min : cpufreq_interactive_cpuinfo :=
  cpufreq_interactive_timer_resched (timer_input_at 1000000 0) default_tunables policy_at_min
    started_at_min

/-- The record `resched_at_min` when its timer fires: the timer is no longer
pending. -/
def fired_at_min : cpufreq_interactive_cpuinfo :=
  { resched_at_min with cpu_timer := { pending := false, expires := 0 } }

/-- The timestamps a run of the timer function on the record `p` leaves in its
result `r`: either the rescheduling took a new sample, which sets both
timestamps to its wall time and clears the accumulator, or the sample of
`update_load` is the last one, which sets `time_in_idle_timestamp` only. -/
def timer_timestamps (inp : timer_input) (p : cpufreq_interactive_cpuinfo) (r : timer_result) :
    Prop :=
  (r.pcpu.cputime_speedadj_timestamp = inp.resched_wall ∧
    r.pcpu.time_in_idle_timestamp = inp.resched_wall ∧ r.pcpu.cputime_speedadj = 0) ∨
  (r.pcpu.time_in_idle_timestamp = inp.now ∧
    r.pcpu.cputime_speedadj_timestamp = p.cputime_speedadj_timestamp)

/-- A load sample taken 50 s after the previous one on a CPU that was never
idle and runs at its highest frequency, 1512000 kHz. -/
def long_busy_sample : load_sample :=
  { cur_wall_time := 50000000, cur_idle_time := 0, policy_max := 1512000,
    policy_cur := 1512000, cur_max := 1512000 }

/-- A load sample taken 100 us after the previous one on a CPU that was idle
for 75 us of them, runs at 702000 kHz and has its frequency capped at
1026000 kHz by the platform. -/
def capped_sample : load_sample :=
  { cur_wall_time := 100, cur_idle_time := 75, policy_max := 1512000,
    policy_cur := 702000, cur_max := 1026000 }

/-- A load record with both previous times 0. -/
def zero_load_data : cpu_load_data := { prev_cpu_idle := 0, prev_cpu_wall := 0 }

/-- The default tunables during a touch boost that ends at 2000 ms. -/
def touch_tunables : tunables := { default_tunables with boostpulse_endtime := 2000 }

/-- The tunables `touch_tunables` with every knob of `boost_values` but its
target loads set to other values. -/
def touch_tunables_other_knobs : tunables :=
  { touch_tunables with
    boost := { boost_values with
      hispeed_freq := 384000, go_hispeed_load := 1, min_sample_time := 1, timer_rate := 1,
      above_hispeed_delay_val := 1, timer_slack_val := -1 } }

/-! ## `store_target_loads` -/

/-- The error number `EINVAL`. -/
def EINVAL : Int := 22

/-- The error number `ENOMEM`. -/
def ENOMEM : Int := 12

/-- The separators of `store_target_loads`, the string `" :"`. -/
def target_loads_separators : List Char := [' ', ':']

/-- Modelled from the spec: the library function `strpbrk(cs, accept)` is not
among the files; tokens are separated by a space or a colon, and this is the
search for the next separator: the rest of the string `cs` from its first
character that occurs in `accept`, `none` (a null pointer) when there is no
such character. -/
def strpbrk : List Char → List Char → Option (List Char)
  | [], _ => none
  | c :: rest, accept => if c ∈ accept then some (c :: rest) else strpbrk rest accept

/-- The loop `while ((cp = strpbrk(cp + 1, " :"))) ntokens++;`.  A string is
the list of its characters before the terminator, so `cp + 1` lies outside
the string when `cp` is empty, and the loop has no result then.  The first
argument bounds the number of iterations. -/
def store_count_tokens : Nat → List Char → Nat → Option Nat
  | 0, _, _ => none
  | fuel + 1, cp, ntokens =>
    match cp with
    | [] => none
    | _ :: rest =>
      match strpbrk rest target_loads_separators with
      | none => some ntokens
      | some cp => store_count_tokens fuel cp (ntokens + 1)

/-- How the parse loop of `store_target_loads` ends: at `goto err_inval`, or
past the loop with the index `i` and the values written to
`new_target_loads[0 .. i-1]`. -/
inductive store_parse_result where
  | inval
  | done (i : Nat) (loads : List Nat)
  deriving DecidableEq, Repr

/-- The parse loop of `store_target_loads`:
`while (i < ntokens) { if (sscanf(cp, "%u", &new_target_loads[i++]) != 1)
goto err_inval; cp = strpbrk(cp, " :"); if (!cp) break; cp++; }`.
`scan cp` is the value `sscanf(cp, "%u", ...)` stores when it returns 1 and
`none` when it returns anything else.  The first argument bounds the number
of iterations. -/
def store_parse (scan : List Char → Option Nat) :
    Nat → List Char → Nat → Nat → List Nat → Option store_parse_result
  | 0, _, _, _, _ => none
  | fuel + 1, cp, i, ntokens, loads =>
    if i < ntokens then
      match scan cp with
      | none => some .inval
      | some v =>
        let loads := loads ++ [v]
        let i := i + 1
        match strpbrk cp target_loads_separators with
        | none => some (.done i loads)
        | some cp => store_parse scan fuel cp.tail i ntokens loads
    else some (.done i loads)

/-- What a call of `store_target_loads` leaves: the value it returns and the
profile. -/
structure store_result where
  ret : Int
  values : interactive_vaules
  deriving DecidableEq, Repr

/-- The function `store_target_loads(values, buf, count)`.  `buf` is the
string written (its characters before the terminator), `scan` the conversion
`sscanf(cp, "%u", ...)` performs and `alloc_ok` whether `kmalloc` returns
memory.  The result is `none` where the C code reads outside the string (an
empty `buf`). -/
def store_target_loads (scan : List Char → Option Nat) (alloc_ok : Bool)
    (values : interactive_vaules) (buf : List Char) (count : Nat) : Option store_result :=
  match store_count_tokens (buf.length + 1) buf 1 with
  | none => none
  | some ntokens =>
    if ntokens % 2 = 0 then some { ret := -EINVAL, values := values }
    else if !alloc_ok then some { ret := -ENOMEM, values := values }
    else
      match store_parse scan (ntokens + 1) buf 0 ntokens [] with
      | none => none
      | some .inval => some { ret := -EINVAL, values := values }
      | some (.done i loads) =>
        if i ≠ ntokens then some { ret := -EINVAL, values := values }
        else
          some { ret := count
                 values := { values with target_loads := loads, ntarget_loads := ntokens } }

/-- The character class `isdigit`. -/
def isdigit (c : Char) : Bool := decide (48 ≤ c.toNat ∧ c.toNat ≤ 57)

/-- The character class `isspace` of the kernel: the space, the characters 9
to 13 and the no-break space. -/
def isspace (c : Char) : Bool :=
  decide (c.toNat = 32 ∨ (9 ≤ c.toNat ∧ c.toNat ≤ 13) ∨ c.toNat = 160)

/-- The number a string of decimal digits denotes. -/
def digits_value (ds : List Char) : Nat :=
  ds.foldl (fun acc d => acc * 10 + (d.toNat - 48)) 0

/-- Modelled from the spec: the library function `sscanf` is not among the
files; a token must parse to an unsigned integer, and this is the conversion
`sscanf(cp, "%u", &v)`: white space is skipped, the next character must be a
decimal digit, and the value of the longest run of digits is stored as an
`unsigned int`; `none` when the function does not return 1. -/
def sscanf_u (cs : List Char) : Option Nat :=
  match cs.dropWhile isspace with
  | [] => none
  | c :: rest =>
    if isdigit c then some (u32 (digits_value ((c :: rest).takeWhile isdigit))) else none

/-- The string made of the token `t0` followed by each token of `rest` after
its separator. -/
def join_tokens (t0 : List Char) : List (Char × List Char) → List Char
  | [] => t0
  | (sep, t) :: rest => t0 ++ sep :: join_tokens t rest

/-- A token that is the decimal form of an `unsigned int`: one digit or more,
with a value below `2^32`. -/
def decimal_u32 (t : List Char) : Prop :=
  t ≠ [] ∧ (∀ c ∈ t, isdigit c = true) ∧ digits_value t < 4294967296

/-- The number of tokens `store_target_loads` counts in a string: one more
than the number of separators after its first character. -/
def token_count (buf : List Char) : Nat :=
  1 + (buf.tail.filter (fun c => decide (c ∈ target_loads_separators))).length

/-- The string `90 1000000:50`: three tokens whose loads decrease. -/
def decreasing_loads_input : List Char :=
  ['9', '0', ' ', '1', '0', '0', '0', '0', '0', '0', ':', '5', '0']

/-- The busy profile after `90 1000000:50` was stored in it. -/
def decreasing_loads_values : interactive_vaules :=
  { busy_values with target_loads := [90, 1000000, 50], ntarget_loads := 3 }

/-- The loads of a profile list do not decrease: of two loads (the elements at
even positions) the later one, unless it is a 0, is at least the earlier one. -/
def loads_sorted (l : List Nat) : Prop :=
  ∀ i j a b, i ≤ j → l[2 * i]? = some a → l[2 * j]? = some b → b ≠ 0 → a ≤ b

/-- The busy profile after `85 1500000:90` was stored in it. -/
def stored_values : interactive_vaules :=
  { busy_values with target_loads := [85, 1500000, 90], ntarget_loads := 3 }

/-! ## Governor START and STOP -/

/-- The module state `cpufreq_governor_interactive` works on: the per-CPU
records, the counter `active_count`, and whether the attribute group
`interactive_attr_group`, the idle notifier and the transition notifier are
registered. -/
structure governor_state where
  cpuinfo : Nat → cpufreq_interactive_cpuinfo
  active_count : Int
  attr_group : Bool
  idle_notifier : Bool
  transition_notifier : Bool

/-- What `CPUFREQ_GOV_START` reads from the platform: `cpu_online(policy->cpu)`,
the pointer `policy`, the table `cpufreq_frequency_get_table` returns, the
values of `ktime_to_us(ktime_get())` and `jiffies` in the loop iteration of
each CPU, the conversion `usecs_to_jiffies`, and the value
`sysfs_create_group` returns (0 when the group was created). -/
structure start_input where
  cpu_online : Bool
  policy_ref : Nat
  freq_table : List Nat
  ktime_us : Nat → Nat
  jiffies : Nat → Nat
  usecs_to_jiffies : Nat → Nat
  sysfs_create_group : Int

/-- What a governor event leaves: the value returned and the module state. -/
structure governor_result where
  ret : Int
  st : governor_state

/-- The loop `for_each_cpu(j, policy->cpus)` of `CPUFREQ_GOV_START` over a list
of CPUs. -/
def governor_start_cpus (inp : start_input) (g : tunables) (policy : cpufreq_policy) :
    List Nat → (Nat → cpufreq_interactive_cpuinfo) → (Nat → cpufreq_interactive_cpuinfo)
  | [], cpuinfo => cpuinfo
  | j :: rest, cpuinfo =>
    governor_start_cpus inp g policy rest
      (fun k =>
        if k = j then
          governor_start_cpu inp.policy_ref policy inp.freq_table (inp.ktime_us j)
            (inp.jiffies j) inp.usecs_to_jiffies g (cpuinfo j)
        else cpuinfo k)

/-- The case `CPUFREQ_GOV_START` of `cpufreq_governor_interactive`. -/
def cpufreq_governor_interactive_start (inp : start_input) (g : tunables)
    (policy : cpufreq_policy) (st : governor_state) : governor_result :=
  if !inp.cpu_online then { ret := -EINVAL, st := st }
  else
    let st := { st with cpuinfo := governor_start_cpus inp g policy policy.cpus st.cpuinfo }
    let st := { st with active_count := st.active_count + 1 }
    if st.active_count > 1 then { ret := 0, st := st }
    else
      let rc := inp.sysfs_create_group
      if rc ≠ 0 then { ret := rc, st := st }
      else
        { ret := 0
          st := { st with attr_group := true, idle_notifier := true,
                          transition_notifier := true } }

/-- The body of the loop of `CPUFREQ_GOV_STOP` on the record of one CPU:
`governor_enabled = 0` and `del_timer_sync` of both timers. -/
def governor_stop_cpu (pcpu : cpufreq_interactive_cpuinfo) : cpufreq_interactive_cpuinfo :=
  { pcpu with
    governor_enabled := false
    cpu_timer := { pcpu.cpu_timer with pending := false }
    cpu_slack_timer := { pcpu.cpu_slack_timer with pending := false } }

/-- The loop `for_each_cpu(j, policy->cpus)` of `CPUFREQ_GOV_STOP` over a list
of CPUs. -/
def governor_stop_cpus :
    List Nat → (Nat → cpufreq_interactive_cpuinfo) → (Nat → cpufreq_interactive_cpuinfo)
  | [], cpuinfo => cpuinfo
  | j :: rest, cpuinfo =>
    governor_stop_cpus rest (fun k => if k = j then governor_stop_cpu (cpuinfo j) else cpuinfo k)

/-- The case `CPUFREQ_GOV_STOP` of `cpufreq_governor_interactive`. -/
def cpufreq_governor_interactive_stop (policy : cpufreq_policy) (st : governor_state) :
    governor_result :=
  let st := { st with cpuinfo := governor_stop_cpus policy.cpus st.cpuinfo }
  let st := { st with active_count := st.active_count - 1 }
  if st.active_count > 0 then { ret := 0, st := st }
  else
    { ret := 0
      st := { st with transition_notifier := false, idle_notifier := false,
                      attr_group := false } }

/-- The module state before the first START: every per-CPU record zero,
nothing registered. -/
def boot_governor_state : governor_state :=
  { cpuinfo := fun _ => boot_cpuinfo, active_count := 0, attr_group := false,
    idle_notifier := false, transition_notifier := false }

/-- A START of the policy `policy_at_min` at 1000000 us in which
`sysfs_create_group` fails with `-ENOMEM`. -/
def failing_start_input : start_input :=
  { cpu_online := true, policy_ref := 0, freq_table := sample_freq_table,
    ktime_us := fun _ => 1000000, jiffies := fun _ => 100,
    usecs_to_jiffies := sample_usecs_to_jiffies, sysfs_create_group := -12 }

/-- The fields of a module state that START and STOP account for, for CPUs 0
to 3: `active_count`, the three registrations, and for each CPU whether it is
enabled and whether its timer is pending. -/
def governor_summary (r : governor_result) :
    Int × Int × Bool × Bool × Bool × List (Bool × Bool) :=
  (r.ret, r.st.active_count, r.st.attr_group, r.st.idle_notifier, r.st.transition_notifier,
    [0, 1, 2, 3].map (fun j =>
      ((r.st.cpuinfo j).governor_enabled, (r.st.cpuinfo j).cpu_timer.pending)))

/-! ## The stores of `min_sample_time` -/

/-- What `strict_strtoul(buf, 0, &val)` yields: the value it returns (negative
on error) and the number it stores in `val`. -/
structure strtoul_result where
  ret : Int
  val : Nat
  deriving DecidableEq, Repr

/-- The function `store_min_sample_time(values, buf, count)`: the value
returned and the profile.  `strict_strtoul` is the conversion of the kernel
library. -/
def store_min_sample_time (strict_strtoul : List Char → strtoul_result)
    (values : interactive_vaules) (buf : List Char) (count : Nat) :
    Int × interactive_vaules :=
  let r := strict_strtoul buf
  if r.ret < 0 then (r.ret, values)
  else (count, { values with min_sample_time := r.val })

/-- The function `store_idle_min_sample_time`, bound to the attribute
`idle_min_sample_time`: `return store_min_sample_time(&busy_values, buf, count);`. -/
def store_idle_min_sample_time (strict_strtoul : List Char → strtoul_result) (g : tunables)
    (buf : List Char) (count : Nat) : Int × tunables :=
  let r := store_min_sample_time strict_strtoul g.busy buf count
  (r.1, { g with busy := r.2 })

/-- The function `store_busy_min_sample_time`, bound to the attribute
`busy_min_sample_time`: `return store_min_sample_time(&idle_values, buf, count);`. -/
def store_busy_min_sample_time (strict_strtoul : List Char → strtoul_result) (g : tunables)
    (buf : List Char) (count : Nat) : Int × tunables :=
  let r := store_min_sample_time strict_strtoul g.idle buf count
  (r.1, { g with idle := r.2 })

/-- The number `show_busy_min_sample_time` prints:
`busy_values.min_sample_time`. -/
def show_busy_min_sample_time (g : tunables) : Nat := g.busy.min_sample_time

/-- The number `show_idle_min_sample_time` prints:
`idle_values.min_sample_time`. -/
def show_idle_min_sample_time (g : tunables) : Nat := g.idle.min_sample_time

/-- A conversion that accepts the strings of decimal digits, with the value
they denote as an `unsigned long` of 32 bits, and rejects every other string
with `-EINVAL`. -/
def decimal_strtoul (buf : List Char) : strtoul_result :=
  if buf ≠ [] ∧ buf.all isdigit then { ret := 0, val := u32 (digits_value buf) }
  else { ret := -EINVAL, val := 0 }

/-- Scenario D with `third_counter = 12` and the core boost running until
7000 ms. -/
def scenario_D_hold_state : hotplug_state :=
  { scenario_D_state with third_counter := 12, coreboost_endtime := 7000 }

/-- A decider tick at 5000 ms with the GPU busy in which every CPU reports a
load of 100 (never idle, at its highest frequency). -/
def full_load_input : hotplug_input :=
  { ktime_ms := 5000, gpu_idle := false, boostpulse_endtime := 0,
    samples := fun _ =>
      { cur_wall_time := 100, cur_idle_time := 0, policy_max := 1512000,
        policy_cur := 1512000, cur_max := 1512000 },
    plug_ok := fun _ => true }

/-- A state of the hot-plug driver with all four CPUs online and both
counters 0. -/
def all_online_state : hotplug_state :=
  { hotplug_initial with cpu_online := fun _ => true, now := 5000 }

/-- The states the loop of `choose_freq` is in at the start of a pass: the
candidate is a table entry, the upper end of the bracket is the initial
`UINT_MAX` or a table entry, and the candidate is strictly inside the bracket,
or the bracket is the initial one and the candidate is on its border (a start
at a frequency of 0 or `UINT_MAX`). -/
def choose_state_ok (table : List Nat) (f lo hi : Nat) : Prop :=
  f ∈ table ∧ (hi = UINT_MAX ∨ hi ∈ table) ∧
  ((lo < f ∧ f < hi) ∨ (lo = 0 ∧ hi = UINT_MAX ∧ (f = 0 ∨ f = UINT_MAX)))

/-- The number of passes the loop of `choose_freq` can still make: the table
entries strictly inside the bracket, and one more while the candidate is on
the border of the bracket. -/
def choose_measure (table : List Nat) (f lo hi : Nat) : Nat :=
  bracket_count table lo hi + (if lo < f ∧ f < hi then 0 else 1)

/-- The busy profile after `60 702000:30 1026000:60` was stored in it: the
load of the middle band is below that of the band before it. -/
def dip_values : interactive_vaules :=
  { busy_values with target_loads := [60, 702000, 30, 1026000, 60], ntarget_loads := 5 }

/-- The default tunables with `dip_values` as busy profile. -/
def dip_tunables : tunables := { default_tunables with busy := dip_values }

/-- The array indices the scan of `freq_to_targetload` uses, started at index
`i`: the indices it reads in the loop condition, in order, and the index `i`
of the final read `ret = tl[i]`.  It follows the loop of
`freq_to_targetload_scan` step by step. -/
def freq_to_targetload_trace (target_loads : List Nat) (ntarget_loads : Nat) (freq : Nat) :
    Nat → Nat → List Nat × Nat
  | 0, i => ([], i)
  | fuel + 1, i =>
    if i + 1 < ntarget_loads then
      match target_loads[i + 1]? with
      | none => ([i + 1], i)
      | some boundary =>
        if freq ≥ boundary then
          match target_loads[i + 2]? with
          | none => ([i + 1, i + 2], i)
          | some next =>
            if next ≠ 0 then
              let r := freq_to_targetload_trace target_loads ntarget_loads freq fuel (i + 2)
              ((i + 1) :: (i + 2) :: r.1, r.2)
            else ([i + 1, i + 2], i)
        else ([i + 1], i)
    else ([], i)

/-- The range the code keeps the two hysteresis counters in. -/
def hotplug_counters_ok (st : hotplug_state) : Prop :=
  -6 ≤ st.first_counter ∧ st.first_counter ≤ 64 ∧
  -50 ≤ st.third_counter ∧ st.third_counter ≤ 56

/-! # Properties -/

/-! ## Properties of the table lookup -/

theorem lowest_ge_none {table : List Nat} {req : Nat} (h : lowest_ge table req = none) :
    ∀ f ∈ table, f < req := by
  induction table with
  | nil => simp
  | cons a rest ih =>
    simp only [lowest_ge] at h
    cases hr : lowest_ge rest req with
    | none =>
      rw [hr] at h
      by_cases ha : req ≤ a
      · simp [ha] at h
      · intro f hf
        rcases List.mem_cons.mp hf with rfl | hf
        · omega
        · exact ih hr f hf
    | some m =>
      rw [hr] at h
      by_cases hc : req ≤ a ∧ a < m <;> simp [hc] at h

theorem lowest_ge_some {table : List Nat} {req m : Nat} (h : lowest_ge table req = some m) :
    m ∈ table ∧ req ≤ m ∧ ∀ f ∈ table, req ≤ f → m ≤ f := by
  induction table generalizing m with
  | nil => simp [lowest_ge] at h
  | cons a rest ih =>
    simp only [lowest_ge] at h
    cases hr : lowest_ge rest req with
    | none =>
      rw [hr] at h
      have hnone := lowest_ge_none hr
      by_cases ha : req ≤ a
      · simp [ha] at h
        subst h
        refine ⟨List.mem_cons_self _ _, ha, ?_⟩
        intro f hf hreq
        rcases List.mem_cons.mp hf with rfl | hf
        · exact le_refl _
        · have := hnone f hf
          omega
      · simp [ha] at h
    | some k =>
      rw [hr] at h
      obtain ⟨hk1, hk2, hk3⟩ := ih hr
      by_cases hc : req ≤ a ∧ a < k
      · simp [hc] at h
        subst h
        refine ⟨List.mem_cons_self _ _, hc.1, ?_⟩
        intro f hf hreq
        rcases List.mem_cons.mp hf with rfl | hf
        · exact le_refl _
        · have := hk3 f hf hreq
          omega
      · simp [hc] at h
        subst h
        refine ⟨List.mem_cons_of_mem _ hk1, hk2, ?_⟩
        intro f hf hreq
        rcases List.mem_cons.mp hf with rfl | hf
        · by_contra hlt
          exact hc ⟨hreq, by omega⟩
        · exact hk3 f hf hreq

theorem highest_le_none {table : List Nat} {req : Nat} (h : highest_le table req = none) :
    ∀ f ∈ table, req < f := by
  induction table with
  | nil => simp
  | cons a rest ih =>
    simp only [highest_le] at h
    cases hr : highest_le rest req with
    | none =>
      rw [hr] at h
      by_cases ha : a ≤ req
      · simp [ha] at h
      · intro f hf
        rcases List.mem_cons.mp hf with rfl | hf
        · omega
        · exact ih hr f hf
    | some m =>
      rw [hr] at h
      by_cases hc : a ≤ req ∧ m < a <;> simp [hc] at h

theorem highest_le_some {table : List Nat} {req m : Nat} (h : highest_le table req = some m) :
    m ∈ table ∧ m ≤ req ∧ ∀ f ∈ table, f ≤ req → f ≤ m := by
  induction table generalizing m with
  | nil => simp [highest_le] at h
  | cons a rest ih =>
    simp only [highest_le] at h
    cases hr : highest_le rest req with
    | none =>
      rw [hr] at h
      have hnone := highest_le_none hr
      by_cases ha : a ≤ req
      · simp [ha] at h
        subst h
        refine ⟨List.mem_cons_self _ _, ha, ?_⟩
        intro f hf hreq
        rcases List.mem_cons.mp hf with rfl | hf
        · exact le_refl _
        · have := hnone f hf
          omega
      · simp [ha] at h
    | some k =>
      rw [hr] at h
      obtain ⟨hk1, hk2, hk3⟩ := ih hr
      by_cases hc : a ≤ req ∧ k < a
      · simp [hc] at h
        subst h
        refine ⟨List.mem_cons_self _ _, hc.1, ?_⟩
        intro f hf hreq
        rcases List.mem_cons.mp hf with rfl | hf
        · exact le_refl _
        · have := hk3 f hf hreq
          omega
      · simp [hc] at h
        subst h
        refine ⟨List.mem_cons_of_mem _ hk1, hk2, ?_⟩
        intro f hf hreq
        rcases List.mem_cons.mp hf with rfl | hf
        · by_contra hlt
          exact hc ⟨hreq, by omega⟩
        · exact hk3 f hf hreq

/-- A selected entry is an entry of the table. -/
theorem target_entry_mem {table : List Nat} {req : Nat} {rel : relation} {x : Nat}
    (h : target_entry table req rel = some x) : x ∈ table := by
  cases rel with
  | L =>
    simp only [target_entry] at h
    cases hl : lowest_ge table req with
    | some f =>
      rw [hl] at h
      cases h
      exact (lowest_ge_some hl).1
    | none =>
      rw [hl] at h
      exact (highest_le_some h).1
  | H =>
    simp only [target_entry] at h
    cases hl : highest_le table req with
    | some f =>
      rw [hl] at h
      cases h
      exact (highest_le_some hl).1
    | none =>
      rw [hl] at h
      exact (lowest_ge_some h).1

/-- Reading the table at the index a lookup returns gives the selected entry. -/
theorem table_target_frequency_eq (table : List Nat) (req : Nat) (rel : relation) :
    table_target_frequency table req rel = target_entry table req rel := by
  unfold table_target_frequency cpufreq_frequency_table_target
  cases h : target_entry table req rel with
  | none => rfl
  | some x =>
    simp only [Option.map_some', Option.some_bind]
    exact List.getElem?_indexOf (target_entry_mem h)

/-- A lookup with relation `L` in a table that has an entry: the result is the
lowest entry at or above the request, or the highest entry when all entries are
below the request. -/
theorem table_target_L {table : List Nat} (req : Nat) {e : Nat} (he : e ∈ table) :
    ∃ x, table_target_frequency table req .L = some x ∧ x ∈ table ∧
      ((req ≤ x ∧ ∀ f ∈ table, req ≤ f → x ≤ f) ∨
       ((∀ f ∈ table, f < req) ∧ ∀ f ∈ table, f ≤ x)) := by
  rw [table_target_frequency_eq]
  simp only [target_entry]
  cases hl : lowest_ge table req with
  | some m =>
    obtain ⟨h1, h2, h3⟩ := lowest_ge_some hl
    exact ⟨m, rfl, h1, Or.inl ⟨h2, h3⟩⟩
  | none =>
    have hn := lowest_ge_none hl
    cases hh : highest_le table req with
    | none =>
      have := highest_le_none hh e he
      have := hn e he
      omega
    | some m =>
      obtain ⟨h1, _, h3⟩ := highest_le_some hh
      exact ⟨m, rfl, h1, Or.inr ⟨hn, fun f hf => h3 f hf (by have := hn f hf; omega)⟩⟩

/-- A lookup with relation `H` in a table that has an entry: the result is the
highest entry at or below the request, or the lowest entry when all entries are
above the request. -/
theorem table_target_H {table : List Nat} (req : Nat) {e : Nat} (he : e ∈ table) :
    ∃ x, table_target_frequency table req .H = some x ∧ x ∈ table ∧
      ((x ≤ req ∧ ∀ f ∈ table, f ≤ req → f ≤ x) ∨
       ((∀ f ∈ table, req < f) ∧ ∀ f ∈ table, x ≤ f)) := by
  rw [table_target_frequency_eq]
  simp only [target_entry]
  cases hl : highest_le table req with
  | some m =>
    obtain ⟨h1, h2, h3⟩ := highest_le_some hl
    exact ⟨m, rfl, h1, Or.inl ⟨h2, h3⟩⟩
  | none =>
    have hn := highest_le_none hl
    cases hh : lowest_ge table req with
    | none =>
      have := lowest_ge_none hh e he
      have := hn e he
      omega
    | some m =>
      obtain ⟨h1, _, h3⟩ := lowest_ge_some hh
      exact ⟨m, rfl, h1, Or.inr ⟨hn, fun f hf => h3 f hf (by have := hn f hf; omega)⟩⟩

/-! ## The search loop of `choose_freq` -/

theorem filter_length_le {l : List Nat} {p q : Nat → Bool}
    (hqp : ∀ x, q x = true → p x = true) :
    (l.filter q).length ≤ (l.filter p).length := by
  induction l with
  | nil => simp
  | cons b rest ih =>
    by_cases hq : q b = true
    · have hp := hqp b hq
      simp only [List.filter_cons, hq, hp, if_true, List.length_cons]
      omega
    · by_cases hp : p b = true
      · simp only [List.filter_cons, hq, hp, if_true, List.length_cons]
        simp only [Bool.false_eq_true, if_false]
        omega
      · simp only [List.filter_cons, hq, hp]
        simpa using ih

theorem filter_length_lt {l : List Nat} {p q : Nat → Bool}
    (hqp : ∀ x, q x = true → p x = true) {a : Nat} (ha : a ∈ l)
    (hpa : p a = true) (hqa : ¬ q a = true) :
    (l.filter q).length < (l.filter p).length := by
  induction l with
  | nil => simp at ha
  | cons b rest ih =>
    rcases List.mem_cons.mp ha with rfl | hmem
    · have := filter_length_le (l := rest) hqp
      simp only [List.filter_cons, hpa, hqa, if_true, List.length_cons]
      simp only [Bool.false_eq_true, if_false]
      omega
    · have := ih hmem
      by_cases hq : q b = true
      · have hp := hqp b hq
        simp only [List.filter_cons, hq, hp, if_true, List.length_cons]
        omega
      · by_cases hp : p b = true
        · simp only [List.filter_cons, hq, hp, if_true, List.length_cons]
          simp only [Bool.false_eq_true, if_false]
          omega
        · simp only [List.filter_cons, hq, hp]
          simpa using this

/-- Narrowing the bracket past an entry that lay inside it lowers the count. -/
theorem bracket_count_lt {table : List Nat} {lo hi lo2 hi2 a : Nat}
    (hlo : lo ≤ lo2) (hhi : hi2 ≤ hi) (ha : a ∈ table) (hin : lo < a ∧ a < hi)
    (hout : ¬ (lo2 < a ∧ a < hi2)) :
    bracket_count table lo2 hi2 < bracket_count table lo hi := by
  unfold bracket_count
  apply filter_length_lt (a := a) _ ha
  · simpa using hin
  · simpa using hout
  · intro x hx
    simp only [decide_eq_true_eq] at hx ⊢
    omega

theorem bracket_count_le_length (table : List Nat) (lo hi : Nat) :
    bracket_count table lo hi ≤ table.length :=
  List.length_filter_le _ _

/-- Induction principle for the loop: when every pass from a state satisfying
the invariant either ends with a result satisfying the postcondition or yields
a state satisfying the invariant with a smaller measure, the loop returns a
result satisfying the postcondition as soon as the pass bound exceeds the
measure. -/
theorem choose_freq_loop_spec (tlf : Nat → Option Nat) (table : List Nat) (loadadjfreq : Nat)
    (Inv : Nat → Nat → Nat → Prop) (Post : Nat → Prop) (mu : Nat → Nat → Nat → Nat)
    (hbody : ∀ f lo hi, Inv f lo hi →
      (∃ r, choose_freq_body tlf table loadadjfreq f lo hi = some (.done r) ∧ Post r) ∨
      (∃ f2 lo2 hi2, choose_freq_body tlf table loadadjfreq f lo hi = some (.again f2 lo2 hi2) ∧
        Inv f2 lo2 hi2 ∧ mu f2 lo2 hi2 < mu f lo hi)) :
    ∀ fuel f lo hi, Inv f lo hi → mu f lo hi < fuel →
      ∃ r, choose_freq_loop tlf table loadadjfreq fuel f lo hi = some r ∧ Post r := by
  intro fuel
  induction fuel with
  | zero => intro f lo hi _ h; omega
  | succ n ih =>
    intro f lo hi hinv hmu
    rcases hbody f lo hi hinv with ⟨r, hr, hpost⟩ | ⟨f2, lo2, hi2, hr, hinv2, hlt⟩
    · exact ⟨r, by simp [choose_freq_loop, hr], hpost⟩
    · obtain ⟨r, hr2, hpost⟩ := ih f2 lo2 hi2 hinv2 (by omega)
      exact ⟨r, by simp [choose_freq_loop, hr, hr2], hpost⟩

theorem fast_enough_iff {tlf : Nat → Option Nat} {loadadjfreq f tl : Nat}
    (h : tlf f = some tl) : fast_enough tlf loadadjfreq f = true ↔ loadadjfreq / tl ≤ f := by
  simp [fast_enough, h]

/-- With non-decreasing non-zero target loads, every frequency above a fast
enough one is fast enough. -/
theorem fast_enough_mono {tlf : Nat → Option Nat} (hnz : loads_nonzero tlf)
    (hmono : loads_monotone tlf) {loadadjfreq a b : Nat} (hab : a ≤ b)
    (ha : fast_enough tlf loadadjfreq a = true) : fast_enough tlf loadadjfreq b = true := by
  obtain ⟨ta, hta, hta0⟩ := hnz a
  obtain ⟨tb, htb, _⟩ := hnz b
  rw [fast_enough_iff hta] at ha
  rw [fast_enough_iff htb]
  have hle : ta ≤ tb := hmono a b ta tb hab hta htb
  have : loadadjfreq / tb ≤ loadadjfreq / ta :=
    Nat.div_le_div_left hle (Nat.pos_of_ne_zero hta0)
  omega

/-- One pass of the loop of `choose_freq` from a state satisfying the
invariant: it ends with the lowest fast-enough entry, or re-establishes the
invariant on a bracket holding fewer entries. -/
theorem choose_freq_body_spec {tlf : Nat → Option Nat} {table : List Nat} {loadadjfreq : Nat}
    (hrange : ∀ e ∈ table, 0 < e ∧ e < UINT_MAX)
    (hnz : loads_nonzero tlf) (hmono : loads_monotone tlf)
    (hex : ∃ e ∈ table, fast_enough tlf loadadjfreq e = true)
    (f lo hi : Nat) (hinv : choose_inv tlf table loadadjfreq f lo hi) :
    (∃ r, choose_freq_body tlf table loadadjfreq f lo hi = some (.done r) ∧
        choose_post tlf table loadadjfreq r) ∨
    (∃ f2 lo2 hi2,
        choose_freq_body tlf table loadadjfreq f lo hi = some (.again f2 lo2 hi2) ∧
        choose_inv tlf table loadadjfreq f2 lo2 hi2 ∧
        bracket_count table lo2 hi2 < bracket_count table lo hi) := by
  obtain ⟨hf, hlo, hhi, hloI, hhiI⟩ := hinv
  obtain ⟨tl, htl, htl0⟩ := hnz f
  obtain ⟨x, hx, hxm, hxs⟩ := table_target_L (loadadjfreq / tl) hf
  by_cases hgt : x > f
  · -- the candidate is too slow
    have hslow : fast_enough tlf loadadjfreq f = false := by
      have hn : ¬ loadadjfreq / tl ≤ f := by
        rcases hxs with ⟨_, h2⟩ | ⟨h1, _⟩
        · intro hc
          have := h2 f hf hc
          omega
        · have := h1 f hf
          omega
      simp [fast_enough, htl, hn]
    by_cases hge : x ≥ hi
    · have hhit : hi ∈ table ∧ fast_enough tlf loadadjfreq hi = true := by
        rcases hhiI with h | h
        · have := (hrange x hxm).2
          omega
        · exact h
      have hsub : u32_sub hi 1 = hi - 1 := by
        have := hrange hi hhit.1
        unfold u32_sub UINT_MAX at *
        omega
      obtain ⟨y, hy, hym, hys⟩ := table_target_H (hi - 1) hf
      have hyb : f ≤ y ∧ y < hi := by
        rcases hys with ⟨h1, h2⟩ | ⟨h1, _⟩
        · exact ⟨h2 f hf (by omega), by omega⟩
        · have := h1 f hf
          omega
      by_cases hyf : y = f
      · left
        refine ⟨hi, ?_, hhit.1, hhit.2, ?_⟩
        · simp [choose_freq_body, choose_freq_pass, htl, htl0, hx, hgt, hge, hsub, hy, hyf]
        · intro e he hgood
          by_contra hlt
          have hef : e ≤ f := by
            rcases hys with ⟨_, h2⟩ | ⟨h1, _⟩
            · have := h2 e he (by omega)
              omega
            · have := h1 f hf
              omega
          have := fast_enough_mono hnz hmono hef hgood
          rw [hslow] at this
          exact Bool.false_ne_true this
      · right
        refine ⟨y, f, hi, ?_, ⟨hym, by omega, hyb.2, Or.inr ⟨hf, hslow⟩, hhiI⟩, ?_⟩
        · simp [choose_freq_body, choose_freq_pass, htl, htl0, hx, hgt, hge, hsub, hy, hyf]
        · exact bracket_count_lt (a := f) (by omega) (le_refl _) hf ⟨hlo, hhi⟩ (by omega)
    · right
      refine ⟨x, f, hi, ?_, ⟨hxm, hgt, by omega, Or.inr ⟨hf, hslow⟩, hhiI⟩, ?_⟩
      · have hne : ¬ x = f := by omega
        simp [choose_freq_body, choose_freq_pass, htl, htl0, hx, hgt, hge, hne]
      · exact bracket_count_lt (a := f) (by omega) (le_refl _) hf ⟨hlo, hhi⟩ (by omega)
  · by_cases hlt : x < f
    · -- the candidate is fast enough
      have hfast : fast_enough tlf loadadjfreq f = true := by
        rw [fast_enough_iff htl]
        rcases hxs with ⟨h1, _⟩ | ⟨_, h2⟩
        · omega
        · have := h2 f hf
          omega
      by_cases hle : x ≤ lo
      · have hadd : u32 (lo + 1) = lo + 1 := by
          have := hrange f hf
          unfold u32 UINT_MAX at *
          omega
        obtain ⟨y, hy, hym, hys⟩ := table_target_L (lo + 1) hf
        have hyb : lo < y ∧ y ≤ f := by
          rcases hys with ⟨h1, h2⟩ | ⟨h1, _⟩
          · exact ⟨by omega, h2 f hf (by omega)⟩
          · have := h1 f hf
            omega
        by_cases hyf : y = f
        · left
          refine ⟨y, ?_, hym, by rw [hyf]; exact hfast, ?_⟩
          · simp [choose_freq_body, choose_freq_pass, htl, htl0, hx, hgt, hlt, hle, hadd, hy,
              hyf]
          · intro e he hgood
            by_contra hcon
            have helo : e ≤ lo := by
              rcases hys with ⟨_, h2⟩ | ⟨h1, _⟩
              · by_contra hc
                have := h2 e he (by omega)
                omega
              · have := h1 f hf
                omega
            rcases hloI with h0 | ⟨hlom, hlos⟩
            · have := (hrange e he).1
              omega
            · have := fast_enough_mono hnz hmono helo hgood
              rw [hlos] at this
              exact Bool.false_ne_true this
        · right
          refine ⟨y, lo, f, ?_, ⟨hym, hyb.1, by omega, hloI, Or.inr ⟨hf, hfast⟩⟩, ?_⟩
          · simp [choose_freq_body, choose_freq_pass, htl, htl0, hx, hgt, hlt, hle, hadd, hy,
              hyf]
          · exact bracket_count_lt (a := f) (le_refl _) (by omega) hf ⟨hlo, hhi⟩ (by omega)
      · right
        refine ⟨x, lo, f, ?_, ⟨hxm, by omega, hlt, hloI, Or.inr ⟨hf, hfast⟩⟩, ?_⟩
        · have hne : ¬ x = f := by omega
          simp [choose_freq_body, choose_freq_pass, htl, htl0, hx, hgt, hlt, hle, hne]
        · exact bracket_count_lt (a := f) (le_refl _) (by omega) hf ⟨hlo, hhi⟩ (by omega)
    · -- the lookup returns the candidate itself
      have hxf : x = f := by omega
      subst hxf
      left
      refine ⟨x, ?_, hf, ?_, ?_⟩
      · simp [choose_freq_body, choose_freq_pass, htl, htl0, hx]
      · rw [fast_enough_iff htl]
        rcases hxs with ⟨h1, _⟩ | ⟨h1, h2⟩
        · exact h1
        · obtain ⟨e, he, hgood⟩ := hex
          have hex2 := fast_enough_mono hnz hmono (h2 e he) hgood
          rw [fast_enough_iff htl] at hex2
          exact hex2
      · intro e he hgood
        by_contra hcon
        have hex2 := fast_enough_mono hnz hmono (by omega : e ≤ x) hgood
        rw [fast_enough_iff htl] at hex2
        obtain ⟨te, hte, hte0⟩ := hnz e
        rw [fast_enough_iff hte] at hgood
        have hle : te ≤ tl := hmono e x te tl (by omega) hte htl
        have hdiv : loadadjfreq / tl ≤ loadadjfreq / te :=
          Nat.div_le_div_left hle (Nat.pos_of_ne_zero hte0)
        rcases hxs with ⟨_, h2⟩ | ⟨h1, _⟩
        · have := h2 e he
          omega
        · have := h1 x hf
          omega

/-! ## Default profiles -/

/-- The step function of the default `busy_values` profile. -/
theorem busy_default_targetload (ktime_ms f : Nat) :
    freq_to_targetload default_tunables ktime_ms f =
      some (if f < 702000 then 40 else if f < 1026000 then 50
            else if f < 1350000 then 60 else 70) := by
  simp only [freq_to_targetload, targetload_values, default_tunables, busy_values,
    freq_to_targetload_of, freq_to_targetload_scan]
  by_cases h1 : f < 702000
  · simp [h1]
  · by_cases h2 : f < 1026000
    · simp [h1, h2, Nat.not_lt.mp h1]
    · by_cases h3 : f < 1350000
      · simp [h1, h2, h3, Nat.not_lt.mp h1, Nat.not_lt.mp h2]
      · simp [h1, h2, h3, Nat.not_lt.mp h1, Nat.not_lt.mp h2, Nat.not_lt.mp h3]

theorem busy_default_nonzero (ktime_ms : Nat) :
    loads_nonzero (freq_to_targetload default_tunables ktime_ms) := by
  intro f
  refine ⟨_, busy_default_targetload ktime_ms f, ?_⟩
  split_ifs <;> decide

theorem busy_default_monotone (ktime_ms : Nat) :
    loads_monotone (freq_to_targetload default_tunables ktime_ms) := by
  intro f1 f2 t1 t2 hle h1 h2
  rw [busy_default_targetload] at h1 h2
  cases h1
  cases h2
  split_ifs <;> omega

/-! ## Claim C1: `choose_freq` -/

/-- Claim C1: for every frequency table (ascending or not, non-empty since it
holds `policy.cur`), every profile state whose target load is non-zero and
non-decreasing in the frequency, every `loadadjfreq` and every starting
frequency `policy.cur` that is a table entry, `choose_freq` returns, and what
it returns is the lowest table frequency `f` with
`loadadjfreq / freq_to_targetload(f) <= f`, whenever some table entry
satisfies this.  The entries are frequencies a table can hold: above 0, which
the search uses as the open lower end `freqmin = 0` and by which the timer
divides, and below `UINT_MAX`, the open upper end `freqmax`. -/
theorem choose_freq_lowest_fast_enough (g : tunables) (ktime_ms cur loadadjfreq : Nat)
    (table : List Nat)
    (hrange : ∀ e ∈ table, 0 < e ∧ e < UINT_MAX)
    (hcur : cur ∈ table)
    (hnz : loads_nonzero (freq_to_targetload g ktime_ms))
    (hmono : loads_monotone (freq_to_targetload g ktime_ms))
    (hex : ∃ e ∈ table, fast_enough (freq_to_targetload g ktime_ms) loadadjfreq e = true) :
    ∃ r, choose_freq g ktime_ms cur table loadadjfreq = some r ∧ r ∈ table ∧
      fast_enough (freq_to_targetload g ktime_ms) loadadjfreq r = true ∧
      ∀ e ∈ table, fast_enough (freq_to_targetload g ktime_ms) loadadjfreq e = true → r ≤ e := by
  have hinv : choose_inv (freq_to_targetload g ktime_ms) table loadadjfreq cur 0 UINT_MAX :=
    ⟨hcur, (hrange cur hcur).1, (hrange cur hcur).2, Or.inl rfl, Or.inl rfl⟩
  have hmu : bracket_count table 0 UINT_MAX < table.length + 1 := by
    have := bracket_count_le_length table 0 UINT_MAX
    omega
  exact choose_freq_loop_spec (freq_to_targetload g ktime_ms) table loadadjfreq
    (choose_inv (freq_to_targetload g ktime_ms) table loadadjfreq)
    (choose_post (freq_to_targetload g ktime_ms) table loadadjfreq)
    (fun _ lo hi => bracket_count table lo hi)
    (choose_freq_body_spec hrange hnz hmono hex)
    (table.length + 1) cur 0 UINT_MAX hinv hmu

/-- Claim C1 at a concrete input: the default busy profile, the sample table,
a start at the lowest entry and `loadadjfreq = 50000000`. -/
theorem choose_freq_lowest_fast_enough_witness :
    (∀ e ∈ sample_freq_table, 0 < e ∧ e < UINT_MAX) ∧ 384000 ∈ sample_freq_table ∧
    ∃ r, choose_freq default_tunables 0 384000 sample_freq_table 50000000 = some r ∧
      r ∈ sample_freq_table ∧
      fast_enough (freq_to_targetload default_tunables 0) 50000000 r = true ∧
      ∀ e ∈ sample_freq_table,
        fast_enough (freq_to_targetload default_tunables 0) 50000000 e = true → r ≤ e :=
  ⟨by decide, by decide,
    choose_freq_lowest_fast_enough default_tunables 0 384000 50000000 sample_freq_table
      (by decide) (by decide) (busy_default_nonzero 0) (busy_default_monotone 0)
      ⟨1026000, by decide, by decide⟩⟩

/-! ## Claim C2: `freq_to_targetload` -/

/-- The scan started at the pair `j`, when every boundary from pair `j` up to
(not including) pair `i` is at or below `freq`, every load up to pair `i` is
non-zero, and the boundary of pair `i`, if there is one, is above `freq`:
the scan stops at pair `i`. -/
theorem freq_to_targetload_scan_stops (l : List Nat) (freq i load : Nat)
    (hload : l[2 * i]? = some load)
    (hloads : ∀ k, l[2 * k]? ≠ some 0)
    (hbelow : ∀ k, k < i → ∃ b, l[2 * k + 1]? = some b ∧ b ≤ freq)
    (habove : ∀ b, l[2 * i + 1]? = some b → freq < b) :
    ∀ d j fuel, j + d = i → d < fuel →
      freq_to_targetload_scan l l.length freq fuel (2 * j) = some load := by
  intro d
  induction d with
  | zero =>
    intro j fuel hj hfuel
    have hji : j = i := by omega
    subst hji
    obtain ⟨n, rfl⟩ : ∃ n, fuel = n + 1 := ⟨fuel - 1, by omega⟩
    unfold freq_to_targetload_scan
    by_cases hlen : 2 * j + 1 < l.length
    · have hb : l[2 * j + 1]? = some l[2 * j + 1] := List.getElem?_eq_getElem hlen
      have := habove _ hb
      simp [hlen, hb, Nat.not_le.mpr this, hload]
    · simp [hlen, hload]
  | succ d ih =>
    intro j fuel hj hfuel
    obtain ⟨n, rfl⟩ : ∃ n, fuel = n + 1 := ⟨fuel - 1, by omega⟩
    have hilen : 2 * i < l.length := by
      by_contra hc
      rw [List.getElem?_eq_none (by omega)] at hload
      cases hload
    obtain ⟨b, hb, hbf⟩ := hbelow j (by omega)
    have hlen : 2 * j + 1 < l.length := by omega
    have hlen2 : 2 * j + 2 < l.length := by omega
    have hnext : l[2 * j + 2]? = some l[2 * j + 2] := List.getElem?_eq_getElem hlen2
    have hne : l[2 * j + 2] ≠ 0 := by
      intro h0
      apply hloads (j + 1)
      rw [show 2 * (j + 1) = 2 * j + 2 by ring, hnext, h0]
    unfold freq_to_targetload_scan
    have hrec := ih (j + 1) n (by omega) (by omega)
    rw [show 2 * (j + 1) = 2 * j + 2 by ring] at hrec
    simp [hlen, hb, hbf, hnext, hne, hrec]

/-- Claim C2: for a profile whose list `[load0, b0, load1, b1, ..., loadn]` has
odd length (`ntarget_loads` elements), strictly increasing boundaries and
non-zero loads, and for every frequency `f`, `freq_to_targetload(f)` returns
`load_i` for the `i` with `b_(i-1) <= f < b_i` (no lower bound for `i = 0`, no
upper bound for the last load), and that `i` is the only one. -/
theorem freq_to_targetload_step_function (g : tunables) (ktime_ms : Nat) (l : List Nat)
    (hl : (targetload_values g ktime_ms).target_loads = l)
    (hn : (targetload_values g ktime_ms).ntarget_loads = l.length)
    (hodd : l.length % 2 = 1)
    (hloads : ∀ k, l[2 * k]? ≠ some 0)
    (hinc : ∀ j k bj bk, j < k → l[2 * j + 1]? = some bj → l[2 * k + 1]? = some bk → bj < bk)
    (f i load : Nat)
    (hload : l[2 * i]? = some load)
    (hlow : i = 0 ∨ ∃ b, l[2 * i - 1]? = some b ∧ b ≤ f)
    (hhigh : ∀ b, l[2 * i + 1]? = some b → f < b) :
    freq_to_targetload g ktime_ms f = some load ∧
    ∀ i2, (i2 = 0 ∨ ∃ b, l[2 * i2 - 1]? = some b ∧ b ≤ f) →
      (∀ b, l[2 * i2 + 1]? = some b → f < b) → 2 * i2 < l.length → i2 = i := by
  have hilen : 2 * i < l.length := by
    by_contra hc
    rw [List.getElem?_eq_none (by omega)] at hload
    cases hload
  -- every boundary below a pair whose lower boundary is at or below `f` is at or below `f`
  have hbelow : ∀ m, (m = 0 ∨ ∃ b, l[2 * m - 1]? = some b ∧ b ≤ f) → 2 * m < l.length →
      ∀ k, k < m → ∃ b, l[2 * k + 1]? = some b ∧ b ≤ f := by
    intro m hm hmlen k hk
    rcases hm with h0 | ⟨b, hb, hbf⟩
    · omega
    · have hklen : 2 * k + 1 < l.length := by omega
      refine ⟨l[2 * k + 1], List.getElem?_eq_getElem hklen, ?_⟩
      by_cases hkm : k + 1 = m
      · have h2 : 2 * m - 1 = 2 * k + 1 := by omega
        rw [h2, List.getElem?_eq_getElem hklen] at hb
        cases hb
        exact hbf
      · have h2 : 2 * m - 1 = 2 * (m - 1) + 1 := by omega
        rw [h2] at hb
        have := hinc k (m - 1) _ _ (by omega) (List.getElem?_eq_getElem hklen) hb
        omega
  constructor
  · unfold freq_to_targetload freq_to_targetload_of
    rw [hl, hn]
    have := freq_to_targetload_scan_stops l f i load hload hloads
      (hbelow i hlow hilen) hhigh i 0 (l.length + 1) (by omega) (by omega)
    simpa using this
  · intro i2 hlow2 hhigh2 hlen2
    by_contra hne
    rcases Nat.lt_or_gt_of_ne hne with hlt | hgt
    · obtain ⟨b, hb, hbf⟩ := hbelow i hlow hilen i2 hlt
      have := hhigh2 b hb
      omega
    · obtain ⟨b, hb, hbf⟩ := hbelow i2 hlow2 hlen2 i hgt
      have := hhigh b hb
      omega

/-- Claim C2 at a concrete input: a five-element profile and the frequency
`800000`, which lies in the band of the second load. -/
theorem freq_to_targetload_step_function_witness :
    freq_to_targetload
      { default_tunables with
        busy := { busy_values with
                  target_loads := [40, 702000, 50, 1026000, 60], ntarget_loads := 5 } }
      0 800000 = some 50 ∧
    ∀ i2, (i2 = 0 ∨ ∃ b, [40, 702000, 50, 1026000, 60][2 * i2 - 1]? = some b ∧ b ≤ 800000) →
      (∀ b, [40, 702000, 50, 1026000, 60][2 * i2 + 1]? = some b → 800000 < b) →
      2 * i2 < [40, 702000, 50, 1026000, 60].length → i2 = 1 :=
  freq_to_targetload_step_function
    { default_tunables with
      busy := { busy_values with
                target_loads := [40, 702000, 50, 1026000, 60], ntarget_loads := 5 } }
    0 [40, 702000, 50, 1026000, 60] rfl rfl (by decide)
    (by
      intro k
      match k with
      | 0 => decide
      | 1 => decide
      | 2 => decide
      | k + 3 =>
        rw [List.getElem?_eq_none (by simp only [List.length_cons, List.length_nil]; omega)]
        simp)
    (by
      intro j k bj bk hjk hj hk
      match j, k with
      | 0, 1 =>
        simp at hj hk
        omega
      | 0, 0 => omega
      | j + 1, 0 => omega
      | 1, 1 => omega
      | j + 2, 1 => omega
      | j, k + 2 =>
        rw [List.getElem?_eq_none (by simp only [List.length_cons, List.length_nil]; omega)]
          at hk
        cases hk)
    800000 1 50 (by decide) (Or.inr ⟨702000, by decide, by decide⟩)
    (by
      intro b hb
      simp at hb
      omega)

/-! ## The timer function -/

theorem update_load_target_freq (now now_idle : Nat) (policy : cpufreq_policy)
    (p : cpufreq_interactive_cpuinfo) :
    (update_load now now_idle policy p).target_freq = p.target_freq := rfl

theorem update_load_freq_table (now now_idle : Nat) (policy : cpufreq_policy)
    (p : cpufreq_interactive_cpuinfo) :
    (update_load now now_idle policy p).freq_table = p.freq_table := rfl

theorem update_load_floor_freq (now now_idle : Nat) (policy : cpufreq_policy)
    (p : cpufreq_interactive_cpuinfo) :
    (update_load now now_idle policy p).floor_freq = p.floor_freq := rfl

theorem update_load_floor_validate_time (now now_idle : Nat) (policy : cpufreq_policy)
    (p : cpufreq_interactive_cpuinfo) :
    (update_load now now_idle policy p).floor_validate_time = p.floor_validate_time := rfl

theorem update_load_hispeed_validate_time (now now_idle : Nat) (policy : cpufreq_policy)
    (p : cpufreq_interactive_cpuinfo) :
    (update_load now now_idle policy p).hispeed_validate_time = p.hispeed_validate_time := rfl

theorem timer_floor_update_target_freq (now : Nat) (values : interactive_vaules)
    (p : cpufreq_interactive_cpuinfo) (q : Nat) :
    (timer_floor_update now values p q).target_freq = p.target_freq := by
  unfold timer_floor_update
  split <;> rfl

/-- Every outcome of `timer_outcome` is the result of the timer function under
the conditions it carries. -/
theorem timer_some_of_outcome {inp : timer_input} {g : tunables} {policy : cpufreq_policy}
    {data : Nat} {p : cpufreq_interactive_cpuinfo} {mask : Nat → Bool} {r : timer_result}
    (h : timer_outcome inp g policy data p mask r) :
    cpufreq_interactive_timer inp g policy data p mask = some r := by
  cases h with
  | not_run h =>
    rcases h with h | h
    · simp [cpufreq_interactive_timer, h]
    · simp [cpufreq_interactive_timer, h]
  | no_sample ht he hd => simp [cpufreq_interactive_timer, ht, he, hd]
  | above_hispeed nf ht he hd h0 hnf hg =>
    simp [cpufreq_interactive_timer, ht, he, hd, h0, hnf, hg, update_load_target_freq,
      update_load_hispeed_validate_time]
  | lookup_failed nf ht he hd h0 hnf hg hq =>
    simp [cpufreq_interactive_timer, ht, he, hd, h0, hnf, hg, hq, update_load_target_freq,
      update_load_freq_table, update_load_hispeed_validate_time]
  | floor_held nf q ht he hd h0 hnf hg hq hfg =>
    simp [cpufreq_interactive_timer, ht, he, hd, h0, hnf, hg, hq, hfg,
      update_load_target_freq, update_load_freq_table, update_load_floor_freq,
      update_load_floor_validate_time, update_load_hispeed_validate_time]
  | already nf q ht he hd h0 hnf hg hq hfg hq2 =>
    subst hq2
    simp [cpufreq_interactive_timer, ht, he, hd, h0, hnf, hg, hq, hfg,
      update_load_target_freq, update_load_freq_table, update_load_floor_freq,
      update_load_floor_validate_time, update_load_hispeed_validate_time,
      timer_floor_update_target_freq]
  | changed nf q ht he hd h0 hnf hg hq hfg hq2 =>
    simp [cpufreq_interactive_timer, ht, he, hd, h0, hnf, hg, hq, hfg,
      update_load_target_freq, update_load_freq_table, update_load_floor_freq,
      update_load_floor_validate_time, update_load_hispeed_validate_time,
      timer_floor_update_target_freq, hq2]

/-- Every run of the timer function that returns ends in one of the outcomes of
`timer_outcome`. -/
theorem timer_outcome_of_some {inp : timer_input} {g : tunables} {policy : cpufreq_policy}
    {data : Nat} {p : cpufreq_interactive_cpuinfo} {mask : Nat → Bool} {r : timer_result}
    (h : cpufreq_interactive_timer inp g policy data p mask = some r) :
    timer_outcome inp g policy data p mask r := by
  have key : ∀ r2, timer_outcome inp g policy data p mask r2 →
      timer_outcome inp g policy data p mask r := by
    intro r2 o
    have h2 := timer_some_of_outcome o
    rw [h] at h2
    cases h2
    exact o
  by_cases ht : inp.trylock = true
  swap
  · exact key _ (.not_run (Or.inl (by simpa using ht)))
  by_cases he : p.governor_enabled = true
  swap
  · exact key _ (.not_run (Or.inr (by simpa using he)))
  by_cases hd : timer_delta_time inp (update_load inp.now inp.now_idle policy p) = 0
  · exact key _ (.no_sample ht he hd)
  by_cases h0 : p.target_freq = 0
  · simp [cpufreq_interactive_timer, ht, he, hd, h0, update_load_target_freq] at h
  cases hnf : timer_new_freq inp g policy (update_load inp.now inp.now_idle policy p)
      (timer_values g) (timer_loadadjfreq inp (update_load inp.now inp.now_idle policy p))
      (timer_loadadjfreq inp (update_load inp.now inp.now_idle policy p) / p.target_freq) with
  | none => simp [cpufreq_interactive_timer, ht, he, hd, h0, hnf, update_load_target_freq] at h
  | some nf =>
    by_cases hg : above_hispeed_gate inp.now (timer_values g) p.target_freq
        p.hispeed_validate_time nf
    · exact key _ (.above_hispeed nf ht he hd h0 hnf hg)
    cases hq : table_target_frequency p.freq_table nf relation.L with
    | none => exact key _ (.lookup_failed nf ht he hd h0 hnf hg hq)
    | some q =>
      by_cases hfg : floor_gate inp.now (timer_values g) p.floor_freq p.floor_validate_time q
      · exact key _ (.floor_held nf q ht he hd h0 hnf hg hq hfg)
      by_cases hq2 : p.target_freq = q
      · exact key _ (.already nf q ht he hd h0 hnf hg hq hfg hq2)
      · exact key _ (.changed nf q ht he hd h0 hnf hg hq hfg hq2)

/-! ### What the exit paths of the timer function leave unchanged -/

theorem resched_frame (inp : timer_input) (g : tunables) (policy : cpufreq_policy)
    (p : cpufreq_interactive_cpuinfo) :
    (cpufreq_interactive_timer_resched inp g policy p).target_freq = p.target_freq ∧
    (cpufreq_interactive_timer_resched inp g policy p).floor_freq = p.floor_freq ∧
    (cpufreq_interactive_timer_resched inp g policy p).floor_validate_time =
      p.floor_validate_time ∧
    (cpufreq_interactive_timer_resched inp g policy p).hispeed_validate_time =
      p.hispeed_validate_time ∧
    (cpufreq_interactive_timer_resched inp g policy p).freq_table = p.freq_table ∧
    (cpufreq_interactive_timer_resched inp g policy p).governor_enabled = p.governor_enabled ∧
    (cpufreq_interactive_timer_resched inp g policy p).cpu_timer =
      { pending := true
        expires := u32 (inp.jiffies + inp.usecs_to_jiffies (timer_values g).timer_rate) } := by
  simp only [cpufreq_interactive_timer_resched]
  split_ifs <;> exact ⟨rfl, rfl, rfl, rfl, rfl, rfl, rfl⟩

/-- The label `rearm:` leaves the frequency fields, the mask and the wake-up
flag as they are and the timer pending. -/
theorem timer_rearm_frame (inp : timer_input) (g : tunables) (policy : cpufreq_policy)
    (p : cpufreq_interactive_cpuinfo) (mask : Nat → Bool) (woken : Bool) :
    (timer_rearm inp g policy p mask woken).pcpu.target_freq = p.target_freq ∧
    (timer_rearm inp g policy p mask woken).pcpu.floor_freq = p.floor_freq ∧
    (timer_rearm inp g policy p mask woken).pcpu.floor_validate_time = p.floor_validate_time ∧
    (timer_rearm inp g policy p mask woken).pcpu.hispeed_validate_time =
      p.hispeed_validate_time ∧
    (timer_rearm inp g policy p mask woken).pcpu.freq_table = p.freq_table ∧
    (timer_rearm inp g policy p mask woken).pcpu.governor_enabled = p.governor_enabled ∧
    ((timer_rearm inp g policy p mask woken).pcpu.cpu_timer.pending = true ∧
      (p.cpu_timer.pending = false →
        (timer_rearm inp g policy p mask woken).pcpu.cpu_timer.expires =
          u32 (inp.jiffies + inp.usecs_to_jiffies (timer_values g).timer_rate))) ∧
    (timer_rearm inp g policy p mask woken).speedchange_cpumask = mask ∧
    (timer_rearm inp g policy p mask woken).woken = woken := by
  unfold timer_rearm
  by_cases hp : p.cpu_timer.pending = true
  · simp [hp, timer_exit]
  · obtain ⟨h1, h2, h3, h4, h5, h6, h7⟩ := resched_frame inp g policy p
    simp [hp, timer_exit, h1, h2, h3, h4, h5, h6, h7]

/-- The label `rearm_if_notmax:` leaves the frequency fields, the mask and the
wake-up flag as they are. -/
theorem timer_rearm_if_notmax_frame (inp : timer_input) (g : tunables) (policy : cpufreq_policy)
    (p : cpufreq_interactive_cpuinfo) (mask : Nat → Bool) (woken : Bool) :
    (timer_rearm_if_notmax inp g policy p mask woken).pcpu.target_freq = p.target_freq ∧
    (timer_rearm_if_notmax inp g policy p mask woken).pcpu.floor_freq = p.floor_freq ∧
    (timer_rearm_if_notmax inp g policy p mask woken).pcpu.floor_validate_time =
      p.floor_validate_time ∧
    (timer_rearm_if_notmax inp g policy p mask woken).pcpu.hispeed_validate_time =
      p.hispeed_validate_time ∧
    (timer_rearm_if_notmax inp g policy p mask woken).pcpu.freq_table = p.freq_table ∧
    (timer_rearm_if_notmax inp g policy p mask woken).pcpu.governor_enabled =
      p.governor_enabled ∧
    (timer_rearm_if_notmax inp g policy p mask woken).speedchange_cpumask = mask ∧
    (timer_rearm_if_notmax inp g policy p mask woken).woken = woken := by
  unfold timer_rearm_if_notmax
  obtain ⟨h1, h2, h3, h4, h5, h6, _, h8, h9⟩ := timer_rearm_frame inp g policy p mask woken
  by_cases hm : p.target_freq = policy.max
  · simp [hm, timer_exit]
  · simp [hm, h1, h2, h3, h4, h5, h6, h8, h9]

theorem timer_floor_update_frame (now : Nat) (values : interactive_vaules)
    (p : cpufreq_interactive_cpuinfo) (q : Nat) :
    (timer_floor_update now values p q).freq_table = p.freq_table ∧
    (timer_floor_update now values p q).hispeed_validate_time = p.hispeed_validate_time ∧
    (timer_floor_update now values p q).governor_enabled = p.governor_enabled ∧
    (timer_floor_update now values p q).floor_freq =
      (if q > values.hispeed_freq then q else p.floor_freq) ∧
    (timer_floor_update now values p q).floor_validate_time =
      (if q > values.hispeed_freq then now else p.floor_validate_time) := by
  unfold timer_floor_update
  split <;> simp

/-- The effect of a run of the timer function on the frequency fields: either
they are as before (the run stopped before the frequency change), or a
quantized `new_freq` that passed both gates became the target. -/
theorem timer_effect {inp : timer_input} {g : tunables} {policy : cpufreq_policy}
    {data : Nat} {p : cpufreq_interactive_cpuinfo} {mask : Nat → Bool} {r : timer_result}
    (h : cpufreq_interactive_timer inp g policy data p mask = some r) :
    r.pcpu.freq_table = p.freq_table ∧
    ((r.pcpu.target_freq = p.target_freq ∧ r.pcpu.floor_freq = p.floor_freq ∧
        r.pcpu.floor_validate_time = p.floor_validate_time ∧
        r.speedchange_cpumask = mask ∧ r.woken = false) ∨
     (∃ nf q,
        timer_new_freq inp g policy (update_load inp.now inp.now_idle policy p) (timer_values g)
          (timer_loadadjfreq inp (update_load inp.now inp.now_idle policy p))
          (timer_loadadjfreq inp (update_load inp.now inp.now_idle policy p) / p.target_freq)
          = some nf ∧
        ¬ above_hispeed_gate inp.now (timer_values g) p.target_freq p.hispeed_validate_time
          nf ∧
        table_target_frequency p.freq_table nf .L = some q ∧
        ¬ floor_gate inp.now (timer_values g) p.floor_freq p.floor_validate_time q ∧
        r.pcpu.target_freq = q ∧
        r.pcpu.floor_freq = (if q > (timer_values g).hispeed_freq then q else p.floor_freq) ∧
        r.pcpu.floor_validate_time =
          (if q > (timer_values g).hispeed_freq then inp.now else p.floor_validate_time) ∧
        r.pcpu.hispeed_validate_time = inp.now ∧
        r.speedchange_cpumask = (if p.target_freq = q then mask else cpumask_set_cpu data mask) ∧
        r.woken = decide (p.target_freq ≠ q))) := by
  have o := timer_outcome_of_some h
  cases o with
  | not_run _ => exact ⟨rfl, Or.inl ⟨rfl, rfl, rfl, rfl, rfl⟩⟩
  | no_sample _ _ _ =>
    obtain ⟨h1, h2, h3, _, h5, _, _, h8, h9⟩ :=
      timer_rearm_frame inp g policy (update_load inp.now inp.now_idle policy p) mask false
    exact ⟨h5, Or.inl ⟨h1, h2, h3, h8, h9⟩⟩
  | above_hispeed nf _ _ _ _ _ _ =>
    obtain ⟨h1, h2, h3, _, h5, _, _, h8, h9⟩ :=
      timer_rearm_frame inp g policy (update_load inp.now inp.now_idle policy p) mask false
    exact ⟨h5, Or.inl ⟨h1, h2, h3, h8, h9⟩⟩
  | lookup_failed nf _ _ _ _ _ _ _ =>
    obtain ⟨h1, h2, h3, _, h5, _, _, h8, h9⟩ :=
      timer_rearm_frame inp g policy
        { update_load inp.now inp.now_idle policy p with hispeed_validate_time := inp.now }
        mask false
    exact ⟨h5, Or.inl ⟨h1, h2, h3, h8, h9⟩⟩
  | floor_held nf q _ _ _ _ _ _ _ _ =>
    obtain ⟨h1, h2, h3, _, h5, _, _, h8, h9⟩ :=
      timer_rearm_frame inp g policy
        { update_load inp.now inp.now_idle policy p with hispeed_validate_time := inp.now }
        mask false
    exact ⟨h5, Or.inl ⟨h1, h2, h3, h8, h9⟩⟩
  | already nf q _ _ _ _ hnf hg hq hfg hq2 =>
    obtain ⟨h1, h2, h3, h4, h5, _, h8, h9⟩ :=
      timer_rearm_if_notmax_frame inp g policy
        (timer_floor_update inp.now (timer_values g)
          { update_load inp.now inp.now_idle policy p with hispeed_validate_time := inp.now }
          q)
        mask false
    obtain ⟨f1, f2, _, f4, f5⟩ := timer_floor_update_frame inp.now (timer_values g)
      { update_load inp.now inp.now_idle policy p with hispeed_validate_time := inp.now } q
    refine ⟨h5.trans f1, Or.inr ⟨nf, q, hnf, hg, hq, hfg, ?_, ?_, ?_, ?_, ?_, ?_⟩⟩
    · exact (h1.trans (timer_floor_update_target_freq _ _ _ _)).trans hq2
    · exact h2.trans f4
    · exact h3.trans f5
    · exact h4.trans f2
    · rw [h8, if_pos hq2]
    · rw [h9]
      simp [hq2]
  | changed nf q _ _ _ _ hnf hg hq hfg hq2 =>
    obtain ⟨h1, h2, h3, h4, h5, _, h8, h9⟩ :=
      timer_rearm_if_notmax_frame inp g policy
        { timer_floor_update inp.now (timer_values g)
            { update_load inp.now inp.now_idle policy p with
              hispeed_validate_time := inp.now }
            q with
          target_freq := q }
        (cpumask_set_cpu data mask) true
    obtain ⟨f1, f2, _, f4, f5⟩ := timer_floor_update_frame inp.now (timer_values g)
      { update_load inp.now inp.now_idle policy p with hispeed_validate_time := inp.now } q
    refine ⟨h5.trans f1, Or.inr ⟨nf, q, hnf, hg, hq, hfg, ?_, ?_, ?_, ?_, ?_, ?_⟩⟩
    · exact h1
    · exact h2.trans f4
    · exact h3.trans f5
    · exact h4.trans f2
    · rw [h8, if_neg hq2]
    · rw [h9]
      simp [hq2]

/-! ## Claim C3: `target_freq` stays in the frequency table -/

/-- A lookup with relation `L` returns an entry at or below every entry that
is at or above the request. -/
theorem table_target_L_le {table : List Nat} {req q e : Nat}
    (hq : table_target_frequency table req .L = some q) (he : e ∈ table) (hreq : req ≤ e) :
    q ≤ e := by
  obtain ⟨x, hx, _, hxs⟩ := table_target_L req he
  rw [hq] at hx
  cases hx
  rcases hxs with ⟨_, h2⟩ | ⟨h1, _⟩
  · exact h2 e he hreq
  · have := h1 e he
    omega

/-- A lookup with relation `L` of a frequency that is a table entry returns
that entry. -/
theorem table_target_L_self {table : List Nat} {e : Nat} (he : e ∈ table) :
    table_target_frequency table e .L = some e := by
  obtain ⟨x, hx, _, hxs⟩ := table_target_L e he
  rcases hxs with ⟨h1, h2⟩ | ⟨h1, _⟩
  · have := h2 e he (le_refl _)
    have hxe : x = e := by omega
    rw [hx, hxe]
  · have := h1 e he
    omega

/-- Claim C5: for every enabled per-CPU state and every run of the timer that
takes its sample with `delta_time > 0`, in which
`cpu_load >= go_hispeed_load`, `target_freq < hispeed_freq`, `hispeed_freq` is
a table entry and the floor gate does not block (`floor_freq <= hispeed_freq`,
or `min_sample_time` has elapsed since `floor_validate_time`), the run sets
`target_freq = hispeed_freq`, adds the CPU to `speedchange_cpumask` and wakes
the worker.  The chosen `new_freq` is `hispeed_freq` itself: nothing is
assumed about the target-load profile, `policy.cur` or the other table
entries, which only `choose_freq` reads, so the result does not depend on
what `choose_freq` would return or on whether it would return. -/
theorem hispeed_jump (inp : timer_input) (g : tunables) (policy : cpufreq_policy)
    (data : Nat) (p : cpufreq_interactive_cpuinfo) (mask : Nat → Bool)
    (ht : inp.trylock = true) (he : p.governor_enabled = true)
    (hd : timer_delta_time inp (update_load inp.now inp.now_idle policy p) ≠ 0)
    (h0 : p.target_freq ≠ 0)
    (hload : timer_loadadjfreq inp (update_load inp.now inp.now_idle policy p) / p.target_freq ≥
      (timer_values g).go_hispeed_load)
    (hlt : p.target_freq < (timer_values g).hispeed_freq)
    (hmem : (timer_values g).hispeed_freq ∈ p.freq_table)
    (hfloor : p.floor_freq ≤ (timer_values g).hispeed_freq ∨
      ¬ u64_sub inp.now p.floor_validate_time < (timer_values g).min_sample_time) :
    timer_new_freq inp g policy (update_load inp.now inp.now_idle policy p) (timer_values g)
      (timer_loadadjfreq inp (update_load inp.now inp.now_idle policy p))
      (timer_loadadjfreq inp (update_load inp.now inp.now_idle policy p) / p.target_freq)
      = some (timer_values g).hispeed_freq ∧
    ∃ r, cpufreq_interactive_timer inp g policy data p mask = some r ∧
      r.pcpu.target_freq = (timer_values g).hispeed_freq ∧
      r.speedchange_cpumask data = true ∧ r.woken = true := by
  have hnf : timer_new_freq inp g policy (update_load inp.now inp.now_idle policy p)
      (timer_values g) (timer_loadadjfreq inp (update_load inp.now inp.now_idle policy p))
      (timer_loadadjfreq inp (update_load inp.now inp.now_idle policy p) / p.target_freq)
      = some (timer_values g).hispeed_freq := by
    simp [timer_new_freq, hload, hlt, update_load_target_freq]
  have hg : ¬ above_hispeed_gate inp.now (timer_values g) p.target_freq
      p.hispeed_validate_time (timer_values g).hispeed_freq := by
    intro hgate
    have := hgate.1
    omega
  have hq := table_target_L_self hmem
  have hfg : ¬ floor_gate inp.now (timer_values g) p.floor_freq p.floor_validate_time
      (timer_values g).hispeed_freq := by
    intro hgate
    rcases hfloor with h | h
    · have := hgate.1
      omega
    · exact h hgate.2
  have hne : p.target_freq ≠ (timer_values g).hispeed_freq := by omega
  have o : timer_outcome inp g policy data p mask _ :=
    timer_outcome.changed _ _ ht he hd h0 hnf hg hq hfg hne
  obtain ⟨h1, _, _, _, _, _, h8, h9⟩ := timer_rearm_if_notmax_frame inp g policy
    { timer_floor_update inp.now (timer_values g)
        { update_load inp.now inp.now_idle policy p with hispeed_validate_time := inp.now }
        (timer_values g).hispeed_freq with
      target_freq := (timer_values g).hispeed_freq }
    (cpumask_set_cpu data mask) true
  refine ⟨hnf, _, timer_some_of_outcome o, h1, ?_, h9⟩
  rw [h8]
  simp [cpumask_set_cpu]

/-- Claim C5 at a concrete input (scenario A): a CPU started at the lowest
frequency and fully busy for 20 ms jumps to `hispeed_freq = 1350000`. -/
theorem hispeed_jump_witness :
    timer_summary
      (cpufreq_interactive_timer (timer_input_at 1020000 0) default_tunables policy_at_min 0
        started_at_min (fun _ => false)) =
      some (1350000, 384000, 1000000, 1020000, true, true, true) ∧
    timer_new_freq (timer_input_at 1020000 0) default_tunables policy_at_min
      (update_load (timer_input_at 1020000 0).now (timer_input_at 1020000 0).now_idle
        policy_at_min started_at_min)
      (timer_values default_tunables)
      (timer_loadadjfreq (timer_input_at 1020000 0)
        (update_load (timer_input_at 1020000 0).now (timer_input_at 1020000 0).now_idle
          policy_at_min started_at_min))
      (timer_loadadjfreq (timer_input_at 1020000 0)
        (update_load (timer_input_at 1020000 0).now (timer_input_at 1020000 0).now_idle
          policy_at_min started_at_min) / started_at_min.target_freq)
      = some (timer_values default_tunables).hispeed_freq ∧
    ∃ r, cpufreq_interactive_timer (timer_input_at 1020000 0) default_tunables policy_at_min 0
        started_at_min (fun _ => false) = some r ∧
      r.pcpu.target_freq = (timer_values default_tunables).hispeed_freq ∧
      r.speedchange_cpumask 0 = true ∧ r.woken = true :=
  ⟨rfl,
    hispeed_jump (timer_input_at 1020000 0) default_tunables policy_at_min 0 started_at_min
      (fun _ => false) rfl rfl (by decide) (by decide) (by decide) (by decide) (by decide)
      (Or.inl (by decide))⟩

/-- Claim C6: for every per-CPU state whose `target_freq` is a table entry
with `target_freq >= hispeed_freq`, and every run of the timer with
`now - hispeed_validate_time < above_hispeed_delay`, the run does not raise
the frequency: `target_freq` afterwards is at most `target_freq` before; and
when the run (of an enabled CPU, with its sample taken) chooses a `new_freq`
above `target_freq`, it leaves `target_freq`, `floor_freq`,
`floor_validate_time` and `hispeed_validate_time` unchanged, does not touch
the mask and goes to `rearm`: the timer is pending afterwards, armed for
`jiffies + usecs_to_jiffies(timer_rate)` unless it was pending already. -/
theorem above_hispeed_delay_holds (inp : timer_input) (g : tunables) (policy : cpufreq_policy)
    (data : Nat) (p : cpufreq_interactive_cpuinfo) (mask : Nat → Bool)
    (hmem : p.target_freq ∈ p.freq_table)
    (hge : p.target_freq ≥ (timer_values g).hispeed_freq)
    (hdelay : u64_sub inp.now p.hispeed_validate_time <
      (timer_values g).above_hispeed_delay_val) :
    (∀ r, cpufreq_interactive_timer inp g policy data p mask = some r →
      r.pcpu.target_freq ≤ p.target_freq) ∧
    (∀ nf, inp.trylock = true → p.governor_enabled = true →
      timer_delta_time inp (update_load inp.now inp.now_idle policy p) ≠ 0 →
      p.target_freq ≠ 0 →
      timer_new_freq inp g policy (update_load inp.now inp.now_idle policy p) (timer_values g)
        (timer_loadadjfreq inp (update_load inp.now inp.now_idle policy p))
        (timer_loadadjfreq inp (update_load inp.now inp.now_idle policy p) / p.target_freq)
        = some nf →
      nf > p.target_freq →
      ∃ r, cpufreq_interactive_timer inp g policy data p mask = some r ∧
        r.pcpu.target_freq = p.target_freq ∧ r.pcpu.floor_freq = p.floor_freq ∧
        r.pcpu.floor_validate_time = p.floor_validate_time ∧
        r.pcpu.hispeed_validate_time = p.hispeed_validate_time ∧
        r.speedchange_cpumask = mask ∧ r.woken = false ∧
        r.pcpu.cpu_timer.pending = true ∧
        (p.cpu_timer.pending = false →
          r.pcpu.cpu_timer.expires =
            u32 (inp.jiffies + inp.usecs_to_jiffies (timer_values g).timer_rate))) := by
  constructor
  · intro r h
    obtain ⟨_, hcase⟩ := timer_effect h
    rcases hcase with ⟨ht, _⟩ | ⟨nf, q, _, hg, hq, _, ht, _⟩
    · rw [ht]
    · have hnf : nf ≤ p.target_freq := by
        by_contra hc
        exact hg ⟨hge, by omega, hdelay⟩
      rw [ht]
      exact table_target_L_le hq hmem hnf
  · intro nf ht he hd h0 hnf hgt
    have o : timer_outcome inp g policy data p mask _ :=
      timer_outcome.above_hispeed nf ht he hd h0 hnf ⟨hge, hgt, hdelay⟩
    obtain ⟨h1, h2, h3, h4, _, _, h7, h8, h9⟩ :=
      timer_rearm_frame inp g policy (update_load inp.now inp.now_idle policy p) mask false
    exact ⟨_, timer_some_of_outcome o, h1, h2, h3, h4, h8, h9, h7.1, h7.2⟩

/-- Claim C6 at a concrete input (scenario B): a CPU at `hispeed_freq =
1350000`, validated 10 ms ago with a delay of 30 ms and fully busy, keeps its
frequency and re-arms. -/
theorem above_hispeed_delay_holds_witness :
    timer_summary
      (cpufreq_interactive_timer (timer_input_at 1010000 0) default_tunables
        { policy_at_max with cur := 1350000 } 0
        { started_at_max with target_freq := 1350000, floor_freq := 1350000 }
        (fun _ => false)) =
      some (1350000, 1350000, 1000000, 1000000, true, false, false) ∧
    (∀ r, cpufreq_interactive_timer (timer_input_at 1010000 0) default_tunables
        { policy_at_max with cur := 1350000 } 0
        { started_at_max with target_freq := 1350000, floor_freq := 1350000 }
        (fun _ => false) = some r →
      r.pcpu.target_freq ≤ 1350000) :=
  ⟨rfl,
    (above_hispeed_delay_holds (timer_input_at 1010000 0) default_tunables
      { policy_at_max with cur := 1350000 } 0
      { started_at_max with target_freq := 1350000, floor_freq := 1350000 }
      (fun _ => false) (by decide) (by decide) (by decide)).1⟩

/-- Claim C7: for every per-CPU state and every run of the timer with
`now - floor_validate_time < min_sample_time`, the run never moves the
frequency below the floor: `target_freq` afterwards is unchanged or at least
the `floor_freq` of before; and when the run (of an enabled CPU, with its sample
taken) arrives at a quantized `new_freq` below `floor_freq`, it leaves
`target_freq`, `floor_freq` and `floor_validate_time` unchanged, does not
touch the mask and goes to `rearm`: the timer is pending afterwards, armed for
`jiffies + usecs_to_jiffies(timer_rate)` unless it was pending already. -/
theorem floor_gate_holds (inp : timer_input) (g : tunables) (policy : cpufreq_policy)
    (data : Nat) (p : cpufreq_interactive_cpuinfo) (mask : Nat → Bool)
    (hmin : u64_sub inp.now p.floor_validate_time < (timer_values g).min_sample_time) :
    (∀ r, cpufreq_interactive_timer inp g policy data p mask = some r →
      r.pcpu.target_freq = p.target_freq ∨ r.pcpu.target_freq ≥ p.floor_freq) ∧
    (∀ nf q, inp.trylock = true → p.governor_enabled = true →
      timer_delta_time inp (update_load inp.now inp.now_idle policy p) ≠ 0 →
      p.target_freq ≠ 0 →
      timer_new_freq inp g policy (update_load inp.now inp.now_idle policy p) (timer_values g)
        (timer_loadadjfreq inp (update_load inp.now inp.now_idle policy p))
        (timer_loadadjfreq inp (update_load inp.now inp.now_idle policy p) / p.target_freq)
        = some nf →
      table_target_frequency p.freq_table nf .L = some q →
      q < p.floor_freq →
      ∃ r, cpufreq_interactive_timer inp g policy data p mask = some r ∧
        r.pcpu.target_freq = p.target_freq ∧ r.pcpu.floor_freq = p.floor_freq ∧
        r.pcpu.floor_validate_time = p.floor_validate_time ∧
        r.speedchange_cpumask = mask ∧ r.woken = false ∧
        r.pcpu.cpu_timer.pending = true ∧
        (p.cpu_timer.pending = false →
          r.pcpu.cpu_timer.expires =
            u32 (inp.jiffies + inp.usecs_to_jiffies (timer_values g).timer_rate))) := by
  constructor
  · intro r h
    obtain ⟨_, hcase⟩ := timer_effect h
    rcases hcase with ⟨ht, _⟩ | ⟨nf, q, _, _, _, hfg, ht, _⟩
    · exact Or.inl ht
    · right
      rw [ht]
      by_contra hc
      exact hfg ⟨by omega, hmin⟩
  · intro nf q ht he hd h0 hnf hq hlt
    by_cases hg : above_hispeed_gate inp.now (timer_values g) p.target_freq
        p.hispeed_validate_time nf
    · have o : timer_outcome inp g policy data p mask _ :=
        timer_outcome.above_hispeed nf ht he hd h0 hnf hg
      obtain ⟨h1, h2, h3, _, _, _, h7, h8, h9⟩ :=
        timer_rearm_frame inp g policy (update_load inp.now inp.now_idle policy p) mask false
      exact ⟨_, timer_some_of_outcome o, h1, h2, h3, h8, h9, h7.1, h7.2⟩
    · have o : timer_outcome inp g policy data p mask _ :=
        timer_outcome.floor_held nf q ht he hd h0 hnf hg hq ⟨hlt, hmin⟩
      obtain ⟨h1, h2, h3, _, _, _, h7, h8, h9⟩ :=
        timer_rearm_frame inp g policy
          { update_load inp.now inp.now_idle policy p with hispeed_validate_time := inp.now }
          mask false
      exact ⟨_, timer_some_of_outcome o, h1, h2, h3, h8, h9, h7.1, h7.2⟩

/-- Claim C7 at a concrete input (scenario C, first run): 30 ms after the
floor was validated, with `min_sample_time` 60 ms and the CPU idle, the
frequency stays at the floor and the timer is re-armed. -/
theorem floor_gate_holds_witness :
    timer_summary
      (cpufreq_interactive_timer (timer_input_at 1030000 1030000) default_tunables
        policy_at_max 0 started_at_max (fun _ => false)) =
      some (1512000, 1512000, 1000000, 1030000, true, false, false) ∧
    (∀ r, cpufreq_interactive_timer (timer_input_at 1030000 1030000) default_tunables
        policy_at_max 0 started_at_max (fun _ => false) = some r →
      r.pcpu.target_freq = started_at_max.target_freq ∨
        r.pcpu.target_freq ≥ started_at_max.floor_freq) :=
  ⟨rfl,
    (floor_gate_holds (timer_input_at 1030000 1030000) default_tunables policy_at_max 0
      started_at_max (fun _ => false) (by decide)).1⟩

/-! ## Claim C8: the speed-change worker -/

/-- The inner loop of the worker computes the maximum of the `target_freq` of
the listed CPUs and of the start value. -/
theorem foldl_max_spec (f : Nat → Nat) (cpus : List Nat) (init : Nat) :
    init ≤ cpus.foldl (fun acc j => if f j > acc then f j else acc) init ∧
    (∀ j ∈ cpus, f j ≤ cpus.foldl (fun acc j => if f j > acc then f j else acc) init) ∧
    (cpus.foldl (fun acc j => if f j > acc then f j else acc) init = init ∨
      ∃ j ∈ cpus, f j = cpus.foldl (fun acc j => if f j > acc then f j else acc) init) := by
  induction cpus generalizing init with
  | nil => simp
  | cons c rest ih =>
    simp only [List.foldl_cons]
    by_cases hc : f c > init
    · simp only [hc, if_true]
      obtain ⟨h1, h2, h3⟩ := ih (f c)
      refine ⟨by omega, ?_, ?_⟩
      · intro j hj
        rcases List.mem_cons.mp hj with rfl | hj
        · exact h1
        · exact h2 j hj
      · rcases h3 with h3 | ⟨j, hj, h3⟩
        · exact Or.inr ⟨c, List.mem_cons_self _ _, h3.symm⟩
        · exact Or.inr ⟨j, List.mem_cons_of_mem _ hj, h3⟩
    · simp only [hc, if_false]
      obtain ⟨h1, h2, h3⟩ := ih init
      refine ⟨h1, ?_, ?_⟩
      · intro j hj
        rcases List.mem_cons.mp hj with rfl | hj
        · omega
        · exact h2 j hj
      · rcases h3 with h3 | ⟨j, hj, h3⟩
        · exact Or.inl h3
        · exact Or.inr ⟨j, List.mem_cons_of_mem _ hj, h3⟩

theorem speedchange_cpu_frame (inp : worker_input) (sys : governor_system) (cpu : Nat) :
    (speedchange_cpu inp sys cpu).1.cpuinfo = sys.cpuinfo ∧
    (speedchange_cpu inp sys cpu).1.speedchange_cpumask = sys.speedchange_cpumask := by
  unfold speedchange_cpu
  simp only []
  split_ifs <;> exact ⟨rfl, rfl⟩

theorem speedchange_cpus_spec (inp : worker_input) (cpus : List Nat) (sys : governor_system) :
    (speedchange_cpus inp cpus sys).1.cpuinfo = sys.cpuinfo ∧
    (speedchange_cpus inp cpus sys).1.speedchange_cpumask = sys.speedchange_cpumask ∧
    (∀ c s, (c, s) ∈ speedchange_trace inp cpus sys →
      c ∈ cpus ∧ s.cpuinfo = sys.cpuinfo ∧ s.speedchange_cpumask = sys.speedchange_cpumask) ∧
    (∀ req, req ∈ (speedchange_cpus inp cpus sys).2 ↔
      ∃ c s, (c, s) ∈ speedchange_trace inp cpus sys ∧ req ∈ (speedchange_cpu inp s c).2) := by
  induction cpus generalizing sys with
  | nil => simp [speedchange_cpus, speedchange_trace]
  | cons cpu rest ih =>
    obtain ⟨f1, f2⟩ := speedchange_cpu_frame inp sys cpu
    obtain ⟨i1, i2, i3, i4⟩ := ih (speedchange_cpu inp sys cpu).1
    refine ⟨?_, ?_, ?_, ?_⟩
    · simp only [speedchange_cpus]
      rw [i1, f1]
    · simp only [speedchange_cpus]
      rw [i2, f2]
    · intro c s hmem
      simp only [speedchange_trace, List.mem_cons, Prod.mk.injEq] at hmem
      rcases hmem with ⟨rfl, rfl⟩ | hmem
      · exact ⟨List.mem_cons_self _ _, rfl, rfl⟩
      · obtain ⟨h1, h2, h3⟩ := i3 c s hmem
        exact ⟨List.mem_cons_of_mem _ h1, h2.trans f1, h3.trans f2⟩
    · intro req
      simp only [speedchange_cpus, List.mem_append, speedchange_trace, List.mem_cons,
        Prod.mk.injEq]
      constructor
      · rintro (h | h)
        · exact ⟨cpu, sys, Or.inl ⟨rfl, rfl⟩, h⟩
        · obtain ⟨c, s, hcs, hreq⟩ := (i4 req).mp h
          exact ⟨c, s, Or.inr hcs, hreq⟩
      · rintro ⟨c, s, (⟨rfl, rfl⟩ | hcs), hreq⟩
        · exact Or.inl hreq
        · exact Or.inr ((i4 req).mpr ⟨c, s, hcs, hreq⟩)

/-- Claim C8: for every CPU `c` the worker drains from `speedchange_cpumask`,
processed in the state `s` (`c` was in the mask, and the per-CPU records of
`s` are those at the start of the drain): when the governor of `c` is not
enabled the worker issues no request for it; when it is enabled and its enable
gate is held, the value `m` the worker computes is the maximum of the
`target_freq` of the CPUs sharing the policy of `c` (0 when there is none),
and the worker issues a request if and only if `m` differs from `policy.cur`,
that request being for `m` with `RELATION_H` on the policy of `c`.  The
requests of a drain are exactly those of its steps, and after the drain the
shared mask is empty. -/
theorem speedchange_worker_requests (inp : worker_input) (sys : governor_system) (c : Nat)
    (s : governor_system) (hstep : (c, s) ∈ speedchange_drain_trace inp sys) :
    sys.speedchange_cpumask c = true ∧ s.cpuinfo = sys.cpuinfo ∧
    ((s.cpuinfo c).governor_enabled = false → (speedchange_cpu inp s c).2 = []) ∧
    (inp.trylock c = true → (s.cpuinfo c).governor_enabled = true →
      (∀ j ∈ (s.policies (s.cpuinfo c).policy).cpus,
        (s.cpuinfo j).target_freq ≤
          speedchange_max_freq s.cpuinfo (s.policies (s.cpuinfo c).policy).cpus) ∧
      (speedchange_max_freq s.cpuinfo (s.policies (s.cpuinfo c).policy).cpus = 0 ∨
        ∃ j ∈ (s.policies (s.cpuinfo c).policy).cpus,
          (s.cpuinfo j).target_freq =
            speedchange_max_freq s.cpuinfo (s.policies (s.cpuinfo c).policy).cpus) ∧
      (speedchange_cpu inp s c).2 =
        (if speedchange_max_freq s.cpuinfo (s.policies (s.cpuinfo c).policy).cpus ≠
            (s.policies (s.cpuinfo c).policy).cur then
          [{ policy := (s.cpuinfo c).policy,
             target_freq :=
               speedchange_max_freq s.cpuinfo (s.policies (s.cpuinfo c).policy).cpus,
             rel := .H }]
        else [])) ∧
    (∀ req, req ∈ (speedchange_drain inp sys).2 ↔
      ∃ c2 s2, (c2, s2) ∈ speedchange_drain_trace inp sys ∧
        req ∈ (speedchange_cpu inp s2 c2).2) ∧
    (∀ c2, (speedchange_drain inp sys).1.speedchange_cpumask c2 = false) := by
  obtain ⟨_, i2, i3, i4⟩ := speedchange_cpus_spec inp
    ((List.range inp.nr_cpu_ids).filter sys.speedchange_cpumask)
    { sys with speedchange_cpumask := fun _ => false }
  obtain ⟨hc, hs, _⟩ := i3 c s hstep
  refine ⟨(List.mem_filter.mp hc).2, hs, ?_, ?_, i4, ?_⟩
  · intro hdis
    unfold speedchange_cpu
    simp [hdis]
  · intro hlock hen
    obtain ⟨_, m2, m3⟩ := foldl_max_spec (fun j => (s.cpuinfo j).target_freq)
      (s.policies (s.cpuinfo c).policy).cpus 0
    refine ⟨m2, m3, ?_⟩
    unfold speedchange_cpu
    simp only [hlock, hen, Bool.not_true, Bool.false_eq_true, if_false]
    split_ifs <;> rfl
  · intro c2
    unfold speedchange_drain
    simp only []
    rw [i2]

/-- Claim C8 at a concrete input: the drain of the sample system, in which
CPU 0 (enabled, maximum 1350000 against `policy.cur = 384000`) gets a request
and CPU 3 (not governed) gets none. -/
theorem speedchange_worker_requests_witness :
    (speedchange_drain sample_worker_input sample_system).2 =
      [{ policy := 0, target_freq := 1350000, rel := .H }] ∧
    (0, { sample_system with speedchange_cpumask := fun _ => false }) ∈
      speedchange_drain_trace sample_worker_input sample_system ∧
    (speedchange_cpu sample_worker_input
        { sample_system with speedchange_cpumask := fun _ => false } 0).2 =
      [{ policy := 0, target_freq := 1350000, rel := .H }] ∧
    (∀ c2, (speedchange_drain sample_worker_input sample_system).1.speedchange_cpumask c2
      = false) :=
  ⟨by decide, List.mem_cons_self _ _, by decide,
    (speedchange_worker_requests sample_worker_input sample_system 0
      { sample_system with speedchange_cpumask := fun _ => false }
      (List.mem_cons_self _ _)).2.2.2.2.2⟩

/-! ## Claims C9 and C10: the hot-plug decider -/

/-- Claim C9 fails as stated (scenario D): with the GPU idle, three CPUs
online, an average load of 85 and `first_counter = 44`, the tick does not take
the up branch although 85 is above 50, the value the claim gives for `U(3)`:
it takes neither branch and ends with `first_counter = 38`, not 47, and
`coreboost_endtime = now + 1500`, not `now + 3000`. -/
theorem hotplug_scenario_D_counterexample :
    (hotplug_av_load scenario_D_input { scenario_D_state with now := 5000 }).map
      (fun r => r.1) = some 85 ∧
    (possible_cpus.filter scenario_D_state.cpu_online).length = 3 ∧
    hotplug_select true 3 85 = some .hold ∧
    hotplug_summary (decide_hotplug_func scenario_D_input scenario_D_state) =
      some (38, 0, 5000 + 1500, [], [0, 1, 2]) ∧
    (38 : Int) ≠ 47 ∧ 5000 + 1500 ≠ 5000 + 3000 := by
  decide

/-- Claim C9, as amended: a decider tick takes the up branch exactly when
`avg >= U(n)`, and otherwise the down branch exactly when `avg <= D(n)`,
where `U(n) = scale_first_level(n)` is the second column of `hotplug_val` and
`D(n) = scale_third_level(n)` the first: for `n = 1, 2, 3, 4` online CPUs
`(D(n), U(n))` is `(0,80), (40,85), (50,90), (60,100)` when the GPU is idle
and `(0,60), (30,60), (30,65), (40,100)` when it is busy.  In particular,
with the GPU idle, `n = 3`, `avg_load = 85` and `first_counter = 44`, the tick
takes neither branch: it ends with `first_counter = 38` (44 less the
`down_val` of 6), requests no hot-plug operation and leaves
`coreboost_endtime` at the larger of its old value and `now + 1500`. -/
theorem hotplug_branch_thresholds (inp : hotplug_input) (st : hotplug_state)
    (av_load : Nat) (cpuload : Nat → cpu_load_data)
    (hav : hotplug_av_load inp { st with now := inp.ktime_ms } = some (av_load, cpuload)) :
    (∀ av : Nat,
      hotplug_select true 1 av =
        some (if av ≥ 80 then .up else if av ≤ 0 then .down else .hold) ∧
      hotplug_select true 2 av =
        some (if av ≥ 85 then .up else if av ≤ 40 then .down else .hold) ∧
      hotplug_select true 3 av =
        some (if av ≥ 90 then .up else if av ≤ 50 then .down else .hold) ∧
      hotplug_select true 4 av =
        some (if av ≥ 100 then .up else if av ≤ 60 then .down else .hold) ∧
      hotplug_select false 1 av =
        some (if av ≥ 60 then .up else if av ≤ 0 then .down else .hold) ∧
      hotplug_select false 2 av =
        some (if av ≥ 60 then .up else if av ≤ 30 then .down else .hold) ∧
      hotplug_select false 3 av =
        some (if av ≥ 65 then .up else if av ≤ 30 then .down else .hold) ∧
      hotplug_select false 4 av =
        some (if av ≥ 100 then .up else if av ≤ 40 then .down else .hold)) ∧
    decide_hotplug_func inp st =
      (match hotplug_select inp.gpu_idle (possible_cpus.filter st.cpu_online).length
          av_load with
        | none => none
        | some .up =>
          some (hotplug_up inp { st with now := inp.ktime_ms, cpuload := cpuload }
            (possible_cpus.filter st.cpu_online).length
            (hotplug_vals inp { st with now := inp.ktime_ms }
              (possible_cpus.filter st.cpu_online).length).1)
        | some .down =>
          some (hotplug_down inp { st with now := inp.ktime_ms, cpuload := cpuload }
            (possible_cpus.filter st.cpu_online).length
            (hotplug_vals inp { st with now := inp.ktime_ms }
              (possible_cpus.filter st.cpu_online).length).2)
        | some .hold =>
          some (hotplug_hold { st with now := inp.ktime_ms, cpuload := cpuload }
            (hotplug_vals inp { st with now := inp.ktime_ms }
              (possible_cpus.filter st.cpu_online).length).2)) ∧
    (inp.gpu_idle = true → (possible_cpus.filter st.cpu_online).length = 3 →
      av_load = 85 → st.first_counter = 44 →
      ∃ st2, decide_hotplug_func inp st = some st2 ∧ st2.first_counter = 38 ∧
        st2.requests = st.requests ∧ st2.cpu_online = st.cpu_online ∧
        st2.coreboost_endtime =
          (if u64 (inp.ktime_ms + 1500) > st.coreboost_endtime then u64 (inp.ktime_ms + 1500)
           else st.coreboost_endtime)) := by
  refine ⟨?_, ?_, ?_⟩
  · intro av
    simp only [hotplug_select, scale_first_level, scale_third_level, hotplug_val_at,
      hotplug_val, u32_sub]
    refine ⟨?_, ?_, ?_, ?_, ?_, ?_, ?_, ?_⟩ <;> (simp; split_ifs <;> rfl)
  · simp only [decide_hotplug_func, hav, hotplug_decide]
    cases hsel : hotplug_select inp.gpu_idle (possible_cpus.filter st.cpu_online).length
        av_load with
    | none => rfl
    | some b => cases b <;> rfl
  · intro hidle hn hav85 hfirst
    subst hav85
    have hsel : hotplug_select true 3 85 = some .hold := by decide
    have hres : decide_hotplug_func inp st =
        some (hotplug_hold { st with now := inp.ktime_ms, cpuload := cpuload } 6) := by
      simp only [decide_hotplug_func, hav, hotplug_decide, hidle, hn, hsel, hotplug_vals,
        if_true]
    refine ⟨_, hres, ?_, ?_, ?_, ?_⟩
    · simp only [hotplug_hold, hfirst, to_short]
      split_ifs <;> simp_all
    · simp only [hotplug_hold]
      split_ifs <;> rfl
    · simp only [hotplug_hold]
      split_ifs <;> rfl
    · simp only [hotplug_hold, BOOST_TIME]
      split_ifs <;> simp_all

/-- Claim C9, as amended, at a concrete input: the tick of scenario D. -/
theorem hotplug_branch_thresholds_witness :
    hotplug_av_load scenario_D_input { scenario_D_state with now := scenario_D_input.ktime_ms }
      = some (85, hotplug_cpuload_of (hotplug_av_load scenario_D_input
          { scenario_D_state with now := scenario_D_input.ktime_ms })) ∧
    ∃ st2, decide_hotplug_func scenario_D_input scenario_D_state = some st2 ∧
      st2.first_counter = 38 ∧ st2.requests = scenario_D_state.requests ∧
      st2.cpu_online = scenario_D_state.cpu_online ∧
      st2.coreboost_endtime =
        (if u64 (scenario_D_input.ktime_ms + 1500) > scenario_D_state.coreboost_endtime then
          u64 (scenario_D_input.ktime_ms + 1500)
         else scenario_D_state.coreboost_endtime) :=
  ⟨rfl,
    (hotplug_branch_thresholds scenario_D_input scenario_D_state 85
      (hotplug_cpuload_of (hotplug_av_load scenario_D_input
        { scenario_D_state with now := scenario_D_input.ktime_ms })) rfl).2.2
      rfl (by decide) rfl rfl⟩

theorem possible_cpus_eq : possible_cpus = [0, 1, 2, 3] := by decide

/-- With at most three of the four possible CPUs online, the scan of
`online_core` finds the lowest-numbered offline CPU. -/
theorem lowest_offline_cpu (online : Nat → Bool)
    (hn : (possible_cpus.filter online).length ≤ 3) :
    ∃ c, possible_cpus.find? (fun cpu => !online cpu) = some c ∧ c ∈ possible_cpus ∧
      online c = false ∧ ∀ c2, c2 < c → online c2 = true := by
  rw [possible_cpus_eq] at hn ⊢
  cases h0 : online 0
  · exact ⟨0, by simp [List.find?, h0], by simp, h0, by omega⟩
  cases h1 : online 1
  · refine ⟨1, by simp [List.find?, h0, h1], by simp, h1, ?_⟩
    intro c2 hc2
    interval_cases c2
    exact h0
  cases h2 : online 2
  · refine ⟨2, by simp [List.find?, h0, h1, h2], by simp, h2, ?_⟩
    intro c2 hc2
    interval_cases c2
    · exact h0
    · exact h1
  cases h3 : online 3
  · refine ⟨3, by simp [List.find?, h0, h1, h2, h3], by simp, h3, ?_⟩
    intro c2 hc2
    interval_cases c2
    · exact h0
    · exact h1
    · exact h2
  · simp [List.filter, h0, h1, h2, h3] at hn

theorem hotplug_vals_up (inp : hotplug_input) (st : hotplug_state) (n : Nat) :
    (hotplug_vals inp st n).1 = 3 ∨ (hotplug_vals inp st n).1 = 15 ∨
      (hotplug_vals inp st n).1 = 10 := by
  unfold hotplug_vals
  split_ifs <;> simp

/-- The function `online_core` when fewer than four CPUs are online and the
scan finds the offline CPU `c`: it requests `cpu_up(c)` and resets the
counters and the boost deadline. -/
theorem online_core_spec (inp : hotplug_input) (st : hotplug_state) (n c : Nat)
    (hn : ¬ n > 3)
    (hfind : possible_cpus.find? (fun cpu => !st.cpu_online cpu) = some c) :
    (online_core inp st n).requests = st.requests ++ [.cpu_up c] ∧
    (online_core inp st n).first_counter = 0 ∧
    (online_core inp st n).third_counter = -DEFAULT_COUNTER ∧
    (online_core inp st n).coreboost_endtime = u64 (st.now + BOOST_TIME) := by
  unfold online_core
  by_cases hok : inp.plug_ok (.cpu_up c) = true
  · simp [hn, hfind, hotplug_call, hok, to_short, DEFAULT_COUNTER]
  · simp [hn, hfind, hotplug_call, hok, to_short, DEFAULT_COUNTER]

/-- The up branch when `first_counter` reaches `DEFAULT_COUNTER`: it ends in
`online_core`, entered with the online mask, the request log and the clock of
the start of the branch. -/
theorem hotplug_up_reaches (inp : hotplug_input) (st : hotplug_state) (n up_val : Nat)
    (hshort : -32768 ≤ st.first_counter) (hlt : st.first_counter < DEFAULT_COUNTER)
    (hup : up_val ≤ 15)
    (hreach : st.first_counter + (up_val : Int) ≥ DEFAULT_COUNTER) :
    ∃ st3, hotplug_up inp st n up_val = online_core inp st3 n ∧
      st3.cpu_online = st.cpu_online ∧ st3.requests = st.requests ∧ st3.now = st.now := by
  have hwrap : to_short (st.first_counter + (up_val : Int)) = st.first_counter + up_val := by
    unfold to_short
    unfold DEFAULT_COUNTER at hlt
    omega
  by_cases ht : st.third_counter > 0
  · refine ⟨{ st with
        coreboost_endtime := u64 (st.now + BOOST_TIME)
        first_counter := st.first_counter + up_val
        third_counter := to_short (st.third_counter - up_val) }, ?_, rfl, rfl, rfl⟩
    simp only [hotplug_up, hlt, if_true, hwrap, ht]
    rw [if_pos hreach]
  · refine ⟨{ st with
        coreboost_endtime := u64 (st.now + BOOST_TIME)
        first_counter := st.first_counter + up_val }, ?_, rfl, rfl, rfl⟩
    simp only [hotplug_up, hlt, if_true, hwrap, ht, if_false]
    rw [if_pos hreach]

/-- Claim C10: for every decider tick with `n <= 3` online CPUs in which the
average load is at or above `scale_first_level(n)`, `first_counter` (a `short`)
is below `DEFAULT_COUNTER` before the tick and `first_counter + up_val`
reaches `DEFAULT_COUNTER`: `cpu_up` is requested for the lowest-numbered
offline CPU and nothing else is requested, and the tick ends with
`first_counter = 0`, `third_counter = -DEFAULT_COUNTER` and
`coreboost_endtime = now + BOOST_TIME`, whether or not `cpu_up` succeeds. -/
theorem online_core_on_up (inp : hotplug_input) (st : hotplug_state) (av_load : Nat)
    (cpuload : Nat → cpu_load_data) (first_level : Nat)
    (hav : hotplug_av_load inp { st with now := inp.ktime_ms } = some (av_load, cpuload))
    (hn : (possible_cpus.filter st.cpu_online).length ≤ 3)
    (hlevel : scale_first_level inp.gpu_idle (possible_cpus.filter st.cpu_online).length =
      some first_level)
    (hup : av_load ≥ first_level)
    (hshort : -32768 ≤ st.first_counter)
    (hlt : st.first_counter < DEFAULT_COUNTER)
    (hreach : st.first_counter +
      ((hotplug_vals inp { st with now := inp.ktime_ms }
        (possible_cpus.filter st.cpu_online).length).1 : Int) ≥ DEFAULT_COUNTER) :
    ∃ st2 c, decide_hotplug_func inp st = some st2 ∧
      c ∈ possible_cpus ∧ st.cpu_online c = false ∧ (∀ c2, c2 < c → st.cpu_online c2 = true) ∧
      st2.requests = st.requests ++ [.cpu_up c] ∧
      st2.first_counter = 0 ∧ st2.third_counter = -DEFAULT_COUNTER ∧
      st2.coreboost_endtime = u64 (inp.ktime_ms + BOOST_TIME) := by
  obtain ⟨c, hfind, hc1, hc2, hc3⟩ := lowest_offline_cpu st.cpu_online hn
  have hsel : hotplug_select inp.gpu_idle (possible_cpus.filter st.cpu_online).length av_load
      = some .up := by
    simp [hotplug_select, hlevel, hup]
  have hres : decide_hotplug_func inp st =
      some (hotplug_up inp { st with now := inp.ktime_ms, cpuload := cpuload }
        (possible_cpus.filter st.cpu_online).length
        (hotplug_vals inp { st with now := inp.ktime_ms }
          (possible_cpus.filter st.cpu_online).length).1) := by
    simp only [decide_hotplug_func, hav, hotplug_decide, hsel]
    rfl
  have hv : (hotplug_vals inp { st with now := inp.ktime_ms }
      (possible_cpus.filter st.cpu_online).length).1 ≤ 15 := by
    rcases hotplug_vals_up inp { st with now := inp.ktime_ms }
      (possible_cpus.filter st.cpu_online).length with h | h | h <;> omega
  obtain ⟨st3, h3, ho, hr, hnow⟩ := hotplug_up_reaches inp
    { st with now := inp.ktime_ms, cpuload := cpuload }
    (possible_cpus.filter st.cpu_online).length _ hshort hlt hv hreach
  have hfind3 : possible_cpus.find? (fun cpu => !st3.cpu_online cpu) = some c := by
    rw [ho]
    exact hfind
  obtain ⟨o1, o2, o3, o4⟩ := online_core_spec inp st3
    (possible_cpus.filter st.cpu_online).length c (by omega) hfind3
  rw [h3] at hres
  refine ⟨_, c, hres, hc1, hc2, hc3, ?_, o2, o3, ?_⟩
  · rw [o1, hr]
  · rw [o4, hnow]

/-- Claim C10 at a concrete input (scenario E): GPU busy, touch boost active,
one CPU online, average load 62 against a first level of 60,
`first_counter = 48` and `up_val = 15`: CPU 1 is brought online and the
counters are reset. -/
theorem online_core_on_up_witness :
    hotplug_summary (decide_hotplug_func scenario_E_input scenario_E_state) =
      some (0, -50, 5000 + 3000, [.cpu_up 1], [0, 1]) ∧
    ∃ st2 c, decide_hotplug_func scenario_E_input scenario_E_state = some st2 ∧
      c ∈ possible_cpus ∧ scenario_E_state.cpu_online c = false ∧
      (∀ c2, c2 < c → scenario_E_state.cpu_online c2 = true) ∧
      st2.requests = scenario_E_state.requests ++ [.cpu_up c] ∧
      st2.first_counter = 0 ∧ st2.third_counter = -DEFAULT_COUNTER ∧
      st2.coreboost_endtime = u64 (scenario_E_input.ktime_ms + BOOST_TIME) :=
  ⟨by decide,
    online_core_on_up scenario_E_input scenario_E_state 62
      (hotplug_cpuload_of (hotplug_av_load scenario_E_input
        { scenario_E_state with now := scenario_E_input.ktime_ms }))
      60 rfl (by decide) (by decide) (by decide) (by decide) (by decide) (by decide)⟩

/-! ## Claims C11 and C12: taking a core offline -/

theorem hotplug_vals_down (inp : hotplug_input) (st : hotplug_state) (n : Nat) :
    (hotplug_vals inp st n).2 = 6 ∨ (hotplug_vals inp st n).2 = 7 ∨
      (hotplug_vals inp st n).2 = 5 := by
  unfold hotplug_vals
  split_ifs <;> simp

/-- The down branch when `third_counter` reaches `DEFAULT_COUNTER`: it ends in
`offline_core`, entered with the online mask, the request log, the clock, the
boost deadline and `cores_on_touch` of the start of the branch and with
`third_counter` at or above `DEFAULT_COUNTER`. -/
theorem hotplug_down_reaches (inp : hotplug_input) (st : hotplug_state) (n down_val : Nat)
    (hdown : down_val ≤ 7)
    (hreach : st.third_counter + (down_val : Int) ≥ DEFAULT_COUNTER) :
    ∃ st3, hotplug_down inp st n down_val = offline_core inp st3 n ∧
      st3.cpu_online = st.cpu_online ∧ st3.requests = st.requests ∧ st3.now = st.now ∧
      st3.coreboost_endtime = st.coreboost_endtime ∧ st3.cores_on_touch = st.cores_on_touch ∧
      st3.third_counter ≥ DEFAULT_COUNTER := by
  unfold DEFAULT_COUNTER at hreach
  by_cases hlt : st.third_counter < DEFAULT_COUNTER
  · have hwrap : to_short (st.third_counter + (down_val : Int)) =
        st.third_counter + down_val := by
      unfold to_short
      unfold DEFAULT_COUNTER at hlt
      omega
    have hge : st.third_counter + (down_val : Int) ≥ DEFAULT_COUNTER := by
      unfold DEFAULT_COUNTER
      exact hreach
    by_cases hf : st.first_counter > 0
    · refine ⟨{ st with
          third_counter := st.third_counter + down_val
          first_counter := to_short (st.first_counter - down_val) }, ?_, rfl, rfl, rfl, rfl,
          rfl, hge⟩
      simp only [hotplug_down, hlt, if_true, hwrap, hf]
      rw [if_pos hge]
    · refine ⟨{ st with third_counter := st.third_counter + down_val }, ?_, rfl, rfl, rfl,
          rfl, rfl, hge⟩
      simp only [hotplug_down, hlt, if_true, hwrap, hf, if_false]
      rw [if_pos hge]
  · have hge : st.third_counter ≥ DEFAULT_COUNTER := by omega
    by_cases hf : st.first_counter > 0
    · refine ⟨{ st with first_counter := to_short (st.first_counter - down_val) }, ?_, rfl,
          rfl, rfl, rfl, rfl, hge⟩
      simp only [hotplug_down, hlt, if_false, hf, if_true]
      rw [if_pos hge]
    · refine ⟨st, ?_, rfl, rfl, rfl, rfl, rfl, hge⟩
      simp only [hotplug_down, hlt, if_false, hf]
      rw [if_pos hge]

/-- A tick whose three-way test selects the down branch runs `hotplug_down`. -/
theorem decide_hotplug_down (inp : hotplug_input) (st : hotplug_state) (av_load : Nat)
    (cpuload : Nat → cpu_load_data)
    (hav : hotplug_av_load inp { st with now := inp.ktime_ms } = some (av_load, cpuload))
    (hsel : hotplug_select inp.gpu_idle (possible_cpus.filter st.cpu_online).length av_load
      = some .down) :
    decide_hotplug_func inp st =
      some (hotplug_down inp { st with now := inp.ktime_ms, cpuload := cpuload }
        (possible_cpus.filter st.cpu_online).length
        (hotplug_vals inp { st with now := inp.ktime_ms }
          (possible_cpus.filter st.cpu_online).length).2) := by
  simp only [decide_hotplug_func, hav, hotplug_decide, hsel]
  rfl

/-- Claim C11: for every decider tick that takes the down branch with
`third_counter` reaching `DEFAULT_COUNTER` (it is at or above it once
`down_val` is added) while the online count `n` equals `cores_on_touch` and
`coreboost_endtime > now`, the offline is deferred: the tick requests no
`cpu_down` and no `cpu_up`, leaves the set of online CPUs and
`coreboost_endtime` as they were, and leaves `third_counter` at or above
`DEFAULT_COUNTER`. -/
theorem offline_deferred (inp : hotplug_input) (st : hotplug_state) (av_load : Nat)
    (cpuload : Nat → cpu_load_data)
    (hav : hotplug_av_load inp { st with now := inp.ktime_ms } = some (av_load, cpuload))
    (hsel : hotplug_select inp.gpu_idle (possible_cpus.filter st.cpu_online).length av_load
      = some .down)
    (hreach : st.third_counter +
      ((hotplug_vals inp { st with now := inp.ktime_ms }
        (possible_cpus.filter st.cpu_online).length).2 : Int) ≥ DEFAULT_COUNTER)
    (hn : (possible_cpus.filter st.cpu_online).length = st.cores_on_touch)
    (hboost : st.coreboost_endtime > inp.ktime_ms) :
    ∃ st2, decide_hotplug_func inp st = some st2 ∧ st2.requests = st.requests ∧
      st2.cpu_online = st.cpu_online ∧ st2.coreboost_endtime = st.coreboost_endtime ∧
      st2.third_counter ≥ DEFAULT_COUNTER := by
  have hres := decide_hotplug_down inp st av_load cpuload hav hsel
  have hv : (hotplug_vals inp { st with now := inp.ktime_ms }
      (possible_cpus.filter st.cpu_online).length).2 ≤ 7 := by
    rcases hotplug_vals_down inp { st with now := inp.ktime_ms }
      (possible_cpus.filter st.cpu_online).length with h | h | h <;> omega
  obtain ⟨st3, h3, ho, hr, hnow, hcb, hct, hth⟩ := hotplug_down_reaches inp
    { st with now := inp.ktime_ms, cpuload := cpuload }
    (possible_cpus.filter st.cpu_online).length _ hv hreach
  have hdefer : offline_core inp st3 (possible_cpus.filter st.cpu_online).length = st3 := by
    unfold offline_core
    have hcond : (possible_cpus.filter st.cpu_online).length = st3.cores_on_touch ∧
        st3.coreboost_endtime > st3.now := by
      rw [hct, hcb, hnow]
      exact ⟨hn, hboost⟩
    rw [if_pos (Or.inr hcond)]
  rw [h3, hdefer] at hres
  exact ⟨st3, hres, hr, ho, hcb, hth⟩

/-- Claim C11 at a concrete input (scenario F): GPU busy, two CPUs online with
`cores_on_touch = 2`, the core boost active, average load 25 against a third
level of 30 and `third_counter = 45` with `down_val = 5`. -/
theorem offline_deferred_witness :
    hotplug_summary (decide_hotplug_func scenario_F_input scenario_F_state) =
      some (0, 50, 6000, [], [0, 1]) ∧
    ∃ st2, decide_hotplug_func scenario_F_input scenario_F_state = some st2 ∧
      st2.requests = scenario_F_state.requests ∧
      st2.cpu_online = scenario_F_state.cpu_online ∧
      st2.coreboost_endtime = scenario_F_state.coreboost_endtime ∧
      st2.third_counter ≥ DEFAULT_COUNTER :=
  ⟨by decide,
    offline_deferred scenario_F_input scenario_F_state 25
      (hotplug_cpuload_of (hotplug_av_load scenario_F_input
        { scenario_F_state with now := scenario_F_input.ktime_ms }))
      rfl (by decide) (by decide) (by decide) (by decide)⟩

/-- With more than one of the four possible CPUs online, the scan of
`offline_core` from CPU 3 down to CPU 1 finds the highest-numbered online
CPU. -/
theorem highest_online_cpu (online : Nat → Bool)
    (hn : (possible_cpus.filter online).length > 1) :
    ∃ c, [3, 2, 1].find? (fun cpu => online cpu) = some c ∧ c ∈ possible_cpus ∧ c ≠ 0 ∧
      online c = true ∧ ∀ c2, c2 ∈ possible_cpus → c < c2 → online c2 = false := by
  rw [possible_cpus_eq] at hn ⊢
  cases h3 : online 3
  swap
  · refine ⟨3, by simp [List.find?, h3], by simp, by omega, h3, ?_⟩
    intro c2 hc2 hlt
    simp at hc2
    omega
  cases h2 : online 2
  swap
  · refine ⟨2, by simp [List.find?, h3, h2], by simp, by omega, h2, ?_⟩
    intro c2 hc2 hlt
    simp at hc2
    rcases hc2 with rfl | rfl | rfl | rfl
    · omega
    · omega
    · omega
    · exact h3
  cases h1 : online 1
  swap
  · refine ⟨1, by simp [List.find?, h3, h2, h1], by simp, by omega, h1, ?_⟩
    intro c2 hc2 hlt
    simp at hc2
    rcases hc2 with rfl | rfl | rfl | rfl
    · omega
    · omega
    · exact h2
    · exact h3
  · cases h0 : online 0 <;> simp [List.filter, h0, h1, h2, h3] at hn

/-- The function `offline_core` when its early return is not taken and the
scan finds the online CPU `c`: it requests `cpu_down(c)` and resets both
counters and the boost deadline. -/
theorem offline_core_spec (inp : hotplug_input) (st : hotplug_state) (n c : Nat)
    (hgo : ¬ (n = 1 ∨ (n = st.cores_on_touch ∧ st.coreboost_endtime > st.now)))
    (hfind : [3, 2, 1].find? (fun cpu => st.cpu_online cpu) = some c) :
    (offline_core inp st n).requests = st.requests ++ [.cpu_down c] ∧
    (offline_core inp st n).first_counter = 0 ∧
    (offline_core inp st n).third_counter = 0 ∧
    (offline_core inp st n).coreboost_endtime = u64 (st.now + BOOST_TIME) := by
  unfold offline_core
  by_cases hok : inp.plug_ok (.cpu_down c) = true
  · simp [hgo, hfind, hotplug_call, hok]
  · simp [hgo, hfind, hotplug_call, hok]

/-- Claim C12: for every decider tick that takes the down branch with
`third_counter` reaching `DEFAULT_COUNTER`, `n > 1` online CPUs and not
(`n == cores_on_touch` and `coreboost_endtime > now`): `cpu_down` is requested
for the highest-numbered online CPU and nothing else is requested, and the
tick ends with `first_counter = 0` and `third_counter = 0` (and
`coreboost_endtime = now + BOOST_TIME`), whether or not `cpu_down`
succeeds. -/
theorem offline_core_on_down (inp : hotplug_input) (st : hotplug_state) (av_load : Nat)
    (cpuload : Nat → cpu_load_data)
    (hav : hotplug_av_load inp { st with now := inp.ktime_ms } = some (av_load, cpuload))
    (hsel : hotplug_select inp.gpu_idle (possible_cpus.filter st.cpu_online).length av_load
      = some .down)
    (hreach : st.third_counter +
      ((hotplug_vals inp { st with now := inp.ktime_ms }
        (possible_cpus.filter st.cpu_online).length).2 : Int) ≥ DEFAULT_COUNTER)
    (hn : (possible_cpus.filter st.cpu_online).length > 1)
    (hgo : ¬ ((possible_cpus.filter st.cpu_online).length = st.cores_on_touch ∧
      st.coreboost_endtime > inp.ktime_ms)) :
    ∃ st2 c, decide_hotplug_func inp st = some st2 ∧
      c ∈ possible_cpus ∧ st.cpu_online c = true ∧
      (∀ c2, c2 ∈ possible_cpus → c < c2 → st.cpu_online c2 = false) ∧
      st2.requests = st.requests ++ [.cpu_down c] ∧
      st2.first_counter = 0 ∧ st2.third_counter = 0 ∧
      st2.coreboost_endtime = u64 (inp.ktime_ms + BOOST_TIME) := by
  obtain ⟨c, hfind, hc1, _, hc2, hc3⟩ := highest_online_cpu st.cpu_online hn
  have hres := decide_hotplug_down inp st av_load cpuload hav hsel
  have hv : (hotplug_vals inp { st with now := inp.ktime_ms }
      (possible_cpus.filter st.cpu_online).length).2 ≤ 7 := by
    rcases hotplug_vals_down inp { st with now := inp.ktime_ms }
      (possible_cpus.filter st.cpu_online).length with h | h | h <;> omega
  obtain ⟨st3, h3, ho, hr, hnow, hcb, hct, _⟩ := hotplug_down_reaches inp
    { st with now := inp.ktime_ms, cpuload := cpuload }
    (possible_cpus.filter st.cpu_online).length _ hv hreach
  have hfind3 : [3, 2, 1].find? (fun cpu => st3.cpu_online cpu) = some c := by
    rw [ho]
    exact hfind
  have hgo3 : ¬ ((possible_cpus.filter st.cpu_online).length = 1 ∨
      ((possible_cpus.filter st.cpu_online).length = st3.cores_on_touch ∧
        st3.coreboost_endtime > st3.now)) := by
    rw [hct, hcb, hnow]
    rintro (h | h)
    · omega
    · exact hgo h
  obtain ⟨o1, o2, o3, o4⟩ := offline_core_spec inp st3
    (possible_cpus.filter st.cpu_online).length c hgo3 hfind3
  rw [h3] at hres
  refine ⟨_, c, hres, hc1, hc2, hc3, ?_, o2, o3, ?_⟩
  · rw [o1, hr]
  · rw [o4, hnow]

/-- Claim C12 at a concrete input: scenario F with the core boost expired;
CPU 1, the highest online CPU, is taken offline. -/
theorem offline_core_on_down_witness :
    hotplug_summary
      (decide_hotplug_func scenario_F_input { scenario_F_state with coreboost_endtime := 0 })
      = some (0, 0, 5000 + 3000, [.cpu_down 1], [0]) ∧
    ∃ st2 c,
      decide_hotplug_func scenario_F_input { scenario_F_state with coreboost_endtime := 0 }
        = some st2 ∧
      c ∈ possible_cpus ∧ scenario_F_state.cpu_online c = true ∧
      (∀ c2, c2 ∈ possible_cpus → c < c2 → scenario_F_state.cpu_online c2 = false) ∧
      st2.requests = scenario_F_state.requests ++ [.cpu_down c] ∧
      st2.first_counter = 0 ∧ st2.third_counter = 0 ∧
      st2.coreboost_endtime = u64 (scenario_F_input.ktime_ms + BOOST_TIME) :=
  ⟨by decide,
    offline_core_on_down scenario_F_input { scenario_F_state with coreboost_endtime := 0 } 25
      (hotplug_cpuload_of (hotplug_av_load scenario_F_input
        { scenario_F_state with now := scenario_F_input.ktime_ms, coreboost_endtime := 0 }))
      rfl (by decide) (by decide) (by decide) (by decide)⟩

/-! ## Claim C13: CPU 0 stays online -/

/-- What `online_core` requests: nothing, or `cpu_up` for one CPU; it takes no
CPU offline. -/
theorem online_core_requests (inp : hotplug_input) (st : hotplug_state) (n : Nat) :
    (∃ new, (online_core inp st n).requests = st.requests ++ new ∧
      (new = [] ∨ ∃ c, new = [.cpu_up c])) ∧
    (∀ c, st.cpu_online c = true → (online_core inp st n).cpu_online c = true) := by
  unfold online_core
  by_cases hn : n > 3
  · simp only [hn, if_true]
    exact ⟨⟨[], by simp, Or.inl rfl⟩, fun c h => h⟩
  · simp only [hn, if_false]
    cases hf : possible_cpus.find? (fun cpu => !st.cpu_online cpu) with
    | none => exact ⟨⟨[], by simp, Or.inl rfl⟩, fun c h => h⟩
    | some c =>
      by_cases hok : inp.plug_ok (.cpu_up c) = true
      · refine ⟨⟨[.cpu_up c], by simp [hotplug_call, hok], Or.inr ⟨c, rfl⟩⟩, ?_⟩
        intro c2 h2
        simp only [hotplug_call, hok, if_true]
        split_ifs <;> simp [h2]
      · refine ⟨⟨[.cpu_up c], by simp [hotplug_call, hok], Or.inr ⟨c, rfl⟩⟩, ?_⟩
        intro c2 h2
        simp only [hotplug_call, hok]
        exact h2

/-- What `offline_core` requests: nothing, or `cpu_down` for one online CPU
among CPUs 3, 2, 1, and that only when more than one CPU is counted; it leaves
CPU 0 as it is. -/
theorem offline_core_requests (inp : hotplug_input) (st : hotplug_state) (n : Nat) :
    (∃ new, (offline_core inp st n).requests = st.requests ++ new ∧
      (new = [] ∨ ∃ c, c ∈ [3, 2, 1] ∧ st.cpu_online c = true ∧ n ≠ 1 ∧
        new = [.cpu_down c])) ∧
    (offline_core inp st n).cpu_online 0 = st.cpu_online 0 := by
  unfold offline_core
  by_cases hret : n = 1 ∨ (n = st.cores_on_touch ∧ st.coreboost_endtime > st.now)
  · rw [if_pos hret]
    exact ⟨⟨[], by simp, Or.inl rfl⟩, rfl⟩
  · rw [if_neg hret]
    have hn1 : n ≠ 1 := fun h => hret (Or.inl h)
    cases hf : [3, 2, 1].find? (fun cpu => st.cpu_online cpu) with
    | none => exact ⟨⟨[], by simp, Or.inl rfl⟩, rfl⟩
    | some c =>
      have hmem : c ∈ [3, 2, 1] := List.mem_of_find?_eq_some hf
      have hon : st.cpu_online c = true := List.find?_some hf
      have hc0 : ¬ (0 = c) := by
        intro h
        subst h
        simp at hmem
      by_cases hok : inp.plug_ok (.cpu_down c) = true
      · refine ⟨⟨[.cpu_down c], by simp [hotplug_call, hok],
          Or.inr ⟨c, hmem, hon, hn1, rfl⟩⟩, ?_⟩
        simp [hotplug_call, hok, hc0]
      · refine ⟨⟨[.cpu_down c], by simp [hotplug_call, hok],
          Or.inr ⟨c, hmem, hon, hn1, rfl⟩⟩, ?_⟩
        simp [hotplug_call, hok]

/-- A conditional call of a function on a state ends in that state or in the
function applied to it. -/
theorem call_or_skip (f : hotplug_state → hotplug_state) (st st3 : hotplug_state)
    (h1 : st3.requests = st.requests) (h2 : st3.cpu_online = st.cpu_online)
    (c : Prop) [Decidable c] :
    ∃ st4, st4.requests = st.requests ∧ st4.cpu_online = st.cpu_online ∧
      ((if c then f st3 else st3) = st4 ∨ (if c then f st3 else st3) = f st4) := by
  by_cases hc : c
  · exact ⟨st3, h1, h2, Or.inr (by simp [hc])⟩
  · exact ⟨st3, h1, h2, Or.inl (by simp [hc])⟩

/-- The up branch ends in the state it built or in `online_core` entered with
it; that state has the request log and the online mask of the start. -/
theorem hotplug_up_cases (inp : hotplug_input) (st : hotplug_state) (n up_val : Nat) :
    ∃ st4, st4.requests = st.requests ∧ st4.cpu_online = st.cpu_online ∧
      (hotplug_up inp st n up_val = st4 ∨ hotplug_up inp st n up_val = online_core inp st4 n) := by
  unfold hotplug_up
  dsimp only
  refine call_or_skip (fun s => online_core inp s n) st _ ?_ ?_ _
  · split_ifs <;> rfl
  · split_ifs <;> rfl

/-- The down branch ends in the state it built or in `offline_core` entered
with it; that state has the request log and the online mask of the start. -/
theorem hotplug_down_cases (inp : hotplug_input) (st : hotplug_state) (n down_val : Nat) :
    ∃ st4, st4.requests = st.requests ∧ st4.cpu_online = st.cpu_online ∧
      (hotplug_down inp st n down_val = st4 ∨
        hotplug_down inp st n down_val = offline_core inp st4 n) := by
  unfold hotplug_down
  dsimp only
  refine call_or_skip (fun s => offline_core inp s n) st _ ?_ ?_ _
  · split_ifs <;> rfl
  · split_ifs <;> rfl

theorem hotplug_hold_frame (st : hotplug_state) (down_val : Nat) :
    (hotplug_hold st down_val).requests = st.requests ∧
    (hotplug_hold st down_val).cpu_online = st.cpu_online := by
  simp only [hotplug_hold]
  split_ifs <;> exact ⟨rfl, rfl⟩

/-- A decider tick that returns ran one of the three branches on the state
with the clock and the load records updated. -/
theorem decide_hotplug_cases {inp : hotplug_input} {st st2 : hotplug_state}
    (h : decide_hotplug_func inp st = some st2) :
    ∃ (cpuload : Nat → cpu_load_data) (val : Nat), 3 ≤ val ∧ val ≤ 15 ∧
      (st2 = hotplug_up inp { st with now := inp.ktime_ms, cpuload := cpuload }
        (possible_cpus.filter st.cpu_online).length val ∨
      st2 = hotplug_down inp { st with now := inp.ktime_ms, cpuload := cpuload }
        (possible_cpus.filter st.cpu_online).length val ∨
      st2 = hotplug_hold { st with now := inp.ktime_ms, cpuload := cpuload } val) := by
  have hv : ∀ (s : hotplug_state) (n : Nat),
      (3 ≤ (hotplug_vals inp s n).1 ∧ (hotplug_vals inp s n).1 ≤ 15) ∧
      (3 ≤ (hotplug_vals inp s n).2 ∧ (hotplug_vals inp s n).2 ≤ 15) := by
    intro s n
    unfold hotplug_vals
    split_ifs <;> simp
  unfold decide_hotplug_func at h
  cases hav : hotplug_av_load inp { st with now := inp.ktime_ms } with
  | none => simp [hav] at h
  | some r =>
    obtain ⟨av, cpuload⟩ := r
    simp only [hav, hotplug_decide] at h
    cases hsel : hotplug_select inp.gpu_idle (possible_cpus.filter st.cpu_online).length av with
    | none => simp [hsel] at h
    | some b =>
      cases b with
      | up =>
        simp only [hsel, Option.some.injEq] at h
        exact ⟨cpuload, _, (hv _ _).1.1, (hv _ _).1.2, Or.inl h.symm⟩
      | down =>
        simp only [hsel, Option.some.injEq] at h
        exact ⟨cpuload, _, (hv _ _).2.1, (hv _ _).2.2, Or.inr (Or.inl h.symm)⟩
      | hold =>
        simp only [hsel, Option.some.injEq] at h
        exact ⟨cpuload, _, (hv _ _).2.1, (hv _ _).2.2, Or.inr (Or.inr h.symm)⟩

/-- The requests of a decider tick: none, one `cpu_up`, or one `cpu_down` for
an online CPU among CPUs 3, 2, 1 when more than one CPU is online; and CPU 0,
when online, stays online. -/
theorem decide_hotplug_requests {inp : hotplug_input} {st st2 : hotplug_state}
    (h : decide_hotplug_func inp st = some st2) :
    (∃ new, st2.requests = st.requests ++ new ∧
      (new = [] ∨ (∃ c, new = [.cpu_up c]) ∨
        ∃ c, c ∈ [3, 2, 1] ∧ st.cpu_online c = true ∧
          (possible_cpus.filter st.cpu_online).length ≠ 1 ∧ new = [.cpu_down c])) ∧
    (st.cpu_online 0 = true → st2.cpu_online 0 = true) := by
  obtain ⟨cpuload, val, _, _, hcase | hcase | hcase⟩ := decide_hotplug_cases h
  · obtain ⟨st4, h1, h2, h3 | h3⟩ := hotplug_up_cases inp
      { st with now := inp.ktime_ms, cpuload := cpuload }
      (possible_cpus.filter st.cpu_online).length val
    · rw [hcase, h3]
      exact ⟨⟨[], by rw [h1]; simp, Or.inl rfl⟩, fun h0 => by rw [h2]; exact h0⟩
    · obtain ⟨⟨new, hn1, hn2⟩, hon⟩ := online_core_requests inp st4
        (possible_cpus.filter st.cpu_online).length
      rw [hcase, h3]
      refine ⟨⟨new, by rw [hn1, h1], ?_⟩, fun h0 => hon 0 (by rw [h2]; exact h0)⟩
      rcases hn2 with hn2 | hn2
      · exact Or.inl hn2
      · exact Or.inr (Or.inl hn2)
  · obtain ⟨st4, h1, h2, h3 | h3⟩ := hotplug_down_cases inp
      { st with now := inp.ktime_ms, cpuload := cpuload }
      (possible_cpus.filter st.cpu_online).length val
    · rw [hcase, h3]
      exact ⟨⟨[], by rw [h1]; simp, Or.inl rfl⟩, fun h0 => by rw [h2]; exact h0⟩
    · obtain ⟨⟨new, hn1, hn2⟩, hon⟩ := offline_core_requests inp st4
        (possible_cpus.filter st.cpu_online).length
      rw [hcase, h3]
      refine ⟨⟨new, by rw [hn1, h1], ?_⟩, fun h0 => by rw [hon, h2]; exact h0⟩
      rcases hn2 with hn2 | ⟨c, hc1, hc2, hc3, hc4⟩
      · exact Or.inl hn2
      · refine Or.inr (Or.inr ⟨c, hc1, ?_, hc3, hc4⟩)
        rw [h2] at hc2
        exact hc2
  · obtain ⟨h1, h2⟩ := hotplug_hold_frame
      { st with now := inp.ktime_ms, cpuload := cpuload } val
    rw [hcase]
    exact ⟨⟨[], by rw [h1]; simp, Or.inl rfl⟩, fun h0 => by rw [h2]; exact h0⟩

/-- What `suspend_func` does: it requests `cpu_down` for CPUs 1, 2 and 3 in
that order, sets both counters to 0 and leaves CPU 0 as it is. -/
theorem suspend_func_spec (inp : hotplug_input) (st : hotplug_state) :
    (suspend_func inp st).requests =
      st.requests ++ [.cpu_down 1, .cpu_down 2, .cpu_down 3] ∧
    (suspend_func inp st).first_counter = 0 ∧ (suspend_func inp st).third_counter = 0 ∧
    (suspend_func inp st).cpu_online 0 = st.cpu_online 0 := by
  unfold suspend_func
  rw [possible_cpus_eq]
  by_cases h1 : inp.plug_ok (.cpu_down 1) = true <;>
    by_cases h2 : inp.plug_ok (.cpu_down 2) = true <;>
    by_cases h3 : inp.plug_ok (.cpu_down 3) = true <;>
    simp [suspend_cpus, hotplug_call, h1, h2, h3]

/-- Claim C13: no decider tick requests `cpu_down(0)`, a decider tick with
exactly one CPU online requests no `cpu_down` at all, and CPU 0, when online,
is still online after the tick; `suspend_func` requests `cpu_down` for exactly
the CPUs with index above 0 (1, 2 and 3), leaves CPU 0 as it is and leaves
both hysteresis counters at 0. -/
theorem cpu0_never_offlined (inp : hotplug_input) (st st2 : hotplug_state)
    (h : decide_hotplug_func inp st = some st2) :
    (∃ new, st2.requests = st.requests ++ new ∧ hotplug_request.cpu_down 0 ∉ new ∧
      ((possible_cpus.filter st.cpu_online).length = 1 →
        ∀ c, hotplug_request.cpu_down c ∉ new)) ∧
    (st.cpu_online 0 = true → st2.cpu_online 0 = true) ∧
    (∀ (inp2 : hotplug_input) (st3 : hotplug_state),
      (suspend_func inp2 st3).requests =
        st3.requests ++ [.cpu_down 1, .cpu_down 2, .cpu_down 3] ∧
      hotplug_request.cpu_down 0 ∉ [hotplug_request.cpu_down 1, .cpu_down 2, .cpu_down 3] ∧
      (suspend_func inp2 st3).first_counter = 0 ∧ (suspend_func inp2 st3).third_counter = 0 ∧
      (suspend_func inp2 st3).cpu_online 0 = st3.cpu_online 0) := by
  obtain ⟨⟨new, hreq, hnew⟩, h0⟩ := decide_hotplug_requests h
  refine ⟨⟨new, hreq, ?_, ?_⟩, h0, ?_⟩
  · rcases hnew with rfl | ⟨c, rfl⟩ | ⟨c, hc, _, _, rfl⟩
    · simp
    · simp
    · intro hmem
      simp only [List.mem_singleton, hotplug_request.cpu_down.injEq] at hmem
      subst hmem
      simp at hc
  · intro hone c
    rcases hnew with rfl | ⟨c2, rfl⟩ | ⟨c2, _, _, hne, rfl⟩
    · simp
    · simp
    · exact absurd hone hne
  · intro inp2 st3
    obtain ⟨s1, s2, s3, s4⟩ := suspend_func_spec inp2 st3
    exact ⟨s1, by decide, s2, s3, s4⟩

/-- Claim C13 at a concrete input: the tick of scenario F with the core boost
expired, which takes CPU 1 offline and leaves CPU 0 online. -/
theorem cpu0_never_offlined_witness :
    hotplug_summary
      (decide_hotplug_func scenario_F_input { scenario_F_state with coreboost_endtime := 0 })
      = some (0, 0, 8000, [.cpu_down 1], [0]) ∧
    hotplug_summary (some (suspend_func scenario_D_input scenario_D_state)) =
      some (0, 0, 0, [.cpu_down 1, .cpu_down 2, .cpu_down 3], [0]) ∧
    ((hotplug_result_of scenario_F_input
        { scenario_F_state with coreboost_endtime := 0 }).cpu_online 0 = true) :=
  ⟨by decide, by decide,
    (cpu0_never_offlined scenario_F_input { scenario_F_state with coreboost_endtime := 0 }
      (hotplug_result_of scenario_F_input { scenario_F_state with coreboost_endtime := 0 })
      rfl).2.1 rfl⟩

/-! ## Claim C14: the range of the hysteresis counters -/

/-- The function `online_core` either returns at once or leaves the counters
at 0 and -50. -/
theorem online_core_counters (inp : hotplug_input) (st : hotplug_state) (n : Nat) :
    online_core inp st n = st ∨
    ((online_core inp st n).first_counter = 0 ∧ (online_core inp st n).third_counter = -50) := by
  unfold online_core
  split_ifs
  · exact Or.inl rfl
  · exact Or.inr ⟨rfl, by simp [to_short, DEFAULT_COUNTER]⟩

/-- The function `offline_core` either returns at once or leaves both counters
at 0. -/
theorem offline_core_counters (inp : hotplug_input) (st : hotplug_state) (n : Nat) :
    offline_core inp st n = st ∨
    ((offline_core inp st n).first_counter = 0 ∧ (offline_core inp st n).third_counter = 0) := by
  unfold offline_core
  split_ifs
  · exact Or.inl rfl
  · exact Or.inr ⟨rfl, rfl⟩

/-- A conditional call of a function that returns at once or resets the
counters keeps the counters in range. -/
theorem counters_call_or_skip (f : hotplug_state → hotplug_state) (a b : Int)
    (hf : ∀ s, f s = s ∨ ((f s).first_counter = a ∧ (f s).third_counter = b))
    (ha : -6 ≤ a ∧ a ≤ 64) (hb : -50 ≤ b ∧ b ≤ 56)
    (st : hotplug_state) (h : hotplug_counters_ok st) (c : Prop) [Decidable c] :
    hotplug_counters_ok (if c then f st else st) := by
  split_ifs
  · rcases hf st with hs | ⟨h1, h2⟩
    · rw [hs]; exact h
    · unfold hotplug_counters_ok
      rw [h1, h2]
      exact ⟨ha.1, ha.2, hb.1, hb.2⟩
  · exact h

theorem hotplug_up_counters (inp : hotplug_input) (st : hotplug_state) (n up_val : Nat)
    (h : hotplug_counters_ok st) (hv : up_val ≤ 15) :
    hotplug_counters_ok (hotplug_up inp st n up_val) := by
  unfold hotplug_up
  dsimp only
  refine counters_call_or_skip (fun s => online_core inp s n) 0 (-50)
    (fun s => online_core_counters inp s n) (by omega) (by omega) _ ?_ _
  unfold hotplug_counters_ok at h ⊢
  unfold DEFAULT_COUNTER to_short
  split_ifs <;> (try simp only at *) <;> omega

theorem hotplug_down_counters (inp : hotplug_input) (st : hotplug_state) (n down_val : Nat)
    (h : hotplug_counters_ok st) (hv : down_val ≤ 7) :
    hotplug_counters_ok (hotplug_down inp st n down_val) := by
  unfold hotplug_down
  dsimp only
  refine counters_call_or_skip (fun s => offline_core inp s n) 0 0
    (fun s => offline_core_counters inp s n) (by omega) (by omega) _ ?_ _
  unfold hotplug_counters_ok at h ⊢
  unfold DEFAULT_COUNTER to_short
  split_ifs <;> (try simp only at *) <;> omega

theorem hotplug_hold_counters (st : hotplug_state) (down_val : Nat)
    (h : hotplug_counters_ok st) (hv : down_val ≤ 7) :
    hotplug_counters_ok (hotplug_hold st down_val) := by
  unfold hotplug_hold
  dsimp only
  unfold hotplug_counters_ok at h ⊢
  unfold to_short
  split_ifs <;> (try simp only at *) <;> omega

/-- A hot-plug request does not touch the counters. -/
theorem hotplug_call_counters (inp : hotplug_input) (st : hotplug_state)
    (req : hotplug_request) :
    (hotplug_call inp st req).first_counter = st.first_counter ∧
    (hotplug_call inp st req).third_counter = st.third_counter := by
  unfold hotplug_call
  dsimp only
  split_ifs
  · cases req <;> exact ⟨rfl, rfl⟩
  · exact ⟨rfl, rfl⟩

/-- The loop of `resume_func` does not touch the counters. -/
theorem resume_cpus_counters (inp : hotplug_input) (cpus : List Nat) :
    ∀ (onlined : Nat) (st : hotplug_state),
      (resume_cpus inp cpus onlined st).first_counter = st.first_counter ∧
      (resume_cpus inp cpus onlined st).third_counter = st.third_counter := by
  induction cpus with
  | nil => intro onlined st; exact ⟨rfl, rfl⟩
  | cons cpu rest ih =>
    intro onlined st
    unfold resume_cpus
    dsimp only
    split_ifs
    · exact hotplug_call_counters inp st _
    · obtain ⟨h1, h2⟩ := ih (onlined + 1) (hotplug_call inp st (.cpu_up cpu))
      obtain ⟨h3, h4⟩ := hotplug_call_counters inp st (.cpu_up cpu)
      exact ⟨h1.trans h3, h2.trans h4⟩
    · exact ih onlined st

/-- The function `resume_func` does not touch the counters. -/
theorem resume_func_counters (inp : hotplug_input) (d : Nat) (st : hotplug_state) :
    (resume_func inp d st).st.first_counter = st.first_counter ∧
    (resume_func inp d st).st.third_counter = st.third_counter := by
  unfold resume_func
  exact resume_cpus_counters inp possible_cpus 0 _

/-- A decider tick keeps the counters in range. -/
theorem decide_hotplug_counters {inp : hotplug_input} {st st2 : hotplug_state}
    (h : decide_hotplug_func inp st = some st2) (hst : hotplug_counters_ok st) :
    hotplug_counters_ok st2 := by
  have hst1 : ∀ cpuload : Nat → cpu_load_data,
      hotplug_counters_ok { st with now := inp.ktime_ms, cpuload := cpuload } := fun _ => hst
  have hv : ∀ (s : hotplug_state) (n : Nat),
      (hotplug_vals inp s n).1 ≤ 15 ∧ (hotplug_vals inp s n).2 ≤ 7 := by
    intro s n
    unfold hotplug_vals
    split_ifs <;> simp
  unfold decide_hotplug_func at h
  cases hav : hotplug_av_load inp { st with now := inp.ktime_ms } with
  | none => simp [hav] at h
  | some r =>
    obtain ⟨av, cpuload⟩ := r
    simp only [hav, hotplug_decide] at h
    cases hsel : hotplug_select inp.gpu_idle (possible_cpus.filter st.cpu_online).length av with
    | none => simp [hsel] at h
    | some b =>
      cases b with
      | up =>
        simp only [hsel, Option.some.injEq] at h
        rw [← h]
        exact hotplug_up_counters inp _ _ _ (hst1 cpuload) (hv _ _).1
      | down =>
        simp only [hsel, Option.some.injEq] at h
        rw [← h]
        exact hotplug_down_counters inp _ _ _ (hst1 cpuload) (hv _ _).2
      | hold =>
        simp only [hsel, Option.some.injEq] at h
        rw [← h]
        exact hotplug_hold_counters _ _ (hst1 cpuload) (hv _ _).2

/-- In every reachable state of the hot-plug driver the counters are in the
range the code keeps. -/
theorem hotplug_reachable_counters {st : hotplug_state} (h : hotplug_reachable st) :
    hotplug_counters_ok st := by
  induction h with
  | init st h1 h2 =>
    unfold hotplug_counters_ok
    rw [h1, h2]
    omega
  | tick inp st st2 _ htick ih => exact decide_hotplug_counters htick ih
  | suspend inp st _ _ =>
    obtain ⟨_, h1, h2, _⟩ := suspend_func_spec inp st
    unfold hotplug_counters_ok
    rw [h1, h2]
    omega
  | resume inp d st _ ih =>
    obtain ⟨h1, h2⟩ := resume_func_counters inp d st
    unfold hotplug_counters_ok at ih ⊢
    rw [h1, h2]
    exact ih

/-- The state a decider tick leaves is reachable when the state it starts from
is. -/
theorem hotplug_result_of_reachable (inp : hotplug_input) {st : hotplug_state}
    (h : hotplug_reachable st) : hotplug_reachable (hotplug_result_of inp st) := by
  unfold hotplug_result_of
  cases hr : decide_hotplug_func inp st with
  | none => exact h
  | some st2 => exact hotplug_reachable.tick inp st st2 h hr

/-- The state after `k` decider ticks is reachable when the first state is. -/
theorem hotplug_run_reachable (inp : hotplug_input) {st : hotplug_state}
    (h : hotplug_reachable st) (k : Nat) : hotplug_reachable (hotplug_run inp st k) := by
  induction k with
  | zero => exact h
  | succ k ih => exact hotplug_result_of_reachable inp ih

/-- Claim C14, counterexample: nine decider ticks from the initial state, with
the GPU idle, one CPU online and no load, each add 6 to `third_counter`; the
ninth tick starts from 48, below `DEFAULT_COUNTER`, and leaves 54, above it. -/
theorem hotplug_counter_above_default_counterexample :
    hotplug_reachable (hotplug_run idle_load_input hotplug_initial 9) ∧
    (hotplug_run idle_load_input hotplug_initial 8).third_counter = 48 ∧
    hotplug_summary
      (decide_hotplug_func idle_load_input (hotplug_run idle_load_input hotplug_initial 8))
      = some (0, 54, 0, [], [0]) ∧
    (hotplug_run idle_load_input hotplug_initial 9).third_counter = 54 ∧
    ¬ ((hotplug_run idle_load_input hotplug_initial 9).third_counter ≤ DEFAULT_COUNTER) :=
  ⟨hotplug_run_reachable idle_load_input
      (hotplug_reachable.init hotplug_initial rfl rfl) 9,
    by decide, by decide, by decide, by decide⟩

/-- Claim C14, amended: in every state reachable from an initial state, in which
both counters are 0, by decider ticks, suspends and resumes with arbitrary
inputs, `first_counter` lies in [-6, 64] and `third_counter` in [-50, 56].  An
addition is made whenever the counter is below `DEFAULT_COUNTER` and is not
capped; a subtraction is made whenever the counter is positive and is not
stopped at zero. -/
theorem hotplug_counters_range (st : hotplug_state) (h : hotplug_reachable st) :
    (-6 ≤ st.first_counter ∧ st.first_counter ≤ DEFAULT_COUNTER + 14) ∧
    (-DEFAULT_COUNTER ≤ st.third_counter ∧ st.third_counter ≤ DEFAULT_COUNTER + 6) := by
  obtain ⟨h1, h2, h3, h4⟩ := hotplug_reachable_counters h
  unfold DEFAULT_COUNTER
  omega

/-- Claim C14 at a concrete state: the state after nine idle ticks. -/
theorem hotplug_counters_range_witness :
    hotplug_reachable (hotplug_run idle_load_input hotplug_initial 9) ∧
    ((-6 ≤ (hotplug_run idle_load_input hotplug_initial 9).first_counter ∧
      (hotplug_run idle_load_input hotplug_initial 9).first_counter ≤ DEFAULT_COUNTER + 14) ∧
     (-DEFAULT_COUNTER ≤ (hotplug_run idle_load_input hotplug_initial 9).third_counter ∧
      (hotplug_run idle_load_input hotplug_initial 9).third_counter ≤ DEFAULT_COUNTER + 6)) :=
  ⟨hotplug_run_reachable idle_load_input (hotplug_reachable.init hotplug_initial rfl rfl) 9,
    hotplug_counters_range _
      (hotplug_run_reachable idle_load_input (hotplug_reachable.init hotplug_initial rfl rfl) 9)⟩

/-! ## Claim C15: a sample with more idle time than wall time -/

/-- Claim C15: `update_load` has no guard for a wall-time delta below the
idle-time delta.  The `unsigned int` difference wraps: the active time is
`2^32 - (delta_idle - delta_time)`, and this times `policy.cur` is added to
`cputime_speedadj`. -/
theorem update_load_wraps (now now_idle : Nat) (policy : cpufreq_policy)
    (pcpu : cpufreq_interactive_cpuinfo)
    (h : u32 (u64_sub now pcpu.time_in_idle_timestamp) <
      u32 (u64_sub now_idle pcpu.time_in_idle)) :
    (update_load now now_idle policy pcpu).cputime_speedadj =
      u64 (pcpu.cputime_speedadj +
        (4294967296 - (u32 (u64_sub now_idle pcpu.time_in_idle) -
          u32 (u64_sub now pcpu.time_in_idle_timestamp))) * policy.cur) ∧
    0 < 4294967296 - (u32 (u64_sub now_idle pcpu.time_in_idle) -
          u32 (u64_sub now pcpu.time_in_idle_timestamp)) := by
  have hb : u32 (u64_sub now_idle pcpu.time_in_idle) < 4294967296 := by
    unfold u32; omega
  have ha : u32_sub (u32 (u64_sub now pcpu.time_in_idle_timestamp))
      (u32 (u64_sub now_idle pcpu.time_in_idle)) =
      4294967296 - (u32 (u64_sub now_idle pcpu.time_in_idle) -
          u32 (u64_sub now pcpu.time_in_idle_timestamp)) := by
    unfold u32_sub
    omega
  refine ⟨?_, by omega⟩
  unfold update_load
  dsimp only
  rw [ha]

/-- Claim C15 at a concrete input: a CPU started at 384000 kHz is sampled at
wall time 1020000 us with an idle time of 1030000 us.  The active time is
`2^32 - 10000`, the accumulator becomes 4294957296 * 384000 instead of staying
0, and the tick raises the target from 384000 to 1350000 kHz. -/
theorem update_load_wraps_witness :
    u32 (u64_sub 1020000 started_at_min.time_in_idle_timestamp) <
      u32 (u64_sub 1030000 started_at_min.time_in_idle) ∧
    started_at_min.cputime_speedadj = 0 ∧
    (update_load 1020000 1030000 policy_at_min started_at_min).cputime_speedadj =
      4294957296 * 384000 ∧
    timer_summary (cpufreq_interactive_timer (timer_input_at 1020000 1030000) default_tunables
      policy_at_min 0 started_at_min (fun _ => false)) =
      some (1350000, 384000, 1000000, 1020000, true, true, true) :=
  ⟨by decide, by decide,
    (update_load_wraps 1020000 1030000 policy_at_min started_at_min (by decide)).1.trans
      (by decide),
    rfl⟩

/-! ## Claim C16: the two timestamps of a sample -/

theorem timer_rearm_timestamps (inp : timer_input) (g : tunables) (policy : cpufreq_policy)
    (p q : cpufreq_interactive_cpuinfo) (mask : Nat → Bool) (woken : Bool)
    (h1 : q.time_in_idle_timestamp = inp.now)
    (h2 : q.cputime_speedadj_timestamp = p.cputime_speedadj_timestamp)
    (h3 : q.cpu_timer = p.cpu_timer) :
    timer_timestamps inp p (timer_rearm inp g policy q mask woken) ∧
    (p.cpu_timer.pending = false →
      (timer_rearm inp g policy q mask woken).pcpu.cputime_speedadj_timestamp =
        (timer_rearm inp g policy q mask woken).pcpu.time_in_idle_timestamp) := by
  unfold timer_rearm timer_timestamps
  rw [h3]
  by_cases hp : p.cpu_timer.pending = true
  · simp [hp, timer_exit, h1, h2]
  · simp [hp, timer_exit, cpufreq_interactive_timer_resched]

theorem timer_rearm_if_notmax_timestamps (inp : timer_input) (g : tunables)
    (policy : cpufreq_policy) (p q : cpufreq_interactive_cpuinfo) (mask : Nat → Bool)
    (woken : Bool)
    (h1 : q.time_in_idle_timestamp = inp.now)
    (h2 : q.cputime_speedadj_timestamp = p.cputime_speedadj_timestamp)
    (h3 : q.cpu_timer = p.cpu_timer) :
    timer_timestamps inp p (timer_rearm_if_notmax inp g policy q mask woken) ∧
    (p.cpu_timer.pending = false →
      (timer_rearm_if_notmax inp g policy q mask woken).pcpu.target_freq ≠ policy.max →
      (timer_rearm_if_notmax inp g policy q mask woken).pcpu.cputime_speedadj_timestamp =
        (timer_rearm_if_notmax inp g policy q mask woken).pcpu.time_in_idle_timestamp) := by
  unfold timer_rearm_if_notmax
  by_cases hm : q.target_freq = policy.max
  · rw [if_pos hm]
    refine ⟨Or.inr ⟨h1, h2⟩, fun _ hne => absurd hm hne⟩
  · rw [if_neg hm]
    obtain ⟨a, b⟩ := timer_rearm_timestamps inp g policy p q mask woken h1 h2 h3
    exact ⟨a, fun hp _ => b hp⟩

theorem timer_floor_update_timestamps (now : Nat) (values : interactive_vaules)
    (p : cpufreq_interactive_cpuinfo) (q : Nat) :
    (timer_floor_update now values p q).time_in_idle_timestamp = p.time_in_idle_timestamp ∧
    (timer_floor_update now values p q).cputime_speedadj_timestamp =
      p.cputime_speedadj_timestamp ∧
    (timer_floor_update now values p q).cpu_timer = p.cpu_timer := by
  unfold timer_floor_update
  split <;> exact ⟨rfl, rfl, rfl⟩

/-- Claim C16, counterexample: a record whose two timestamps are both 1000000
is sampled by `update_load` at wall time 1020000; afterwards
`time_in_idle_timestamp` is 1020000 and `cputime_speedadj_timestamp` is
still 1000000. -/
theorem sample_timestamps_differ_counterexample :
    resched_at_min.governor_enabled = true ∧
    resched_at_min.cputime_speedadj_timestamp = 1000000 ∧
    resched_at_min.time_in_idle_timestamp = 1000000 ∧
    (update_load 1020000 10000 policy_at_min resched_at_min).time_in_idle_timestamp = 1020000 ∧
    (update_load 1020000 10000 policy_at_min resched_at_min).cputime_speedadj_timestamp
      = 1000000 ∧
    ¬ ((update_load 1020000 10000 policy_at_min resched_at_min).cputime_speedadj_timestamp =
      (update_load 1020000 10000 policy_at_min resched_at_min).time_in_idle_timestamp) := by
  refine ⟨by decide, by decide, by decide, by decide, by decide, by decide⟩

/-- Claim C16, amended: in a tick of an enabled CPU the sample of step 2
(`update_load`) sets `time_in_idle_timestamp` to `now` and leaves
`cputime_speedadj_timestamp`, the start of the accumulation window, as it was.
The two timestamps are made equal by `cpufreq_interactive_timer_resched`, which
takes a sample of its own and clears the accumulator; so at the end of the
tick either both timestamps are the wall time of that sample, or they are as
step 2 left them, and they are equal whenever the timer was not pending at
entry and the target the tick leaves is not `policy.max`. -/
theorem sample_timestamps (inp : timer_input) (g : tunables) (policy : cpufreq_policy)
    (data : Nat) (p : cpufreq_interactive_cpuinfo) (mask : Nat → Bool) (r : timer_result)
    (h : cpufreq_interactive_timer inp g policy data p mask = some r)
    (ht : inp.trylock = true) (he : p.governor_enabled = true) :
    ((update_load inp.now inp.now_idle policy p).time_in_idle_timestamp = inp.now ∧
      (update_load inp.now inp.now_idle policy p).cputime_speedadj_timestamp =
        p.cputime_speedadj_timestamp) ∧
    (cpufreq_interactive_timer_resched inp g policy p).cputime_speedadj_timestamp =
      (cpufreq_interactive_timer_resched inp g policy p).time_in_idle_timestamp ∧
    timer_timestamps inp p r ∧
    (p.cpu_timer.pending = false → r.pcpu.target_freq ≠ policy.max →
      r.pcpu.cputime_speedadj_timestamp = r.pcpu.time_in_idle_timestamp) := by
  refine ⟨⟨rfl, rfl⟩, rfl, ?_⟩
  have o := timer_outcome_of_some h
  cases o with
  | not_run hn =>
    rcases hn with hn | hn
    · rw [ht] at hn; cases hn
    · rw [he] at hn; cases hn
  | no_sample _ _ _ =>
    obtain ⟨a, b⟩ := timer_rearm_timestamps inp g policy p
      (update_load inp.now inp.now_idle policy p) mask false rfl rfl rfl
    exact ⟨a, fun hp _ => b hp⟩
  | above_hispeed nf _ _ _ _ _ _ =>
    obtain ⟨a, b⟩ := timer_rearm_timestamps inp g policy p
      (update_load inp.now inp.now_idle policy p) mask false rfl rfl rfl
    exact ⟨a, fun hp _ => b hp⟩
  | lookup_failed nf _ _ _ _ _ _ _ =>
    obtain ⟨a, b⟩ := timer_rearm_timestamps inp g policy p
      { update_load inp.now inp.now_idle policy p with hispeed_validate_time := inp.now }
      mask false rfl rfl rfl
    exact ⟨a, fun hp _ => b hp⟩
  | floor_held nf q _ _ _ _ _ _ _ _ =>
    obtain ⟨a, b⟩ := timer_rearm_timestamps inp g policy p
      { update_load inp.now inp.now_idle policy p with hispeed_validate_time := inp.now }
      mask false rfl rfl rfl
    exact ⟨a, fun hp _ => b hp⟩
  | already nf q _ _ _ _ _ _ _ _ _ =>
    obtain ⟨f1, f2, f3⟩ := timer_floor_update_timestamps inp.now (timer_values g)
      { update_load inp.now inp.now_idle policy p with hispeed_validate_time := inp.now } q
    exact timer_rearm_if_notmax_timestamps inp g policy p _ mask false f1 f2 f3
  | changed nf q _ _ _ _ _ _ _ _ _ =>
    obtain ⟨f1, f2, f3⟩ := timer_floor_update_timestamps inp.now (timer_values g)
      { update_load inp.now inp.now_idle policy p with hispeed_validate_time := inp.now } q
    exact timer_rearm_if_notmax_timestamps inp g policy p
      { timer_floor_update inp.now (timer_values g)
          { update_load inp.now inp.now_idle policy p with hispeed_validate_time := inp.now }
          q with target_freq := q }
      (cpumask_set_cpu data mask) true f1 f2 f3

/-- Claim C16 at a concrete input: the timer of a CPU whose two timestamps are
1000000 fires at 1020000 us after 10000 us of idle time; the tick ends with
both timestamps at 1020000. -/
theorem sample_timestamps_witness :
    (timer_result_of (cpufreq_interactive_timer (timer_input_at 1020000 10000)
        default_tunables policy_at_min 0 fired_at_min (fun _ => false))
        fired_at_min).pcpu.cputime_speedadj_timestamp = 1020000 ∧
    (timer_result_of (cpufreq_interactive_timer (timer_input_at 1020000 10000)
        default_tunables policy_at_min 0 fired_at_min (fun _ => false))
        fired_at_min).pcpu.time_in_idle_timestamp = 1020000 ∧
    (timer_result_of (cpufreq_interactive_timer (timer_input_at 1020000 10000)
        default_tunables policy_at_min 0 fired_at_min (fun _ => false))
        fired_at_min).pcpu.cputime_speedadj_timestamp =
      (timer_result_of (cpufreq_interactive_timer (timer_input_at 1020000 10000)
        default_tunables policy_at_min 0 fired_at_min (fun _ => false))
        fired_at_min).pcpu.time_in_idle_timestamp :=
  ⟨by decide, by decide,
    (sample_timestamps (timer_input_at 1020000 10000) default_tunables policy_at_min 0
      fired_at_min (fun _ => false) _ rfl rfl rfl).2.2.2 rfl (by decide)⟩

/-! ## Claim C17: the load `get_cpu_load` returns -/

/-- Claim C17, counterexample: with a wall delta of 50000000 us, no idle time
and the CPU at its highest frequency the exact formula gives 100, and
`get_cpu_load` returns 14: the product `100 * 50000000` does not fit in an
`unsigned int` and wraps to 705032704. -/
theorem get_cpu_load_overflow_counterexample :
    u32 (u64_sub long_busy_sample.cur_wall_time zero_load_data.prev_cpu_wall) = 50000000 ∧
    u32 (u64_sub long_busy_sample.cur_idle_time zero_load_data.prev_cpu_idle) = 0 ∧
    (100 * (50000000 - 0) / 50000000) * 1512000 / 1512000 = 100 ∧
    (get_cpu_load long_busy_sample zero_load_data).map Prod.fst = some 14 ∧
    (get_cpu_load long_busy_sample zero_load_data).map Prod.fst ≠
      some ((100 * (50000000 - 0) / 50000000) * 1512000 / 1512000) := by
  refine ⟨by decide, by decide, by decide, by decide, by decide⟩

/-- Claim C17, amended: with wall delta `W` and idle delta `I` (both
`unsigned int`), `max_freq = min(policy.max, cur_max)` and `cur_freq` equal to
`policy.cur`, clamped to `cur_max` when `cur_max < policy.max`:
`get_cpu_load` returns 0 when `W = 0` or `W < I`; otherwise, for a non-zero
`max_freq`, it returns `((100 * (W - I) mod 2^32) / W * cur_freq mod 2^32) /
max_freq`, which is `((100 * (W - I) / W) * cur_freq) / max_freq` in exact
integer arithmetic whenever `100 * (W - I)` and `(100 * (W - I) / W) * cur_freq`
are below `2^32`. -/
theorem get_cpu_load_value (s : load_sample) (pcpu : cpu_load_data)
    (W I max_freq cur_freq : Nat)
    (hW : W = u32 (u64_sub s.cur_wall_time pcpu.prev_cpu_wall))
    (hI : I = u32 (u64_sub s.cur_idle_time pcpu.prev_cpu_idle))
    (hmax : max_freq = min s.policy_max s.cur_max)
    (hcur : cur_freq =
      if s.cur_max < s.policy_max then min s.policy_cur s.cur_max else s.policy_cur) :
    (W = 0 ∨ W < I → (get_cpu_load s pcpu).map Prod.fst = some 0) ∧
    (0 < W → I ≤ W → max_freq ≠ 0 →
      (get_cpu_load s pcpu).map Prod.fst =
        some (u32 (u32 (100 * (W - I)) / W * cur_freq) / max_freq)) ∧
    (0 < W → I ≤ W → max_freq ≠ 0 →
      100 * (W - I) < 4294967296 → (100 * (W - I) / W) * cur_freq < 4294967296 →
      (get_cpu_load s pcpu).map Prod.fst =
        some ((100 * (W - I) / W) * cur_freq / max_freq)) := by
  have hmax2 : (if s.cur_max ≥ s.policy_max then s.policy_max else s.cur_max) = max_freq := by
    rw [hmax, Nat.min_def]
  have hcur2 : (if s.cur_max ≥ s.policy_max then s.policy_cur
      else if s.policy_cur > s.cur_max then s.cur_max else s.policy_cur) = cur_freq := by
    rw [hcur, Nat.min_def]
    split_ifs <;> omega
  have hI2 : I < 4294967296 := by rw [hI]; unfold u32; omega
  have hsub : I ≤ W → u32_sub W I = W - I := by
    intro h
    have hW2 : W < 4294967296 := by rw [hW]; unfold u32; omega
    unfold u32_sub
    omega
  have key : 0 < W → I ≤ W → max_freq ≠ 0 →
      (get_cpu_load s pcpu).map Prod.fst =
        some (u32 (u32 (100 * (W - I)) / W * cur_freq) / max_freq) := by
    intro h0 hle hm
    unfold get_cpu_load
    dsimp only
    rw [← hW, ← hI, hmax2, hcur2, if_neg (by omega), if_neg hm, hsub hle]
    rfl
  refine ⟨?_, key, ?_⟩
  · intro h
    unfold get_cpu_load
    dsimp only
    rw [← hW, ← hI, if_pos h]
    rfl
  · intro h0 hle hm h1 h2
    rw [key h0 hle hm]
    have e1 : u32 (100 * (W - I)) = 100 * (W - I) := Nat.mod_eq_of_lt h1
    rw [e1]
    have e2 : u32 (100 * (W - I) / W * cur_freq) = 100 * (W - I) / W * cur_freq :=
      Nat.mod_eq_of_lt h2
    rw [e2]

/-- Claim C17 at a concrete input: 25 us of active time in 100 us at 702000
kHz under a ceiling of 1026000 kHz is a load of 25 * 702000 / 1026000 = 17. -/
theorem get_cpu_load_value_witness :
    (100 = u32 (u64_sub capped_sample.cur_wall_time zero_load_data.prev_cpu_wall) ∧
      75 = u32 (u64_sub capped_sample.cur_idle_time zero_load_data.prev_cpu_idle) ∧
      1026000 = min capped_sample.policy_max capped_sample.cur_max) ∧
    (get_cpu_load capped_sample zero_load_data).map Prod.fst =
      some ((100 * (100 - 75) / 100) * 702000 / 1026000) ∧
    (100 * (100 - 75) / 100) * 702000 / 1026000 = 17 :=
  ⟨⟨by decide, by decide, by decide⟩,
    (get_cpu_load_value capped_sample zero_load_data 100 75 1026000 702000
      (by decide) (by decide) (by decide) (by decide)).2.2
      (by decide) (by decide) (by decide) (by decide) (by decide),
    by decide⟩

/-! ## Claim C18: profile selection -/

/-- Two settings of the tunables with the same timer profile and the same
target-load function give the same run of the timer function. -/
theorem timer_congr (inp : timer_input) (g g2 : tunables) (policy : cpufreq_policy)
    (data : Nat) (pcpu : cpufreq_interactive_cpuinfo) (mask : Nat → Bool)
    (hv : timer_values g2 = timer_values g)
    (hf : freq_to_targetload g2 inp.ktime_ms = freq_to_targetload g inp.ktime_ms) :
    cpufreq_interactive_timer inp g2 policy data pcpu mask =
      cpufreq_interactive_timer inp g policy data pcpu mask := by
  simp only [cpufreq_interactive_timer, timer_new_freq, timer_rearm, timer_rearm_if_notmax,
    cpufreq_interactive_timer_resched, choose_freq, hv, hf]

/-- Claim C18: `freq_to_targetload` scans the target loads of `idle_values`
when `gpu_idle` is set, whatever the touch boost; otherwise those of
`boost_values` when `boostpulse_endtime > now`, otherwise those of
`busy_values`.  The timer reads its knobs from `idle_values` when `gpu_idle`
is set and from `busy_values` otherwise; a run of the timer function with
`gpu_idle` set depends on no other profile than `idle_values`, and a run with
`gpu_idle` clear depends on `boost_values` only through its target loads and
not at all on `idle_values`. -/
theorem profile_selection (g : tunables) (now freq : Nat) :
    (g.gpu_idle = true →
      freq_to_targetload g now freq =
        freq_to_targetload_scan g.idle.target_loads g.idle.ntarget_loads freq
          (g.idle.ntarget_loads + 1) 0) ∧
    (g.gpu_idle = false → g.boostpulse_endtime > now →
      freq_to_targetload g now freq =
        freq_to_targetload_scan g.boost.target_loads g.boost.ntarget_loads freq
          (g.boost.ntarget_loads + 1) 0) ∧
    (g.gpu_idle = false → ¬ (g.boostpulse_endtime > now) →
      freq_to_targetload g now freq =
        freq_to_targetload_scan g.busy.target_loads g.busy.ntarget_loads freq
          (g.busy.ntarget_loads + 1) 0) ∧
    timer_values g = (if g.gpu_idle then g.idle else g.busy) ∧
    (∀ (g2 : tunables) (inp : timer_input) (policy : cpufreq_policy) (data : Nat)
      (pcpu : cpufreq_interactive_cpuinfo) (mask : Nat → Bool),
      g.gpu_idle = true → g2.gpu_idle = true → g2.idle = g.idle →
      cpufreq_interactive_timer inp g2 policy data pcpu mask =
        cpufreq_interactive_timer inp g policy data pcpu mask) ∧
    (∀ (g2 : tunables) (inp : timer_input) (policy : cpufreq_policy) (data : Nat)
      (pcpu : cpufreq_interactive_cpuinfo) (mask : Nat → Bool),
      g.gpu_idle = false → g2.gpu_idle = false →
      g2.boostpulse_endtime = g.boostpulse_endtime → g2.busy = g.busy →
      g2.boost.target_loads = g.boost.target_loads →
      g2.boost.ntarget_loads = g.boost.ntarget_loads →
      cpufreq_interactive_timer inp g2 policy data pcpu mask =
        cpufreq_interactive_timer inp g policy data pcpu mask) := by
  refine ⟨?_, ?_, ?_, rfl, ?_, ?_⟩
  · intro h
    simp [freq_to_targetload, freq_to_targetload_of, targetload_values, h]
  · intro h hb
    simp [freq_to_targetload, freq_to_targetload_of, targetload_values, h, hb]
  · intro h hb
    simp [freq_to_targetload, freq_to_targetload_of, targetload_values, h, hb]
  · intro g2 inp policy data pcpu mask h h2 hi
    apply timer_congr
    · simp [timer_values, h, h2, hi]
    · funext f
      simp [freq_to_targetload, targetload_values, h, h2, hi]
  · intro g2 inp policy data pcpu mask h h2 he hb ht hn
    apply timer_congr
    · simp [timer_values, h, h2, hb]
    · funext f
      by_cases hbp : g.boostpulse_endtime > inp.ktime_ms
      · simp [freq_to_targetload, freq_to_targetload_of, targetload_values, h, h2, he, hbp,
          ht, hn]
      · simp [freq_to_targetload, freq_to_targetload_of, targetload_values, h, h2, he, hbp,
          hb]

/-- Claim C18 at concrete inputs: during a touch boost `freq_to_targetload`
reads the boost profile (target load 30 at 384000 kHz, where the busy profile
has 40), with `gpu_idle` set it reads the idle profile (60) although the boost
is active, and the run of the timer function is the same when every other knob
of `boost_values` is changed. -/
theorem profile_selection_witness :
    freq_to_targetload touch_tunables 1020 384000 = some 30 ∧
    freq_to_targetload default_tunables 1020 384000 = some 40 ∧
    freq_to_targetload { touch_tunables with gpu_idle := true } 1020 384000 = some 60 ∧
    cpufreq_interactive_timer (timer_input_at 1020000 10000) touch_tunables_other_knobs
        policy_at_min 0 fired_at_min (fun _ => false) =
      cpufreq_interactive_timer (timer_input_at 1020000 10000) touch_tunables
        policy_at_min 0 fired_at_min (fun _ => false) :=
  ⟨((profile_selection touch_tunables 1020 384000).2.1 rfl (by decide)).trans (by decide),
    ((profile_selection default_tunables 1020 384000).2.2.1 rfl (by decide)).trans (by decide),
    ((profile_selection { touch_tunables with gpu_idle := true } 1020 384000).1 rfl).trans
      (by decide),
    (profile_selection touch_tunables 1020 384000).2.2.2.2.2 touch_tunables_other_knobs
      (timer_input_at 1020000 10000) policy_at_min 0 fired_at_min (fun _ => false)
      rfl rfl rfl rfl rfl rfl⟩

/-! ## Claims C19 and C20: `store_target_loads` -/

theorem strpbrk_none {l accept : List Char} (h : strpbrk l accept = none) :
    ∀ c ∈ l, c ∉ accept := by
  induction l with
  | nil => simp
  | cons a rest ih =>
    unfold strpbrk at h
    by_cases ha : a ∈ accept
    · rw [if_pos ha] at h; cases h
    · rw [if_neg ha] at h
      intro c hc
      rcases List.mem_cons.mp hc with rfl | hc
      · exact ha
      · exact ih h c hc

theorem strpbrk_some {l accept l2 : List Char} (h : strpbrk l accept = some l2) :
    ∃ pre s tl, l = pre ++ s :: tl ∧ l2 = s :: tl ∧ s ∈ accept ∧ ∀ c ∈ pre, c ∉ accept := by
  induction l with
  | nil => unfold strpbrk at h; cases h
  | cons a rest ih =>
    unfold strpbrk at h
    by_cases ha : a ∈ accept
    · rw [if_pos ha] at h
      cases h
      exact ⟨[], a, rest, rfl, rfl, ha, by simp⟩
    · rw [if_neg ha] at h
      obtain ⟨pre, s, tl, h1, h2, h3, h4⟩ := ih h
      refine ⟨a :: pre, s, tl, by rw [h1]; rfl, h2, h3, ?_⟩
      intro c hc
      rcases List.mem_cons.mp hc with rfl | hc
      · exact ha
      · exact h4 c hc

/-- The counting loop of `store_target_loads` ends on every non-empty string,
with one more token for each separator after the first character. -/
theorem store_count_tokens_spec (fuel : Nat) :
    ∀ (cp : List Char) (n : Nat), cp ≠ [] → cp.length ≤ fuel →
      store_count_tokens fuel cp n =
        some (n + (cp.tail.filter (fun c => decide (c ∈ target_loads_separators))).length) := by
  induction fuel with
  | zero =>
    intro cp n hne hlen
    cases cp with
    | nil => exact absurd rfl hne
    | cons c rest => simp at hlen
  | succ fuel ih =>
    intro cp n hne hlen
    cases cp with
    | nil => exact absurd rfl hne
    | cons c rest =>
      unfold store_count_tokens
      dsimp only
      cases hs : strpbrk rest target_loads_separators with
      | none =>
        have hnone := strpbrk_none hs
        have hf : rest.filter (fun c => decide (c ∈ target_loads_separators)) = [] := by
          rw [List.filter_eq_nil_iff]
          intro a ha
          simpa using hnone a ha
        simp [hf]
      | some cp2 =>
        obtain ⟨pre, sep, tl, h1, h2, h3, h4⟩ := strpbrk_some hs
        have hf : pre.filter (fun c => decide (c ∈ target_loads_separators)) = [] := by
          rw [List.filter_eq_nil_iff]
          intro a ha
          simpa using h4 a ha
        have hlen2 : cp2.length ≤ fuel := by
          rw [h2]
          rw [h1] at hlen
          simp at hlen ⊢
          omega
        dsimp only
        rw [ih cp2 (n + 1) (by rw [h2]; simp) hlen2, h2, h1]
        simp [List.filter_append, hf, List.filter_cons, h3]
        omega

/-- The parse loop of `store_target_loads` ends when it is given one
iteration more than there are tokens left. -/
theorem store_parse_total (scan : List Char → Option Nat) (ntokens fuel : Nat) :
    ∀ (cp : List Char) (i : Nat) (loads : List Nat), 0 < fuel → ntokens < i + fuel →
      ∃ r, store_parse scan fuel cp i ntokens loads = some r := by
  induction fuel with
  | zero =>
    intro cp i loads h0 h
    omega
  | succ fuel ih =>
    intro cp i loads _ h
    unfold store_parse
    by_cases hi : i < ntokens
    · rw [if_pos hi]
      cases scan cp with
      | none => exact ⟨_, rfl⟩
      | some v =>
        dsimp only
        cases strpbrk cp target_loads_separators with
        | none => exact ⟨_, rfl⟩
        | some cp2 => exact ih cp2.tail (i + 1) (loads ++ [v]) (by omega) (by omega)
    · rw [if_neg hi]
      exact ⟨_, rfl⟩

/-- The parse loop has written one value for each index below `i`. -/
theorem store_parse_length (scan : List Char → Option Nat) (ntokens fuel : Nat) :
    ∀ (cp : List Char) (i : Nat) (loads : List Nat) (j : Nat) (l : List Nat),
      store_parse scan fuel cp i ntokens loads = some (.done j l) →
      loads.length = i → l.length = j := by
  induction fuel with
  | zero =>
    intro cp i loads j l h
    unfold store_parse at h
    cases h
  | succ fuel ih =>
    intro cp i loads j l h hl
    unfold store_parse at h
    by_cases hi : i < ntokens
    · rw [if_pos hi] at h
      cases hsc : scan cp with
      | none => rw [hsc] at h; cases h
      | some v =>
        rw [hsc] at h
        dsimp only at h
        cases hs : strpbrk cp target_loads_separators with
        | none =>
          rw [hs] at h
          cases h
          simp [hl]
        | some cp2 =>
          rw [hs] at h
          exact ih cp2.tail (i + 1) (loads ++ [v]) j l h (by simp [hl])
    · rw [if_neg hi] at h
      cases h
      exact hl

/-- The counting loop of `store_target_loads` on a non-empty string gives
`token_count`. -/
theorem store_count_tokens_eq (buf : List Char) (hbuf : buf ≠ []) :
    store_count_tokens (buf.length + 1) buf 1 = some (token_count buf) :=
  store_count_tokens_spec (buf.length + 1) buf 1 hbuf (Nat.le_succ _)

/-- Claim C19: on every non-empty input `store_target_loads` returns, and it
returns either an error (`-EINVAL` or `-ENOMEM`) with the profile exactly as it
was, or the byte count with the new list installed, whose length is the token
count; every input with an even token count is rejected with `-EINVAL`, a
failed allocation gives `-ENOMEM`, a first token that does not parse gives
`-EINVAL`, and whenever the value returned is negative the profile is
unchanged.  The conversion `scan` is arbitrary. -/
theorem store_target_loads_atomic (scan : List Char → Option Nat) (alloc_ok : Bool)
    (values : interactive_vaules) (buf : List Char) (count : Nat) (hbuf : buf ≠ []) :
    (∃ r, store_target_loads scan alloc_ok values buf count = some r ∧
      (((r.ret = -EINVAL ∨ r.ret = -ENOMEM) ∧ r.values = values) ∨
       (r.ret = count ∧ token_count buf % 2 = 1 ∧ alloc_ok = true ∧
        r.values.ntarget_loads = token_count buf ∧
        r.values.target_loads.length = token_count buf ∧
        r.values = { values with target_loads := r.values.target_loads,
                                 ntarget_loads := r.values.ntarget_loads }))) ∧
    (token_count buf % 2 = 0 →
      store_target_loads scan alloc_ok values buf count =
        some { ret := -EINVAL, values := values }) ∧
    (token_count buf % 2 = 1 → alloc_ok = false →
      store_target_loads scan alloc_ok values buf count =
        some { ret := -ENOMEM, values := values }) ∧
    (token_count buf % 2 = 1 → alloc_ok = true → scan buf = none →
      store_target_loads scan alloc_ok values buf count =
        some { ret := -EINVAL, values := values }) ∧
    (∀ r, store_target_loads scan alloc_ok values buf count = some r → r.ret < 0 →
      r.values.target_loads = values.target_loads ∧
      r.values.ntarget_loads = values.ntarget_loads ∧ r.values = values) := by
  have hcount := store_count_tokens_eq buf hbuf
  have hpos : 0 < token_count buf := by unfold token_count; omega
  have main : ∃ r, store_target_loads scan alloc_ok values buf count = some r ∧
      (((r.ret = -EINVAL ∨ r.ret = -ENOMEM) ∧ r.values = values) ∨
       (r.ret = count ∧ token_count buf % 2 = 1 ∧ alloc_ok = true ∧
        r.values.ntarget_loads = token_count buf ∧
        r.values.target_loads.length = token_count buf ∧
        r.values = { values with target_loads := r.values.target_loads,
                                 ntarget_loads := r.values.ntarget_loads })) := by
    unfold store_target_loads
    rw [hcount]
    dsimp only
    by_cases hev : token_count buf % 2 = 0
    · rw [if_pos hev]
      exact ⟨_, rfl, Or.inl ⟨Or.inl rfl, rfl⟩⟩
    · rw [if_neg hev]
      cases halloc : alloc_ok with
      | false => exact ⟨_, rfl, Or.inl ⟨Or.inr rfl, rfl⟩⟩
      | true =>
        obtain ⟨pr, hpr⟩ := store_parse_total scan (token_count buf) (token_count buf + 1)
          buf 0 [] (by omega) (by omega)
        rw [if_neg (by decide), hpr]
        cases pr with
        | inval => exact ⟨_, rfl, Or.inl ⟨Or.inl rfl, rfl⟩⟩
        | done i loads =>
          dsimp only
          by_cases hi : i = token_count buf
          · rw [if_neg (by simpa using hi)]
            have hl := store_parse_length scan (token_count buf) (token_count buf + 1)
              buf 0 [] i loads hpr rfl
            exact ⟨_, rfl, Or.inr ⟨rfl, by omega, rfl, rfl, by rw [hl, hi], rfl⟩⟩
          · rw [if_pos hi]
            exact ⟨_, rfl, Or.inl ⟨Or.inl rfl, rfl⟩⟩
  refine ⟨main, ?_, ?_, ?_, ?_⟩
  · intro hev
    unfold store_target_loads
    rw [hcount]
    dsimp only
    rw [if_pos hev]
  · intro hodd halloc
    unfold store_target_loads
    rw [hcount]
    dsimp only
    rw [if_neg (by omega), halloc]
    rfl
  · intro hodd halloc hscan
    unfold store_target_loads
    rw [hcount]
    dsimp only
    rw [if_neg (by omega), halloc]
    have hp : store_parse scan (token_count buf + 1) buf 0 (token_count buf) [] =
        some .inval := by
      unfold store_parse
      rw [if_pos hpos, hscan]
    simp only [Bool.not_true, Bool.false_eq_true, if_false]
    rw [hp]
  · intro r hr hneg
    obtain ⟨r2, hr2, hcase⟩ := main
    rw [hr] at hr2
    cases hr2
    rcases hcase with ⟨_, hv⟩ | ⟨hret, _⟩
    · exact ⟨by rw [hv], by rw [hv], hv⟩
    · rw [hret] at hneg
      omega

/-- Claim C19 at concrete inputs, with the conversion `sscanf_u`: two tokens
(even) are rejected with `-EINVAL`, a failed allocation gives `-ENOMEM`, the
token `x` gives `-EINVAL`, and each time the busy profile keeps its 11 default
target loads. -/
theorem store_target_loads_atomic_witness :
    store_target_loads sscanf_u true busy_values ['8', '5', ' ', '9', '0'] 5 =
      some { ret := -22, values := busy_values } ∧
    store_target_loads sscanf_u false busy_values ['8', '5'] 2 =
      some { ret := -12, values := busy_values } ∧
    store_target_loads sscanf_u true busy_values ['8', '5', ' ', 'x', ':', '9', '0'] 7 =
      some { ret := -22, values := busy_values } ∧
    store_target_loads sscanf_u true busy_values ['x', ' ', '7', ':', '9', '0'] 6 =
      some { ret := -22, values := busy_values } :=
  ⟨(store_target_loads_atomic sscanf_u true busy_values ['8', '5', ' ', '9', '0'] 5
      (by decide)).2.1 (by decide),
    (store_target_loads_atomic sscanf_u false busy_values ['8', '5'] 2
      (by decide)).2.2.1 (by decide) rfl,
    by decide,
    (store_target_loads_atomic sscanf_u true busy_values ['x', ' ', '7', ':', '9', '0'] 6
      (by decide)).2.2.2.1 (by decide) rfl (by decide)⟩

theorem isdigit_not_separator {c : Char} (h : isdigit c = true) :
    c ∉ target_loads_separators := by
  intro hm
  unfold target_loads_separators at hm
  simp only [List.mem_cons, List.mem_singleton, List.not_mem_nil, or_false] at hm
  rcases hm with rfl | rfl
  · exact absurd h (by decide)
  · exact absurd h (by decide)

theorem isdigit_not_isspace {c : Char} (h : isdigit c = true) : isspace c = false := by
  unfold isdigit at h
  unfold isspace
  simp only [decide_eq_true_eq, decide_eq_false_iff_not] at h ⊢
  omega

theorem separator_not_isdigit {c : Char} (h : c ∈ target_loads_separators) :
    isdigit c = false := by
  cases hd : isdigit c with
  | false => rfl
  | true => exact absurd h (isdigit_not_separator hd)

theorem join_tokens_cons (c : Char) (ds : List Char) (rest : List (Char × List Char)) :
    join_tokens (c :: ds) rest = c :: join_tokens ds rest := by
  cases rest with
  | nil => rfl
  | cons p rest => rfl

/-- In a string of tokens made of digits the search for a separator skips
the first token. -/
theorem strpbrk_join_tokens (t : List Char) (ht : ∀ c ∈ t, isdigit c = true)
    (rest : List (Char × List Char))
    (hrest : ∀ p ∈ rest, p.1 ∈ target_loads_separators) :
    strpbrk (join_tokens t rest) target_loads_separators =
      match rest with
      | [] => none
      | (sep, t2) :: rest2 => some (sep :: join_tokens t2 rest2) := by
  induction t with
  | nil =>
    cases rest with
    | nil => rfl
    | cons p rest2 =>
      obtain ⟨sep, t2⟩ := p
      have hs : sep ∈ target_loads_separators := hrest (sep, t2) (List.mem_cons_self _ _)
      show strpbrk (sep :: join_tokens t2 rest2) target_loads_separators = _
      unfold strpbrk
      rw [if_pos hs]
  | cons c ds ih =>
    rw [join_tokens_cons]
    unfold strpbrk
    rw [if_neg (isdigit_not_separator (ht c (List.mem_cons_self _ _)))]
    exact ih (fun d hd => ht d (List.mem_cons_of_mem _ hd))

/-- The longest run of digits at the start of a string of tokens is its first
token. -/
theorem takeWhile_join_tokens (t : List Char) (ht : ∀ c ∈ t, isdigit c = true)
    (rest : List (Char × List Char))
    (hrest : ∀ p ∈ rest, p.1 ∈ target_loads_separators) :
    (join_tokens t rest).takeWhile isdigit = t := by
  induction t with
  | nil =>
    cases rest with
    | nil => rfl
    | cons p rest2 =>
      obtain ⟨sep, t2⟩ := p
      have hs : sep ∈ target_loads_separators := hrest (sep, t2) (List.mem_cons_self _ _)
      show (sep :: join_tokens t2 rest2).takeWhile isdigit = []
      rw [List.takeWhile_cons, separator_not_isdigit hs]
      rfl
  | cons c ds ih =>
    rw [join_tokens_cons, List.takeWhile_cons, ht c (List.mem_cons_self _ _)]
    simp only [if_true]
    rw [ih (fun d hd => ht d (List.mem_cons_of_mem _ hd))]

/-- The conversion `sscanf_u` of a string of tokens gives the value of its
first token. -/
theorem sscanf_u_join_tokens (t : List Char) (ht : decimal_u32 t)
    (rest : List (Char × List Char))
    (hrest : ∀ p ∈ rest, p.1 ∈ target_loads_separators) :
    sscanf_u (join_tokens t rest) = some (digits_value t) := by
  obtain ⟨hne, hd, hv⟩ := ht
  cases t with
  | nil => exact absurd rfl hne
  | cons c ds =>
    have hc : isdigit c = true := hd c (List.mem_cons_self _ _)
    have htw := takeWhile_join_tokens (c :: ds) hd rest hrest
    rw [join_tokens_cons] at htw ⊢
    unfold sscanf_u
    rw [List.dropWhile_cons, isdigit_not_isspace hc]
    simp only [Bool.false_eq_true, if_false]
    rw [if_pos hc, htw]
    unfold u32
    rw [Nat.mod_eq_of_lt hv]

/-- The separators of a string of tokens made of digits: one for each token
after the first. -/
theorem filter_join_tokens (rest : List (Char × List Char)) :
    ∀ (t : List Char), (∀ c ∈ t, isdigit c = true) →
      (∀ p ∈ rest, p.1 ∈ target_loads_separators ∧ ∀ c ∈ p.2, isdigit c = true) →
      ((join_tokens t rest).filter (fun c => decide (c ∈ target_loads_separators))).length =
        rest.length := by
  have hdig : ∀ t : List Char, (∀ c ∈ t, isdigit c = true) →
      t.filter (fun c => decide (c ∈ target_loads_separators)) = [] := by
    intro t ht
    rw [List.filter_eq_nil_iff]
    intro a ha
    simpa using isdigit_not_separator (ht a ha)
  induction rest with
  | nil =>
    intro t ht _
    show (t.filter _).length = 0
    rw [hdig t ht]
    rfl
  | cons p rest2 ih =>
    intro t ht hrest
    obtain ⟨sep, t2⟩ := p
    obtain ⟨hs, ht2⟩ := hrest (sep, t2) (List.mem_cons_self _ _)
    show ((t ++ sep :: join_tokens t2 rest2).filter _).length = rest2.length + 1
    rw [List.filter_append, hdig t ht, List.nil_append, List.filter_cons]
    simp only [hs, decide_True, if_true, List.length_cons]
    rw [ih t2 ht2 (fun q hq => hrest q (List.mem_cons_of_mem _ hq))]

/-- The parse loop of `store_target_loads` on a string of decimal tokens
stores the value of every token, in order, and ends past the last index. -/
theorem store_parse_join_tokens (ntokens : Nat) (rest : List (Char × List Char)) :
    ∀ (t : List Char) (i : Nat) (loads : List Nat) (fuel : Nat),
      decimal_u32 t →
      (∀ p ∈ rest, p.1 ∈ target_loads_separators ∧ decimal_u32 p.2) →
      rest.length < fuel → i + rest.length + 1 = ntokens →
      store_parse sscanf_u fuel (join_tokens t rest) i ntokens loads =
        some (.done ntokens (loads ++ (t :: rest.map Prod.snd).map digits_value)) := by
  induction rest with
  | nil =>
    intro t i loads fuel ht _ hfuel hi
    cases fuel with
    | zero => simp at hfuel
    | succ fuel =>
      unfold store_parse
      rw [if_pos (by omega), sscanf_u_join_tokens t ht [] (by simp)]
      dsimp only
      rw [strpbrk_join_tokens t ht.2.1 [] (by simp)]
      simp only [List.length_nil, Nat.add_zero] at hi
      simp [hi]
  | cons p rest2 ih =>
    intro t i loads fuel ht hrest hfuel hi
    obtain ⟨sep, t2⟩ := p
    have hseps : ∀ q ∈ (sep, t2) :: rest2, q.1 ∈ target_loads_separators :=
      fun q hq => (hrest q hq).1
    obtain ⟨_, ht2⟩ := hrest (sep, t2) (List.mem_cons_self _ _)
    cases fuel with
    | zero => simp at hfuel
    | succ fuel =>
      unfold store_parse
      rw [if_pos (by simp at hi; omega), sscanf_u_join_tokens t ht _ hseps]
      dsimp only
      rw [strpbrk_join_tokens t ht.2.1 _ hseps]
      dsimp only
      rw [List.tail_cons,
        ih t2 (i + 1) (loads ++ [digits_value t]) fuel ht2
          (fun q hq => hrest q (List.mem_cons_of_mem _ hq))
          (by simp at hfuel; omega) (by simp at hi; omega)]
      simp

/-- Claim C20: for every input made of an odd number `k` of decimal unsigned
32-bit integers, each after the first preceded by a single space or colon,
`store_target_loads` (with memory available) returns the byte count it was
given and leaves the other knobs of the profile as they were, its list being
exactly the `k` integers in input order and `ntarget_loads = k`; so
`freq_to_targetload` then scans that list. -/
theorem store_target_loads_accepts (values : interactive_vaules) (t0 : List Char)
    (rest : List (Char × List Char)) (count : Nat)
    (h0 : decimal_u32 t0)
    (hrest : ∀ p ∈ rest, p.1 ∈ target_loads_separators ∧ decimal_u32 p.2)
    (hodd : (rest.length + 1) % 2 = 1) :
    store_target_loads sscanf_u true values (join_tokens t0 rest) count =
      some { ret := count
             values := { values with
               target_loads := (t0 :: rest.map Prod.snd).map digits_value
               ntarget_loads := rest.length + 1 } } ∧
    ((t0 :: rest.map Prod.snd).map digits_value).length = rest.length + 1 ∧
    ∀ freq,
      freq_to_targetload_of
        { values with
          target_loads := (t0 :: rest.map Prod.snd).map digits_value
          ntarget_loads := rest.length + 1 } freq =
      freq_to_targetload_scan ((t0 :: rest.map Prod.snd).map digits_value)
        (rest.length + 1) freq (rest.length + 1 + 1) 0 := by
  refine ⟨?_, by simp, fun _ => rfl⟩
  have hne := h0.1
  have hd := h0.2.1
  have hbuf : join_tokens t0 rest ≠ [] := by
    cases t0 with
    | nil => exact absurd rfl hne
    | cons c ds => rw [join_tokens_cons]; simp
  have htc : token_count (join_tokens t0 rest) = rest.length + 1 := by
    cases t0 with
    | nil => exact absurd rfl hne
    | cons c ds =>
      unfold token_count
      rw [join_tokens_cons, List.tail_cons,
        filter_join_tokens rest ds (fun d hdm => hd d (List.mem_cons_of_mem _ hdm))
          (fun p hp => ⟨(hrest p hp).1, (hrest p hp).2.2.1⟩)]
      omega
  unfold store_target_loads
  rw [store_count_tokens_eq _ hbuf, htc]
  dsimp only
  rw [if_neg (by omega), if_neg (by decide),
    store_parse_join_tokens (rest.length + 1) rest t0 0 [] (rest.length + 1 + 1) h0 hrest
      (by omega) (by omega)]
  dsimp only
  rw [if_neg (by simp)]
  simp

/-- Claim C20 at a concrete input: the string `85 1500000:90` written to the
busy profile installs the list 85, 1500000, 90, after which the target load
is 85 below 1500000 kHz and 90 from there on. -/
theorem store_target_loads_accepts_witness :
    join_tokens ['8', '5']
        [(' ', ['1', '5', '0', '0', '0', '0', '0']), (':', ['9', '0'])] =
      ['8', '5', ' ', '1', '5', '0', '0', '0', '0', '0', ':', '9', '0'] ∧
    store_target_loads sscanf_u true busy_values
        ['8', '5', ' ', '1', '5', '0', '0', '0', '0', '0', ':', '9', '0'] 13 =
      some { ret := 13
             values := { busy_values with
               target_loads := [85, 1500000, 90], ntarget_loads := 3 } } ∧
    freq_to_targetload_of
      { busy_values with target_loads := [85, 1500000, 90], ntarget_loads := 3 } 1026000 =
      some 85 ∧
    freq_to_targetload_of
      { busy_values with target_loads := [85, 1500000, 90], ntarget_loads := 3 } 1512000 =
      some 90 :=
  ⟨by decide,
    (store_target_loads_accepts busy_values ['8', '5']
      [(' ', ['1', '5', '0', '0', '0', '0', '0']), (':', ['9', '0'])] 13
      (by unfold decimal_u32; decide)
      (by unfold decimal_u32; decide)
      (by decide)).1,
    by decide, by decide⟩

/-! ## Claim C21: monotonicity of `freq_to_targetload` -/

/-- The scan of `freq_to_targetload` started at an even index returns a load
at an even index at or after it, and a load it moved on to is not 0. -/
theorem freq_to_targetload_scan_index (l : List Nat) (n freq : Nat) :
    ∀ (fuel k t : Nat), freq_to_targetload_scan l n freq fuel (2 * k) = some t →
      ∃ m, l[2 * (k + m)]? = some t ∧ (m ≠ 0 → t ≠ 0) := by
  intro fuel
  induction fuel with
  | zero =>
    intro k t h
    unfold freq_to_targetload_scan at h
    cases h
  | succ fuel ih =>
    intro k t h
    unfold freq_to_targetload_scan at h
    by_cases h1 : 2 * k + 1 < n
    · rw [if_pos h1] at h
      cases hb : l[2 * k + 1]? with
      | none => rw [hb] at h; cases h
      | some b =>
        rw [hb] at h
        dsimp only at h
        by_cases h2 : freq ≥ b
        · rw [if_pos h2] at h
          cases hn : l[2 * k + 2]? with
          | none => rw [hn] at h; cases h
          | some nx =>
            rw [hn] at h
            dsimp only at h
            by_cases h3 : nx ≠ 0
            · rw [if_pos h3] at h
              obtain ⟨m, hm, hm0⟩ := ih (k + 1) t h
              refine ⟨m + 1, by rw [← hm]; congr 1; omega, fun _ => ?_⟩
              by_cases hz : m = 0
              · subst hz
                have e : 2 * (k + 1 + 0) = 2 * k + 2 := by omega
                have : l[2 * k + 2]? = some t := by rw [← e]; exact hm
                rw [hn] at this
                cases this
                exact h3
              · exact hm0 hz
            · rw [if_neg h3] at h
              exact ⟨0, h, fun hc => absurd rfl hc⟩
        · rw [if_neg h2] at h
          exact ⟨0, h, fun hc => absurd rfl hc⟩
    · rw [if_neg h1] at h
      exact ⟨0, h, fun hc => absurd rfl hc⟩

/-- Two scans of the same list from the same even index: the one with the
higher frequency returns a load that is at least that of the other, when the
loads of the list do not decrease. -/
theorem freq_to_targetload_scan_mono (l : List Nat) (n f1 f2 : Nat) (hf : f1 ≤ f2)
    (hsorted : loads_sorted l) :
    ∀ (fuel k t1 t2 : Nat), freq_to_targetload_scan l n f1 fuel (2 * k) = some t1 →
      freq_to_targetload_scan l n f2 fuel (2 * k) = some t2 → t1 ≤ t2 := by
  intro fuel
  induction fuel with
  | zero =>
    intro k t1 t2 h
    unfold freq_to_targetload_scan at h
    cases h
  | succ fuel ih =>
    intro k t1 t2 ha hb
    have hb0 := hb
    unfold freq_to_targetload_scan at ha hb
    have same : l[2 * k]? = some t1 → l[2 * k]? = some t2 → t1 ≤ t2 := by
      intro x y
      rw [x] at y
      cases y
      exact le_refl _
    by_cases h1 : 2 * k + 1 < n
    · rw [if_pos h1] at ha hb
      cases hbd : l[2 * k + 1]? with
      | none => rw [hbd] at ha; cases ha
      | some b =>
        rw [hbd] at ha hb
        dsimp only at ha hb
        by_cases h2 : f1 ≥ b
        · rw [if_pos h2] at ha
          rw [if_pos (show f2 ≥ b by omega)] at hb
          cases hn : l[2 * k + 2]? with
          | none => rw [hn] at ha; cases ha
          | some nx =>
            rw [hn] at ha hb
            dsimp only at ha hb
            by_cases h3 : nx ≠ 0
            · rw [if_pos h3] at ha hb
              exact ih (k + 1) t1 t2 ha hb
            · rw [if_neg h3] at ha hb
              exact same ha hb
        · rw [if_neg h2] at ha
          obtain ⟨m, hm, hm0⟩ := freq_to_targetload_scan_index l n f2 (fuel + 1) k t2 hb0
          by_cases hz : m = 0
          · subst hz
            exact same ha hm
          · exact hsorted k (k + m) t1 t2 (by omega) ha hm (hm0 hz)
    · rw [if_neg h1] at ha hb
      exact same ha hb

/-- The step function of a default profile: a list of four loads `a`, `b`,
`c`, `d` with the boundaries 702000, 1026000 and 1350000, padded with zeros
to 11 slots. -/
theorem default_profile_targetload (values : interactive_vaules) (a b c d : Nat)
    (hl : values.target_loads = [a, 702000, b, 1026000, c, 1350000, d, 0, 0, 0, 0])
    (hn : values.ntarget_loads = 11) (hb : b ≠ 0) (hc : c ≠ 0) (hd : d ≠ 0) (f : Nat) :
    freq_to_targetload_of values f =
      some (if f < 702000 then a else if f < 1026000 then b
            else if f < 1350000 then c else d) := by
  simp only [freq_to_targetload_of, hl, hn, freq_to_targetload_scan]
  by_cases h1 : f < 702000
  · simp [h1]
  · by_cases h2 : f < 1026000
    · simp [h1, h2, Nat.not_lt.mp h1, hb]
    · by_cases h3 : f < 1350000
      · simp [h1, h2, h3, Nat.not_lt.mp h1, Nat.not_lt.mp h2, hb, hc]
      · simp [h1, h2, h3, Nat.not_lt.mp h1, Nat.not_lt.mp h2, Nat.not_lt.mp h3, hb, hc, hd]

/-- The target loads are non-decreasing in the frequency for every profile
whose loads do not decrease. -/
theorem freq_to_targetload_of_monotone (values : interactive_vaules)
    (hsorted : loads_sorted values.target_loads) :
    loads_monotone (freq_to_targetload_of values) := by
  intro f1 f2 t1 t2 hle h1 h2
  unfold freq_to_targetload_of at h1 h2
  exact freq_to_targetload_scan_mono values.target_loads values.ntarget_loads f1 f2 hle hsorted
    (values.ntarget_loads + 1) 0 t1 t2 h1 h2

/-- The target loads of a default profile with increasing loads are
non-decreasing in the frequency. -/
theorem default_profile_monotone (values : interactive_vaules) (a b c d : Nat)
    (hl : values.target_loads = [a, 702000, b, 1026000, c, 1350000, d, 0, 0, 0, 0])
    (hn : values.ntarget_loads = 11) (hb : b ≠ 0) (hc : c ≠ 0) (hd : d ≠ 0)
    (hab : a ≤ b) (hbc : b ≤ c) (hcd : c ≤ d) :
    loads_monotone (freq_to_targetload_of values) := by
  intro f1 f2 t1 t2 hle h1 h2
  rw [default_profile_targetload values a b c d hl hn hb hc hd] at h1 h2
  cases h1
  cases h2
  split_ifs <;> omega

/-- Claim C21, counterexample: `store_target_loads` accepts the string
`90 1000000:50`, after which the target load is 90 at 384000 kHz and 50 at
1512000 kHz. -/
theorem freq_to_targetload_decreasing_counterexample :
    store_target_loads sscanf_u true busy_values decreasing_loads_input 13 =
      some { ret := 13, values := decreasing_loads_values } ∧
    freq_to_targetload { default_tunables with busy := decreasing_loads_values } 0 384000 =
      some 90 ∧
    freq_to_targetload { default_tunables with busy := decreasing_loads_values } 0 1512000 =
      some 50 ∧
    ¬ loads_monotone
        (freq_to_targetload { default_tunables with busy := decreasing_loads_values } 0) := by
  refine ⟨by decide, by decide, by decide, ?_⟩
  intro h
  have := h 384000 1512000 90 50 (by decide) (by decide) (by decide)
  omega

/-- Claim C21, amended: `freq_to_targetload` is non-decreasing in the frequency
for the three default profiles, and for every profile whose loads (the
elements at even positions of its list) do not decrease; `store_target_loads`
does not check the order of the loads it installs. -/
theorem freq_to_targetload_monotone (g : tunables) (ktime_ms : Nat) :
    (loads_sorted (targetload_values g ktime_ms).target_loads →
      loads_monotone (freq_to_targetload g ktime_ms)) ∧
    (g.boost = boost_values → g.busy = busy_values → g.idle = idle_values →
      loads_monotone (freq_to_targetload g ktime_ms)) := by
  constructor
  · intro hsorted
    exact freq_to_targetload_of_monotone _ hsorted
  · intro h1 h2 h3
    have hboost : loads_monotone (freq_to_targetload_of boost_values) :=
      default_profile_monotone boost_values 30 40 50 65 rfl rfl (by decide) (by decide)
        (by decide) (by decide) (by decide) (by decide)
    have hbusy : loads_monotone (freq_to_targetload_of busy_values) :=
      default_profile_monotone busy_values 40 50 60 70 rfl rfl (by decide) (by decide)
        (by decide) (by decide) (by decide) (by decide)
    have hidle : loads_monotone (freq_to_targetload_of idle_values) :=
      default_profile_monotone idle_values 60 70 80 90 rfl rfl (by decide) (by decide)
        (by decide) (by decide) (by decide) (by decide)
    show loads_monotone (freq_to_targetload_of (targetload_values g ktime_ms))
    unfold targetload_values
    split_ifs
    · rw [h3]; exact hidle
    · rw [h1]; exact hboost
    · rw [h2]; exact hbusy

/-- The loads 85 and 90 of the list `85 1500000:90` do not decrease. -/
theorem stored_values_sorted : loads_sorted stored_values.target_loads := by
  intro i j a b hij ha hb _
  have hj : j < 2 := by
    by_contra hc
    rw [List.getElem?_eq_none (by simp [stored_values]; omega)] at hb
    cases hb
  have hcases : (i = 0 ∧ j = 0) ∨ (i = 0 ∧ j = 1) ∨ (i = 1 ∧ j = 1) := by omega
  rcases hcases with ⟨rfl, rfl⟩ | ⟨rfl, rfl⟩ | ⟨rfl, rfl⟩
  · rw [ha] at hb; cases hb; exact le_refl _
  · simp [stored_values] at ha hb
    omega
  · rw [ha] at hb; cases hb; exact le_refl _

/-- Claim C21 at concrete inputs: the profile stored from `85 1500000:90` and
the default busy profile, at 1026000 and 1512000 kHz. -/
theorem freq_to_targetload_monotone_witness :
    freq_to_targetload { default_tunables with busy := stored_values } 0 1026000 = some 85 ∧
    freq_to_targetload { default_tunables with busy := stored_values } 0 1512000 = some 90 ∧
    85 ≤ 90 ∧
    loads_monotone (freq_to_targetload default_tunables 0) :=
  ⟨by decide, by decide,
    (freq_to_targetload_monotone { default_tunables with busy := stored_values } 0).1
      stored_values_sorted 1026000 1512000 85 90 (by decide) (by decide) (by decide),
    (freq_to_targetload_monotone default_tunables 0).2 rfl rfl rfl⟩

/-! ## Claims C23 and C24: governor START, STOP and a disabled CPU -/

/-- The record `governor_start_cpu` leaves is enabled and has its timer
pending. -/
theorem governor_start_cpu_enabled (policy_ref : Nat) (policy : cpufreq_policy)
    (freq_table : List Nat) (ktime_us jiffies : Nat) (usecs_to_jiffies : Nat → Nat)
    (g : tunables) (pcpu : cpufreq_interactive_cpuinfo) :
    (governor_start_cpu policy_ref policy freq_table ktime_us jiffies usecs_to_jiffies g
      pcpu).governor_enabled = true ∧
    (governor_start_cpu policy_ref policy freq_table ktime_us jiffies usecs_to_jiffies g
      pcpu).cpu_timer.pending = true := by
  unfold governor_start_cpu
  dsimp only
  split_ifs <;> exact ⟨rfl, rfl⟩

/-- After the loop of START every CPU of the list is enabled with its timer
pending, and so is every CPU that was before. -/
theorem governor_start_cpus_enabled (inp : start_input) (g : tunables)
    (policy : cpufreq_policy) (cpus : List Nat) :
    ∀ (cpuinfo : Nat → cpufreq_interactive_cpuinfo) (j : Nat),
      (j ∈ cpus ∨ ((cpuinfo j).governor_enabled = true ∧
        (cpuinfo j).cpu_timer.pending = true)) →
      (governor_start_cpus inp g policy cpus cpuinfo j).governor_enabled = true ∧
      (governor_start_cpus inp g policy cpus cpuinfo j).cpu_timer.pending = true := by
  induction cpus with
  | nil =>
    intro cpuinfo j h
    rcases h with h | h
    · simp at h
    · exact h
  | cons c rest ih =>
    intro cpuinfo j h
    unfold governor_start_cpus
    apply ih
    by_cases hjc : j = c
    · right
      rw [if_pos hjc]
      exact governor_start_cpu_enabled _ _ _ _ _ _ _ _
    · rcases h with h | h
      · rcases List.mem_cons.mp h with h | h
        · exact absurd h hjc
        · exact Or.inl h
      · right
        rw [if_neg hjc]
        exact h

/-- After the loop of STOP every CPU of the list is disabled with no timer
pending. -/
theorem governor_stop_cpus_disabled (cpus : List Nat) :
    ∀ (cpuinfo : Nat → cpufreq_interactive_cpuinfo) (j : Nat),
      (j ∈ cpus ∨ ((cpuinfo j).governor_enabled = false ∧
        (cpuinfo j).cpu_timer.pending = false ∧
        (cpuinfo j).cpu_slack_timer.pending = false)) →
      (governor_stop_cpus cpus cpuinfo j).governor_enabled = false ∧
      (governor_stop_cpus cpus cpuinfo j).cpu_timer.pending = false ∧
      (governor_stop_cpus cpus cpuinfo j).cpu_slack_timer.pending = false := by
  induction cpus with
  | nil =>
    intro cpuinfo j h
    rcases h with h | h
    · simp at h
    · exact h
  | cons c rest ih =>
    intro cpuinfo j h
    unfold governor_stop_cpus
    apply ih
    by_cases hjc : j = c
    · right
      rw [if_pos hjc]
      exact ⟨rfl, rfl, rfl⟩
    · rcases h with h | h
      · rcases List.mem_cons.mp h with h | h
        · exact absurd h hjc
        · exact Or.inl h
      · right
        rw [if_neg hjc]
        exact h

/-- Claim C23: a first START (`active_count = 0`) in which `sysfs_create_group`
fails returns the error and tears nothing down: `active_count` is 1 afterwards
and every CPU of the policy is enabled with its timer pending. -/
theorem start_failure_not_torn_down (inp : start_input) (g : tunables)
    (policy : cpufreq_policy) (st : governor_state)
    (honline : inp.cpu_online = true) (hcount : st.active_count = 0)
    (hfail : inp.sysfs_create_group ≠ 0) :
    (cpufreq_governor_interactive_start inp g policy st).ret = inp.sysfs_create_group ∧
    (cpufreq_governor_interactive_start inp g policy st).st.active_count = 1 ∧
    ∀ j ∈ policy.cpus,
      ((cpufreq_governor_interactive_start inp g policy st).st.cpuinfo j).governor_enabled
        = true ∧
      ((cpufreq_governor_interactive_start inp g policy st).st.cpuinfo j).cpu_timer.pending
        = true := by
  have hr : cpufreq_governor_interactive_start inp g policy st =
      { ret := inp.sysfs_create_group
        st := { st with
          cpuinfo := governor_start_cpus inp g policy policy.cpus st.cpuinfo
          active_count := st.active_count + 1 } } := by
    unfold cpufreq_governor_interactive_start
    rw [if_neg (by simp [honline])]
    dsimp only
    rw [if_neg (by rw [hcount]; decide), if_pos hfail]
  rw [hr]
  refine ⟨rfl, by simp [hcount], ?_⟩
  intro j hj
  exact governor_start_cpus_enabled inp g policy policy.cpus st.cpuinfo j (Or.inl hj)

/-- Claim C23 at a concrete input: the first START of a four-CPU policy from
the boot state with `sysfs_create_group` returning -12 leaves `active_count`
at 1, nothing registered, and the four CPUs enabled with their timers pending;
a second START then succeeds without creating the attribute group. -/
theorem start_failure_not_torn_down_witness :
    governor_summary (cpufreq_governor_interactive_start failing_start_input default_tunables
      policy_at_min boot_governor_state) =
      (-12, 1, false, false, false, [(true, true), (true, true), (true, true), (true, true)]) ∧
    governor_summary (cpufreq_governor_interactive_start
      { failing_start_input with sysfs_create_group := 0 } default_tunables policy_at_min
      (cpufreq_governor_interactive_start failing_start_input default_tunables
        policy_at_min boot_governor_state).st) =
      (0, 2, false, false, false, [(true, true), (true, true), (true, true), (true, true)]) ∧
    (cpufreq_governor_interactive_start failing_start_input default_tunables
      policy_at_min boot_governor_state).st.active_count = 1 :=
  ⟨rfl, rfl,
    (start_failure_not_torn_down failing_start_input default_tunables policy_at_min
      boot_governor_state rfl rfl (by decide)).2.1⟩

/-- Claim C24: a run of the timer function on a per-CPU record with
`governor_enabled` false returns with the whole record as it was, so
`target_freq`, `floor_freq`, `floor_validate_time`, `hispeed_validate_time`,
the four load-accounting fields and both timers are unchanged; the mask
`speedchange_cpumask` is unchanged and the worker is not woken.  The records
of the CPUs of a policy are in that state after governor STOP, with no timer
pending. -/
theorem timer_disabled_noop (inp : timer_input) (g : tunables) (policy : cpufreq_policy)
    (data : Nat) (p : cpufreq_interactive_cpuinfo) (mask : Nat → Bool)
    (h : p.governor_enabled = false) :
    cpufreq_interactive_timer inp g policy data p mask =
      some { pcpu := p, speedchange_cpumask := mask, woken := false } ∧
    ∀ (policy2 : cpufreq_policy) (st : governor_state) (j : Nat), j ∈ policy2.cpus →
      ((cpufreq_governor_interactive_stop policy2 st).st.cpuinfo j).governor_enabled = false ∧
      ((cpufreq_governor_interactive_stop policy2 st).st.cpuinfo j).cpu_timer.pending
        = false ∧
      ((cpufreq_governor_interactive_stop policy2 st).st.cpuinfo j).cpu_slack_timer.pending
        = false ∧
      cpufreq_interactive_timer inp g policy data
        ((cpufreq_governor_interactive_stop policy2 st).st.cpuinfo j) mask =
        some { pcpu := (cpufreq_governor_interactive_stop policy2 st).st.cpuinfo j
               speedchange_cpumask := mask, woken := false } := by
  have key : ∀ q : cpufreq_interactive_cpuinfo, q.governor_enabled = false →
      cpufreq_interactive_timer inp g policy data q mask =
        some { pcpu := q, speedchange_cpumask := mask, woken := false } := by
    intro q hq
    unfold cpufreq_interactive_timer
    by_cases ht : inp.trylock = true
    · rw [if_neg (by simp [ht]), if_pos (by simp [hq])]
      rfl
    · rw [if_pos (by simpa using ht)]
      rfl
  refine ⟨key p h, ?_⟩
  intro policy2 st j hj
  have hstop : (cpufreq_governor_interactive_stop policy2 st).st.cpuinfo =
      governor_stop_cpus policy2.cpus st.cpuinfo := by
    unfold cpufreq_governor_interactive_stop
    dsimp only
    split_ifs <;> rfl
  rw [hstop]
  obtain ⟨h1, h2, h3⟩ := governor_stop_cpus_disabled policy2.cpus st.cpuinfo j (Or.inl hj)
  exact ⟨h1, h2, h3, key _ h1⟩

/-- Claim C24 at concrete inputs: a CPU that was never started, and CPU 0 after
a START followed by a STOP. -/
theorem timer_disabled_noop_witness :
    cpufreq_interactive_timer (timer_input_at 1020000 10000) default_tunables policy_at_min 0
        boot_cpuinfo (fun _ => false) =
      some { pcpu := boot_cpuinfo, speedchange_cpumask := fun _ => false, woken := false } ∧
    governor_summary (cpufreq_governor_interactive_stop policy_at_min
      (cpufreq_governor_interactive_start { failing_start_input with sysfs_create_group := 0 }
        default_tunables policy_at_min boot_governor_state).st) =
      (0, 0, false, false, false,
        [(false, false), (false, false), (false, false), (false, false)]) :=
  ⟨(timer_disabled_noop (timer_input_at 1020000 10000) default_tunables policy_at_min 0
      boot_cpuinfo (fun _ => false) rfl).1,
    rfl⟩

/-! ## Claim C26: the stores of `min_sample_time` -/

/-- Claim C26: for every input that `strict_strtoul` converts to a value `v`,
a write to `idle_min_sample_time` returns `count`, sets
`busy_values.min_sample_time = v` and leaves `idle_values` as it was, and a
write to `busy_min_sample_time` returns `count`, sets
`idle_values.min_sample_time = v` and leaves `busy_values` as it was; so
reading `busy_min_sample_time` after writing it shows the value it had
before. -/
theorem min_sample_time_stores_swapped (strict_strtoul : List Char → strtoul_result)
    (g : tunables) (buf : List Char) (count v : Nat)
    (hok : ¬ (strict_strtoul buf).ret < 0) (hv : (strict_strtoul buf).val = v) :
    ((store_idle_min_sample_time strict_strtoul g buf count).1 = count ∧
      (store_idle_min_sample_time strict_strtoul g buf count).2.busy.min_sample_time = v ∧
      (store_idle_min_sample_time strict_strtoul g buf count).2.idle = g.idle ∧
      show_idle_min_sample_time (store_idle_min_sample_time strict_strtoul g buf count).2 =
        show_idle_min_sample_time g) ∧
    ((store_busy_min_sample_time strict_strtoul g buf count).1 = count ∧
      (store_busy_min_sample_time strict_strtoul g buf count).2.idle.min_sample_time = v ∧
      (store_busy_min_sample_time strict_strtoul g buf count).2.busy = g.busy ∧
      show_busy_min_sample_time (store_busy_min_sample_time strict_strtoul g buf count).2 =
        show_busy_min_sample_time g) := by
  simp [store_idle_min_sample_time, store_busy_min_sample_time, store_min_sample_time,
    show_idle_min_sample_time, show_busy_min_sample_time, hok, hv]

/-- Claim C26 at a concrete input: writing `40000` to `busy_min_sample_time`
with the default profiles sets the idle value to 40000 and leaves the busy
value at 60000. -/
theorem min_sample_time_stores_swapped_witness :
    (store_busy_min_sample_time decimal_strtoul default_tunables
      ['4', '0', '0', '0', '0'] 6).2.idle.min_sample_time = 40000 ∧
    show_busy_min_sample_time (store_busy_min_sample_time decimal_strtoul default_tunables
      ['4', '0', '0', '0', '0'] 6).2 = 60000 ∧
    show_busy_min_sample_time default_tunables = 60000 :=
  ⟨(min_sample_time_stores_swapped decimal_strtoul default_tunables
      ['4', '0', '0', '0', '0'] 6 40000 (by decide) (by decide)).2.2.1,
    by decide, by decide⟩

/-! ## Claim C25: the tick that takes neither branch -/

/-- The final `else` branch of a decider tick, for counters that are `short`
values and a clock that does not wrap. -/
theorem hotplug_hold_spec (st : hotplug_state) (down_val : Nat) (hd : down_val ≤ 7)
    (hnow : st.now + BOOST_TIME / 2 < 18446744073709551616)
    (hf : st.first_counter ≤ 32767) (ht : st.third_counter ≤ 32767) :
    (hotplug_hold st down_val).coreboost_endtime =
      max st.coreboost_endtime (st.now + BOOST_TIME / 2) ∧
    (hotplug_hold st down_val).first_counter =
      (if st.first_counter > 0 then st.first_counter - down_val else st.first_counter) ∧
    (hotplug_hold st down_val).third_counter =
      (if st.third_counter > 0 then st.third_counter - down_val else st.third_counter) := by
  have hu : u64 (st.now + BOOST_TIME / 2) = st.now + BOOST_TIME / 2 := Nat.mod_eq_of_lt hnow
  have hs : ∀ x : Int, 0 < x → x ≤ 32767 → to_short (x - down_val) = x - down_val := by
    intro x h1 h2
    unfold to_short
    omega
  by_cases hc : st.now + BOOST_TIME / 2 > st.coreboost_endtime <;>
  by_cases h1 : st.first_counter > 0 <;>
  by_cases h3 : st.third_counter > 0 <;>
  simp only [hotplug_hold, hu, hc, h1, h3, if_true, if_false] <;>
  refine ⟨by omega, ?_, ?_⟩ <;>
  first | exact hs _ h1 hf | exact hs _ h3 ht | trivial

/-- Claim C25: for every decider tick whose average load lies strictly between
the down threshold `D(n)` and the up threshold `U(n)`, the tick returns, no
`cpu_up` or `cpu_down` is requested, the set of online CPUs is unchanged,
`coreboost_endtime` becomes `max(coreboost_endtime, now + BOOST_TIME / 2)` and
each counter that is positive is reduced by `down_val`, the other left as it
is.  The counters are `short` values and the clock is below `2^64 - 1500`. -/
theorem hotplug_hold_branch (inp : hotplug_input) (st : hotplug_state) (av_load : Nat)
    (cpuload : Nat → cpu_load_data) (up_level down_level : Nat)
    (hav : hotplug_av_load inp { st with now := inp.ktime_ms } = some (av_load, cpuload))
    (hup : scale_first_level inp.gpu_idle (possible_cpus.filter st.cpu_online).length
      = some up_level)
    (hdown : scale_third_level inp.gpu_idle (possible_cpus.filter st.cpu_online).length
      = some down_level)
    (hlt : av_load < up_level) (hgt : down_level < av_load)
    (hnow : inp.ktime_ms + BOOST_TIME / 2 < 18446744073709551616)
    (hf : st.first_counter ≤ 32767) (ht : st.third_counter ≤ 32767) :
    ∃ st2, decide_hotplug_func inp st = some st2 ∧
      st2.requests = st.requests ∧ st2.cpu_online = st.cpu_online ∧
      st2.coreboost_endtime = max st.coreboost_endtime (inp.ktime_ms + BOOST_TIME / 2) ∧
      st2.first_counter =
        (if st.first_counter > 0 then
          st.first_counter - ((hotplug_vals inp { st with now := inp.ktime_ms }
            (possible_cpus.filter st.cpu_online).length).2 : Nat)
         else st.first_counter) ∧
      st2.third_counter =
        (if st.third_counter > 0 then
          st.third_counter - ((hotplug_vals inp { st with now := inp.ktime_ms }
            (possible_cpus.filter st.cpu_online).length).2 : Nat)
         else st.third_counter) := by
  have hsel : hotplug_select inp.gpu_idle (possible_cpus.filter st.cpu_online).length av_load
      = some .hold := by
    unfold hotplug_select
    rw [hup]
    dsimp only
    rw [if_neg (by omega), hdown]
    dsimp only
    rw [if_neg (by omega)]
  have hd : (hotplug_vals inp { st with now := inp.ktime_ms }
      (possible_cpus.filter st.cpu_online).length).2 ≤ 7 := by
    rcases hotplug_vals_down inp { st with now := inp.ktime_ms }
      (possible_cpus.filter st.cpu_online).length with h | h | h <;> omega
  have hres : decide_hotplug_func inp st =
      some (hotplug_hold { st with now := inp.ktime_ms, cpuload := cpuload }
        (hotplug_vals inp { st with now := inp.ktime_ms }
          (possible_cpus.filter st.cpu_online).length).2) := by
    unfold decide_hotplug_func
    simp only [hav, hotplug_decide, hsel]
    rfl
  obtain ⟨h1, h2, h3⟩ := hotplug_hold_spec { st with now := inp.ktime_ms, cpuload := cpuload }
    (hotplug_vals inp { st with now := inp.ktime_ms }
      (possible_cpus.filter st.cpu_online).length).2 hd hnow hf ht
  obtain ⟨h4, h5⟩ := hotplug_hold_frame { st with now := inp.ktime_ms, cpuload := cpuload }
    (hotplug_vals inp { st with now := inp.ktime_ms }
      (possible_cpus.filter st.cpu_online).length).2
  exact ⟨_, hres, h4, h5, h1, h2, h3⟩

/-- Claim C25 at a concrete input: scenario D (GPU idle, three CPUs online,
average load 85 between 50 and 90) with `first_counter = 44`,
`third_counter = 12` and the core boost running until 7000 ms: both counters
lose `down_val = 6` and the boost deadline stays at 7000 > 5000 + 1500. -/
theorem hotplug_hold_branch_witness :
    hotplug_summary (decide_hotplug_func scenario_D_input scenario_D_hold_state) =
      some (38, 6, 7000, [], [0, 1, 2]) ∧
    ∃ st2, decide_hotplug_func scenario_D_input scenario_D_hold_state = some st2 ∧
      st2.requests = scenario_D_hold_state.requests ∧
      st2.cpu_online = scenario_D_hold_state.cpu_online ∧
      st2.coreboost_endtime =
        max scenario_D_hold_state.coreboost_endtime (scenario_D_input.ktime_ms + BOOST_TIME / 2) ∧
      st2.first_counter =
        (if scenario_D_hold_state.first_counter > 0 then
          scenario_D_hold_state.first_counter -
            ((hotplug_vals scenario_D_input
              { scenario_D_hold_state with now := scenario_D_input.ktime_ms }
              (possible_cpus.filter scenario_D_hold_state.cpu_online).length).2 : Nat)
         else scenario_D_hold_state.first_counter) ∧
      st2.third_counter =
        (if scenario_D_hold_state.third_counter > 0 then
          scenario_D_hold_state.third_counter -
            ((hotplug_vals scenario_D_input
              { scenario_D_hold_state with now := scenario_D_input.ktime_ms }
              (possible_cpus.filter scenario_D_hold_state.cpu_online).length).2 : Nat)
         else scenario_D_hold_state.third_counter) :=
  ⟨by decide,
    hotplug_hold_branch scenario_D_input scenario_D_hold_state 85
      (hotplug_cpuload_of (hotplug_av_load scenario_D_input
        { scenario_D_hold_state with now := scenario_D_input.ktime_ms }))
      90 50 rfl (by decide) (by decide) (by decide) (by decide) (by decide) (by decide)
      (by decide)⟩

/-! ## Claim C28: the counters do not overflow -/

/-- Claim C28: in every state reachable from an initial state with both
counters 0 by decider ticks, suspends and resumes, `first_counter` is in
[-6, 64] and `third_counter` in [-50, 56]; both are far inside the range of a
16-bit signed value, and adding or subtracting any step of at most 15 to
either gives a value that the truncation to `short` leaves as it is. -/
theorem hotplug_counters_no_overflow (st : hotplug_state) (h : hotplug_reachable st) :
    (-6 ≤ st.first_counter ∧ st.first_counter ≤ 64) ∧
    (-50 ≤ st.third_counter ∧ st.third_counter ≤ 56) ∧
    (-32768 ≤ st.first_counter ∧ st.first_counter ≤ 32767 ∧
      -32768 ≤ st.third_counter ∧ st.third_counter ≤ 32767) ∧
    ∀ v : Nat, v ≤ 15 →
      to_short (st.first_counter + v) = st.first_counter + v ∧
      to_short (st.first_counter - v) = st.first_counter - v ∧
      to_short (st.third_counter + v) = st.third_counter + v ∧
      to_short (st.third_counter - v) = st.third_counter - v := by
  obtain ⟨h1, h2, h3, h4⟩ := hotplug_reachable_counters h
  refine ⟨⟨h1, h2⟩, ⟨h3, h4⟩, ⟨by omega, by omega, by omega, by omega⟩, ?_⟩
  intro v hv
  unfold to_short
  refine ⟨by omega, by omega, by omega, by omega⟩

/-- Claim C28 at a concrete state: the state after eight ticks with the GPU
idle, one CPU online and no load, in which `third_counter` is 48. -/
theorem hotplug_counters_no_overflow_witness :
    (hotplug_run idle_load_input hotplug_initial 8).third_counter = 48 ∧
    to_short ((hotplug_run idle_load_input hotplug_initial 8).third_counter + (15 : Nat)) =
      (hotplug_run idle_load_input hotplug_initial 8).third_counter + (15 : Nat) :=
  ⟨by decide,
    ((hotplug_counters_no_overflow _
      (hotplug_run_reachable idle_load_input (hotplug_reachable.init hotplug_initial rfl rfl) 8)
      ).2.2.2 15 (le_refl _)).2.2.1⟩

/-! ## Claim C30: the default profiles -/

/-- Claim C30: for each of the three default profiles `freq_to_targetload`
returns one of the four configured loads, by the band of the frequency: 30,
40, 50, 65 for `boost_values`, 40, 50, 60, 70 for `busy_values` and 60, 70,
80, 90 for `idle_values`, the last one from 1350000 kHz on; it never returns
0 or a padding slot.  So with the default profiles the target load is defined
and non-zero at every frequency, whatever the signals, and `choose_freq` never
divides by zero. -/
theorem default_profiles_nonzero (g : tunables) (ktime_ms f : Nat) :
    freq_to_targetload_of boost_values f =
      some (if f < 702000 then 30 else if f < 1026000 then 40
            else if f < 1350000 then 50 else 65) ∧
    freq_to_targetload_of busy_values f =
      some (if f < 702000 then 40 else if f < 1026000 then 50
            else if f < 1350000 then 60 else 70) ∧
    freq_to_targetload_of idle_values f =
      some (if f < 702000 then 60 else if f < 1026000 then 70
            else if f < 1350000 then 80 else 90) ∧
    (g.boost = boost_values → g.busy = busy_values → g.idle = idle_values →
      (∃ tl, freq_to_targetload g ktime_ms f = some tl ∧ tl ≠ 0 ∧
        tl ∈ [30, 40, 50, 65, 60, 70, 80, 90] ∧
        (f ≥ 1350000 → tl = 65 ∨ tl = 70 ∨ tl = 90)) ∧
      loads_nonzero (freq_to_targetload g ktime_ms)) := by
  have hboost := default_profile_targetload boost_values 30 40 50 65 rfl rfl (by decide)
    (by decide) (by decide)
  have hbusy := default_profile_targetload busy_values 40 50 60 70 rfl rfl (by decide)
    (by decide) (by decide)
  have hidle := default_profile_targetload idle_values 60 70 80 90 rfl rfl (by decide)
    (by decide) (by decide)
  refine ⟨hboost f, hbusy f, hidle f, ?_⟩
  intro h1 h2 h3
  have key : ∀ f2, ∃ tl, freq_to_targetload g ktime_ms f2 = some tl ∧ tl ≠ 0 ∧
      tl ∈ [30, 40, 50, 65, 60, 70, 80, 90] ∧
      (f2 ≥ 1350000 → tl = 65 ∨ tl = 70 ∨ tl = 90) := by
    intro f2
    unfold freq_to_targetload targetload_values
    split_ifs
    · rw [h3, hidle f2]
      refine ⟨_, rfl, ?_, ?_, ?_⟩ <;> split_ifs <;> simp <;> omega
    · rw [h1, hboost f2]
      refine ⟨_, rfl, ?_, ?_, ?_⟩ <;> split_ifs <;> simp <;> omega
    · rw [h2, hbusy f2]
      refine ⟨_, rfl, ?_, ?_, ?_⟩ <;> split_ifs <;> simp <;> omega
  refine ⟨key f, ?_⟩
  intro f2
  obtain ⟨tl, htl, h0, _⟩ := key f2
  exact ⟨tl, htl, h0⟩

/-- Claim C30 at concrete inputs: the default tunables during a touch boost at
1512000 kHz, where the boost profile gives 65. -/
theorem default_profiles_nonzero_witness :
    freq_to_targetload touch_tunables 1020 1512000 = some 65 ∧
    loads_nonzero (freq_to_targetload touch_tunables 1020) :=
  ⟨by decide, ((default_profiles_nonzero touch_tunables 1020 1512000).2.2.2 rfl rfl rfl).2⟩

/-! ## Claim C29: loads are at most 100 -/

/-- The load `get_cpu_load` returns is at most 100 when `policy.cur` is at
most `policy.max`. -/
theorem get_cpu_load_le (s : load_sample) (pcpu : cpu_load_data) (load : Nat)
    (data : cpu_load_data) (h : get_cpu_load s pcpu = some (load, data))
    (hcur : s.policy_cur ≤ s.policy_max) : load ≤ 100 := by
  unfold get_cpu_load at h
  dsimp only at h
  generalize hW : u32 (u64_sub s.cur_wall_time pcpu.prev_cpu_wall) = W at h
  generalize hI : u32 (u64_sub s.cur_idle_time pcpu.prev_cpu_idle) = I at h
  have hW2 : W < 4294967296 := by rw [← hW]; unfold u32; omega
  have hI2 : I < 4294967296 := by rw [← hI]; unfold u32; omega
  by_cases hg : W = 0 ∨ W < I
  · rw [if_pos hg] at h
    cases h
    omega
  · rw [if_neg hg] at h
    have hsub : u32_sub W I = W - I := by unfold u32_sub; omega
    rw [hsub] at h
    have hload : u32 (100 * (W - I)) / W ≤ 100 := by
      apply Nat.div_le_of_le_mul
      have : u32 (100 * (W - I)) ≤ 100 * (W - I) := Nat.mod_le _ _
      have h2 : 100 * (W - I) ≤ W * 100 := by omega
      omega
    generalize u32 (100 * (W - I)) / W = cur_load at h hload
    have hfinal : ∀ cur_freq max_freq : Nat, cur_freq ≤ max_freq →
        u32 (cur_load * cur_freq) / max_freq ≤ 100 := by
      intro cur_freq max_freq hle
      apply Nat.div_le_of_le_mul
      have h1 : u32 (cur_load * cur_freq) ≤ cur_load * cur_freq := Nat.mod_le _ _
      have h2 : cur_load * cur_freq ≤ 100 * max_freq := Nat.mul_le_mul hload hle
      omega
    by_cases hc : s.cur_max ≥ s.policy_max
    · simp only [hc, if_true] at h
      by_cases hm : s.policy_max = 0
      · rw [if_pos hm] at h; cases h
      · rw [if_neg hm] at h
        cases h
        exact hfinal _ _ hcur
    · simp only [hc, if_false] at h
      by_cases hm : s.cur_max = 0
      · rw [if_pos hm] at h; cases h
      · rw [if_neg hm] at h
        cases h
        apply hfinal
        split_ifs <;> omega

/-- The sum of the loads of distinct CPUs: it is at most 100 for each CPU
above the start value, and when it is exactly that much every CPU reported a
load of 100. -/
theorem hotplug_sum_loads_le (inp : hotplug_input) (cpus : List Nat) :
    ∀ (cpuload : Nat → cpu_load_data) (av_load sum : Nat) (cpuload2 : Nat → cpu_load_data),
      cpus.Nodup →
      hotplug_sum_loads inp cpus cpuload av_load = some (sum, cpuload2) →
      (∀ c ∈ cpus, (inp.samples c).policy_cur ≤ (inp.samples c).policy_max) →
      av_load + 100 * cpus.length < 4294967296 →
      sum ≤ av_load + 100 * cpus.length ∧
      (sum = av_load + 100 * cpus.length →
        ∀ c ∈ cpus, ∃ data, get_cpu_load (inp.samples c) (cpuload c) = some (100, data)) := by
  induction cpus with
  | nil =>
    intro cpuload av_load sum cpuload2 _ h _ _
    unfold hotplug_sum_loads at h
    cases h
    exact ⟨by simp, fun _ c hc => by simp at hc⟩
  | cons cpu rest ih =>
    intro cpuload av_load sum cpuload2 hnd h hcur hsmall
    unfold hotplug_sum_loads at h
    cases hg : get_cpu_load (inp.samples cpu) (cpuload cpu) with
    | none => rw [hg] at h; cases h
    | some r =>
      obtain ⟨load, data⟩ := r
      rw [hg] at h
      dsimp only at h
      have hl : load ≤ 100 :=
        get_cpu_load_le _ _ load data hg (hcur cpu (List.mem_cons_self _ _))
      simp only [List.length_cons] at hsmall ⊢
      have hu : u32 (av_load + load) = av_load + load := by
        unfold u32
        exact Nat.mod_eq_of_lt (by omega)
      rw [hu] at h
      obtain ⟨h1, h2⟩ := ih _ (av_load + load) sum cpuload2 (List.nodup_cons.mp hnd).2 h
        (fun c hc => hcur c (List.mem_cons_of_mem _ hc)) (by omega)
      refine ⟨by omega, ?_⟩
      intro heq c hc
      have hload : load = 100 := by omega
      rcases List.mem_cons.mp hc with rfl | hc
      · exact ⟨data, by rw [hg, hload]⟩
      · obtain ⟨d, hd⟩ := h2 (by omega) c hc
        have hne : c ≠ cpu := by
          intro he
          rw [he] at hc
          exact (List.nodup_cons.mp hnd).1 hc
        rw [if_neg hne] at hd
        exact ⟨d, hd⟩

/-- With a non-zero `max_freq` the function `get_cpu_load` returns. -/
theorem get_cpu_load_some (s : load_sample) (pcpu : cpu_load_data)
    (hmax : min s.policy_max s.cur_max ≠ 0) : ∃ r, get_cpu_load s pcpu = some r := by
  have hp : s.policy_max ≠ 0 := by
    intro h
    rw [h] at hmax
    simp at hmax
  have hc : s.cur_max ≠ 0 := by
    intro h
    rw [h] at hmax
    simp at hmax
  unfold get_cpu_load
  dsimp only
  by_cases hg : u32 (u64_sub s.cur_wall_time pcpu.prev_cpu_wall) = 0 ∨
      u32 (u64_sub s.cur_wall_time pcpu.prev_cpu_wall) <
        u32 (u64_sub s.cur_idle_time pcpu.prev_cpu_idle)
  · rw [if_pos hg]
    exact ⟨_, rfl⟩
  · rw [if_neg hg]
    by_cases hcm : s.cur_max ≥ s.policy_max
    · simp only [hcm, if_true]
      rw [if_neg hp]
      exact ⟨_, rfl⟩
    · simp only [hcm, if_false]
      rw [if_neg hc]
      exact ⟨_, rfl⟩

/-- Claim C29: `get_cpu_load` returns a value of at most 100 for every CPU
with `max_freq > 0` and `policy.cur <= policy.max` (the products being
`unsigned int`, this needs no bound on the deltas); hence the average load a
decider tick computes over its online CPUs is at most 100, and with four CPUs
online the up branch, whose threshold is 100, is taken only when every online
CPU reports a load of exactly 100. -/
theorem loads_at_most_100 (inp : hotplug_input) (st : hotplug_state) (av_load : Nat)
    (cpuload : Nat → cpu_load_data)
    (hav : hotplug_av_load inp st = some (av_load, cpuload))
    (hcur : ∀ c ∈ possible_cpus.filter st.cpu_online,
      (inp.samples c).policy_cur ≤ (inp.samples c).policy_max) :
    (∀ (s : load_sample) (pcpu : cpu_load_data), s.policy_cur ≤ s.policy_max →
      min s.policy_max s.cur_max > 0 →
      ∃ load data, get_cpu_load s pcpu = some (load, data) ∧ 0 ≤ load ∧ load ≤ 100) ∧
    (0 ≤ av_load ∧ av_load ≤ 100) ∧
    ((possible_cpus.filter st.cpu_online).length = 4 →
      hotplug_select inp.gpu_idle 4 av_load = some .up →
      av_load = 100 ∧
      ∀ c ∈ possible_cpus.filter st.cpu_online,
        ∃ data, get_cpu_load (inp.samples c) (st.cpuload c) = some (100, data)) := by
  have hnd : (possible_cpus.filter st.cpu_online).Nodup :=
    List.Nodup.filter _ (by rw [possible_cpus_eq]; decide)
  have hlen : (possible_cpus.filter st.cpu_online).length ≤ 4 := by
    have := List.length_filter_le st.cpu_online possible_cpus
    rw [possible_cpus_eq] at this ⊢
    simpa using this
  unfold hotplug_av_load at hav
  dsimp only at hav
  cases hs : hotplug_sum_loads inp (possible_cpus.filter st.cpu_online) st.cpuload 0 with
  | none => rw [hs] at hav; cases hav
  | some r =>
    obtain ⟨sum, cl⟩ := r
    rw [hs] at hav
    dsimp only at hav
    by_cases hn : (possible_cpus.filter st.cpu_online).length = 0
    · rw [if_pos hn] at hav; cases hav
    · rw [if_neg hn] at hav
      obtain ⟨h1, h2⟩ := hotplug_sum_loads_le inp _ st.cpuload 0 sum cl hnd hs hcur (by omega)
      cases hav
      have havle : sum / (possible_cpus.filter st.cpu_online).length ≤ 100 := by
        apply Nat.div_le_of_le_mul
        omega
      refine ⟨?_, ⟨Nat.zero_le _, havle⟩, ?_⟩
      · intro s pcpu hc hm
        obtain ⟨r, hr⟩ := get_cpu_load_some s pcpu (by omega)
        obtain ⟨load, data⟩ := r
        exact ⟨load, data, hr, Nat.zero_le _, get_cpu_load_le s pcpu load data hr hc⟩
      · intro h4 hsel
        have hge : sum / (possible_cpus.filter st.cpu_online).length ≥ 100 := by
          have hlev : scale_first_level inp.gpu_idle 4 = some 100 := by
            cases inp.gpu_idle <;> rfl
          unfold hotplug_select at hsel
          rw [hlev] at hsel
          dsimp only at hsel
          by_contra hc
          rw [if_neg hc] at hsel
          cases ht : scale_third_level inp.gpu_idle 4 with
          | none => rw [ht] at hsel; cases hsel
          | some t =>
            rw [ht] at hsel
            dsimp only at hsel
            split_ifs at hsel <;> cases hsel
        rw [h4] at hge h1 h2 havle ⊢
        have hsum : sum = 0 + 100 * 4 := by omega
        refine ⟨by omega, ?_⟩
        exact h2 hsum

/-- Claim C29 at a concrete input: four CPUs online, each never idle at its
highest frequency; each load is 100, the average is 100 and the tick takes
the up branch. -/
theorem loads_at_most_100_witness :
    (hotplug_av_load full_load_input all_online_state).map Prod.fst = some 100 ∧
    hotplug_select full_load_input.gpu_idle 4 100 = some .up ∧
    ∀ c ∈ possible_cpus.filter all_online_state.cpu_online,
      ∃ data, get_cpu_load (full_load_input.samples c) (all_online_state.cpuload c) =
        some (100, data) :=
  ⟨by decide, by decide,
    ((loads_at_most_100 full_load_input all_online_state 100
      (hotplug_cpuload_of (hotplug_av_load full_load_input all_online_state))
      rfl (by decide)).2.2 (by decide) (by decide)).2⟩

/-! ## Claim C27: `choose_freq` terminates -/

/-- A bracket that leaves out a table entry holds fewer entries than the
table. -/
theorem bracket_count_lt_length {table : List Nat} {lo hi a : Nat} (ha : a ∈ table)
    (hout : ¬ (lo < a ∧ a < hi)) : bracket_count table lo hi < table.length := by
  have h := filter_length_lt (l := table) (p := fun _ => true)
    (q := fun e => decide (lo < e ∧ e < hi)) (fun _ _ => rfl) ha rfl (by simpa using hout)
  have h2 : (table.filter (fun _ => true)).length = table.length := by simp
  unfold bracket_count
  omega

/-- One pass of the loop of `choose_freq`, for any profile with non-zero
loads: it ends with a table entry, or it goes on with a candidate that is a
table entry strictly inside a bracket that is part of the old one and holds
fewer entries than the old state allowed. -/
theorem choose_freq_body_shrinks {tlf : Nat → Option Nat} {table : List Nat}
    {loadadjfreq : Nat} (hrange : ∀ e ∈ table, e ≤ UINT_MAX) (hnz : loads_nonzero tlf)
    (f lo hi : Nat) (hinv : choose_state_ok table f lo hi) :
    (∃ r, choose_freq_body tlf table loadadjfreq f lo hi = some (.done r) ∧ r ∈ table) ∨
    (∃ f2 lo2 hi2,
        choose_freq_body tlf table loadadjfreq f lo hi = some (.again f2 lo2 hi2) ∧
        f2 ∈ table ∧ (hi2 = UINT_MAX ∨ hi2 ∈ table) ∧ lo2 < f2 ∧ f2 < hi2 ∧
        lo ≤ lo2 ∧ hi2 ≤ hi ∧
        bracket_count table lo2 hi2 < choose_measure table f lo hi) := by
  obtain ⟨hf, hhiI, hpos⟩ := hinv
  have hfr : f ≤ UINT_MAX := hrange f hf
  have hhir : hi ≤ UINT_MAX := by
    rcases hhiI with h | h
    · omega
    · exact hrange hi h
  have hflo : lo ≤ f := by
    rcases hpos with h | ⟨h, _, _⟩ <;> omega
  have hfhi : f ≤ hi := by
    rcases hpos with h | ⟨_, h1, h2⟩
    · omega
    · omega
  -- the measure drops when the candidate leaves the bracket or was on its border
  have hmeasure : ∀ lo2 hi2, lo ≤ lo2 → hi2 ≤ hi → ¬ (lo2 < f ∧ f < hi2) →
      bracket_count table lo2 hi2 < choose_measure table f lo hi := by
    intro lo2 hi2 h1 h2 hout
    unfold choose_measure
    by_cases hin : lo < f ∧ f < hi
    · rw [if_pos hin]
      have := bracket_count_lt h1 h2 hf hin hout
      omega
    · rw [if_neg hin]
      have : bracket_count table lo2 hi2 ≤ bracket_count table lo hi := by
        unfold bracket_count
        apply filter_length_le
        intro x hx
        simp only [decide_eq_true_eq] at hx ⊢
        omega
      omega
  obtain ⟨tl, htl, htl0⟩ := hnz f
  obtain ⟨x, hx, hxm, _⟩ := table_target_L (loadadjfreq / tl) hf
  have hxr : x ≤ UINT_MAX := hrange x hxm
  by_cases hgt : x > f
  · by_cases hge : x ≥ hi
    · have hhit : hi ∈ table := by
        rcases hhiI with h | h
        · have : x = hi := by omega
          rw [← this]
          exact hxm
        · exact h
      have hsub : u32_sub hi 1 = hi - 1 := by
        unfold u32_sub UINT_MAX at *
        omega
      obtain ⟨y, hy, hym, hys⟩ := table_target_H (hi - 1) hf
      have hyb : f ≤ y ∧ y < hi := by
        rcases hys with ⟨h1, h2⟩ | ⟨h1, _⟩
        · exact ⟨h2 f hf (by omega), by omega⟩
        · have := h1 f hf
          omega
      by_cases hyf : y = f
      · left
        refine ⟨hi, ?_, hhit⟩
        simp [choose_freq_body, choose_freq_pass, htl, htl0, hx, hgt, hge, hsub, hy, hyf]
      · right
        refine ⟨y, f, hi, ?_, hym, hhiI, by omega, hyb.2, hflo, le_refl _, ?_⟩
        · simp [choose_freq_body, choose_freq_pass, htl, htl0, hx, hgt, hge, hsub, hy, hyf]
        · exact hmeasure f hi hflo (le_refl _) (by omega)
    · right
      refine ⟨x, f, hi, ?_, hxm, hhiI, hgt, by omega, hflo, le_refl _, ?_⟩
      · have hne : ¬ x = f := by omega
        simp [choose_freq_body, choose_freq_pass, htl, htl0, hx, hgt, hge, hne]
      · exact hmeasure f hi hflo (le_refl _) (by omega)
  · by_cases hlt : x < f
    · by_cases hle : x ≤ lo
      · have hadd : u32 (lo + 1) = lo + 1 := by
          unfold u32 UINT_MAX at *
          omega
        obtain ⟨y, hy, hym, hys⟩ := table_target_L (lo + 1) hf
        have hyb : lo < y ∧ y ≤ f := by
          rcases hys with ⟨h1, h2⟩ | ⟨h1, _⟩
          · exact ⟨by omega, h2 f hf (by omega)⟩
          · have := h1 f hf
            omega
        by_cases hyf : y = f
        · left
          refine ⟨y, ?_, hym⟩
          simp [choose_freq_body, choose_freq_pass, htl, htl0, hx, hgt, hlt, hle, hadd, hy,
            hyf]
        · right
          refine ⟨y, lo, f, ?_, hym, Or.inr hf, hyb.1, by omega, le_refl _, hfhi, ?_⟩
          · simp [choose_freq_body, choose_freq_pass, htl, htl0, hx, hgt, hlt, hle, hadd, hy,
              hyf]
          · exact hmeasure lo f (le_refl _) hfhi (by omega)
      · right
        refine ⟨x, lo, f, ?_, hxm, Or.inr hf, by omega, hlt, le_refl _, hfhi, ?_⟩
        · have hne : ¬ x = f := by omega
          simp [choose_freq_body, choose_freq_pass, htl, htl0, hx, hgt, hlt, hle, hne]
        · exact hmeasure lo f (le_refl _) hfhi (by omega)
    · have hxf : x = f := by omega
      subst hxf
      left
      exact ⟨x, by simp [choose_freq_body, choose_freq_pass, htl, htl0, hx], hf⟩

/-- The loop of `choose_freq` returns a table entry from every state a pass
can start in, within as many passes as the measure of the state allows. -/
theorem choose_freq_loop_terminates {tlf : Nat → Option Nat} {table : List Nat}
    {loadadjfreq : Nat} (hrange : ∀ e ∈ table, e ≤ UINT_MAX) (hnz : loads_nonzero tlf) :
    ∀ fuel f lo hi, choose_state_ok table f lo hi → choose_measure table f lo hi < fuel →
      ∃ r, choose_freq_loop tlf table loadadjfreq fuel f lo hi = some r ∧ r ∈ table := by
  apply choose_freq_loop_spec tlf table loadadjfreq (choose_state_ok table) (fun r => r ∈ table)
    (choose_measure table)
  intro f lo hi hinv
  rcases choose_freq_body_shrinks hrange hnz f lo hi hinv with
    h | ⟨f2, lo2, hi2, hb, hm, hhi, h1, h2, _, _, hlt⟩
  · exact Or.inl h
  · refine Or.inr ⟨f2, lo2, hi2, hb, ⟨hm, hhi, Or.inl ⟨h1, h2⟩⟩, ?_⟩
    unfold choose_measure at hlt ⊢
    rw [if_pos ⟨h1, h2⟩]
    omega

/-- The start state of `choose_freq` at a table entry, and its measure. -/
theorem choose_start_ok {table : List Nat} (hrange : ∀ e ∈ table, e ≤ UINT_MAX) {cur : Nat}
    (hcur : cur ∈ table) :
    choose_state_ok table cur 0 UINT_MAX ∧
    choose_measure table cur 0 UINT_MAX < table.length + 1 := by
  have hc := hrange cur hcur
  constructor
  · refine ⟨hcur, Or.inl rfl, ?_⟩
    by_cases h : 0 < cur ∧ cur < UINT_MAX
    · exact Or.inl h
    · exact Or.inr ⟨rfl, rfl, by omega⟩
  · unfold choose_measure
    by_cases h : 0 < cur ∧ cur < UINT_MAX
    · rw [if_pos h]
      have := bracket_count_le_length table 0 UINT_MAX
      omega
    · rw [if_neg h]
      have := bracket_count_lt_length hcur h
      omega

/-- The step function of the profile `dip_values`. -/
theorem dip_targetload (ktime_ms f : Nat) :
    freq_to_targetload dip_tunables ktime_ms f =
      some (if f < 702000 then 60 else if f < 1026000 then 30 else 60) := by
  simp only [freq_to_targetload, targetload_values, dip_tunables, default_tunables, dip_values,
    busy_values, freq_to_targetload_of, freq_to_targetload_scan]
  by_cases h1 : f < 702000
  · simp [h1]
  · by_cases h2 : f < 1026000
    · simp [h1, h2, Nat.not_lt.mp h1]
    · simp [h1, h2, Nat.not_lt.mp h1, Nat.not_lt.mp h2]

theorem dip_nonzero (ktime_ms : Nat) :
    loads_nonzero (freq_to_targetload dip_tunables ktime_ms) := by
  intro f
  refine ⟨_, dip_targetload ktime_ms f, ?_⟩
  split_ifs <;> decide

/-- Claim C27: for every frequency table with 32-bit entries (ascending or
not), every profile whose target load is defined and non-zero at every
frequency (non-decreasing or not), every `loadadjfreq` and every starting
frequency that is a table entry, `choose_freq` returns a table entry within
`table.length + 1` passes of its loop.  Every pass that starts with the
candidate strictly inside the bracket either leaves the loop or goes on with a
candidate that is a table entry strictly inside a bracket that lies within the
old one and holds fewer table entries. -/
theorem choose_freq_terminates (g : tunables) (ktime_ms cur loadadjfreq : Nat)
    (table : List Nat) (hrange : ∀ e ∈ table, e ≤ UINT_MAX) (hcur : cur ∈ table)
    (hnz : loads_nonzero (freq_to_targetload g ktime_ms)) :
    (∃ r, choose_freq g ktime_ms cur table loadadjfreq = some r ∧ r ∈ table ∧
      choose_freq_loop (freq_to_targetload g ktime_ms) table loadadjfreq (table.length + 1)
        cur 0 UINT_MAX = some r) ∧
    (∀ f lo hi, f ∈ table → (hi = UINT_MAX ∨ hi ∈ table) → lo < f → f < hi →
      (∃ r, choose_freq_body (freq_to_targetload g ktime_ms) table loadadjfreq f lo hi =
          some (.done r) ∧ r ∈ table) ∨
      (∃ f2 lo2 hi2,
        choose_freq_body (freq_to_targetload g ktime_ms) table loadadjfreq f lo hi =
          some (.again f2 lo2 hi2) ∧
        f2 ∈ table ∧ lo2 < f2 ∧ f2 < hi2 ∧ lo ≤ lo2 ∧ hi2 ≤ hi ∧
        bracket_count table lo2 hi2 < bracket_count table lo hi)) := by
  constructor
  · obtain ⟨hok, hmu⟩ := choose_start_ok hrange hcur
    obtain ⟨r, hr, hrm⟩ := @choose_freq_loop_terminates _ _ loadadjfreq hrange hnz
      (table.length + 1) cur 0 UINT_MAX hok hmu
    exact ⟨r, hr, hrm, hr⟩
  · intro f lo hi hf hhi h1 h2
    rcases @choose_freq_body_shrinks _ _ loadadjfreq hrange hnz f lo hi
        ⟨hf, hhi, Or.inl ⟨h1, h2⟩⟩ with
      h | ⟨f2, lo2, hi2, hb, hm, _, h3, h4, h5, h6, hlt⟩
    · exact Or.inl h
    · refine Or.inr ⟨f2, lo2, hi2, hb, hm, h3, h4, h5, h6, ?_⟩
      unfold choose_measure at hlt
      rw [if_pos ⟨h1, h2⟩] at hlt
      omega

/-- Claim C27 at a concrete input: the profile `dip_values`, whose loads are
60, 30, 60, the sample table, a start at 702000 kHz and
`loadadjfreq = 22000000`; the search returns 1026000 kHz. -/
theorem choose_freq_terminates_witness :
    choose_freq dip_tunables 0 702000 sample_freq_table 22000000 = some 1026000 ∧
    ∃ r, choose_freq dip_tunables 0 702000 sample_freq_table 22000000 = some r ∧
      r ∈ sample_freq_table ∧
      choose_freq_loop (freq_to_targetload dip_tunables 0) sample_freq_table 22000000
        (sample_freq_table.length + 1) 702000 0 UINT_MAX = some r :=
  ⟨by decide,
    (choose_freq_terminates dip_tunables 0 702000 22000000 sample_freq_table (by decide)
      (by decide) (dip_nonzero 0)).1⟩

/-! ## Claim C22: applying `choose_freq` twice -/

/-- With non-zero table entries and non-zero, non-decreasing target loads,
`choose_freq` started at a table entry returns the lowest fast-enough entry
when there is one. -/
theorem choose_freq_lowest {tlf : Nat → Option Nat} {table : List Nat} {loadadjfreq : Nat}
    (hrange : ∀ e ∈ table, 0 < e ∧ e < UINT_MAX)
    (hnz : loads_nonzero tlf) (hmono : loads_monotone tlf)
    (hex : ∃ e ∈ table, fast_enough tlf loadadjfreq e = true)
    (cur : Nat) (hcur : cur ∈ table) :
    ∃ r, choose_freq_loop tlf table loadadjfreq (table.length + 1) cur 0 UINT_MAX = some r ∧
      choose_post tlf table loadadjfreq r := by
  have hinv : choose_inv tlf table loadadjfreq cur 0 UINT_MAX :=
    ⟨hcur, (hrange cur hcur).1, (hrange cur hcur).2, Or.inl rfl, Or.inl rfl⟩
  have hmu : bracket_count table 0 UINT_MAX < table.length + 1 := by
    have := bracket_count_le_length table 0 UINT_MAX
    omega
  exact choose_freq_loop_spec tlf table loadadjfreq (choose_inv tlf table loadadjfreq)
    (choose_post tlf table loadadjfreq) (fun _ lo hi => bracket_count table lo hi)
    (choose_freq_body_spec hrange hnz hmono hex) (table.length + 1) cur 0 UINT_MAX hinv hmu

/-- When no table entry is fast enough, `choose_freq` started at a table entry
climbs to the highest entry of the table. -/
theorem choose_freq_highest {tlf : Nat → Option Nat} {table : List Nat} {loadadjfreq : Nat}
    (hrange : ∀ e ∈ table, 0 < e ∧ e < UINT_MAX)
    (hnz : loads_nonzero tlf)
    (hnone : ∀ e ∈ table, fast_enough tlf loadadjfreq e = false)
    (cur : Nat) (hcur : cur ∈ table) :
    ∃ r, choose_freq_loop tlf table loadadjfreq (table.length + 1) cur 0 UINT_MAX = some r ∧
      r ∈ table ∧ ∀ e ∈ table, e ≤ r := by
  have hmu : bracket_count table 0 UINT_MAX < table.length + 1 := by
    have := bracket_count_le_length table 0 UINT_MAX
    omega
  apply choose_freq_loop_spec tlf table loadadjfreq
    (fun f lo hi => f ∈ table ∧ lo < f ∧ hi = UINT_MAX)
    (fun r => r ∈ table ∧ ∀ e ∈ table, e ≤ r) (fun _ lo hi => bracket_count table lo hi)
    ?_ (table.length + 1) cur 0 UINT_MAX ⟨hcur, (hrange cur hcur).1, rfl⟩ hmu
  intro f lo hi hinv
  obtain ⟨hf, hlo, hhi⟩ := hinv
  subst hhi
  obtain ⟨tl, htl, htl0⟩ := hnz f
  have hslow : ¬ loadadjfreq / tl ≤ f := by
    have h := hnone f hf
    intro hc
    rw [(fast_enough_iff htl).mpr hc] at h
    exact Bool.noConfusion h
  obtain ⟨x, hx, hxm, hxs⟩ := table_target_L (loadadjfreq / tl) hf
  have hxf : f ≤ x := by
    rcases hxs with ⟨h1, _⟩ | ⟨_, h2⟩
    · omega
    · exact h2 f hf
  by_cases hgt : x > f
  · right
    have hge : ¬ x ≥ UINT_MAX := by
      have := (hrange x hxm).2
      omega
    have hne : ¬ x = f := by omega
    refine ⟨x, f, UINT_MAX, ?_, ⟨hxm, hgt, rfl⟩, ?_⟩
    · simp [choose_freq_body, choose_freq_pass, htl, htl0, hx, hgt, hge, hne]
    · exact bracket_count_lt (a := f) (by omega) (le_refl _) hf
        ⟨hlo, (hrange f hf).2⟩ (by omega)
  · left
    have hxe : x = f := by omega
    subst hxe
    refine ⟨x, ?_, hf, ?_⟩
    · simp [choose_freq_body, choose_freq_pass, htl, htl0, hx]
    · rcases hxs with ⟨h1, _⟩ | ⟨_, h2⟩
      · omega
      · exact h2

/-- Claim C22, counterexample: with the stored profile `60 702000:30
1026000:60`, the sample table and `loadadjfreq = 22000000`, `choose_freq`
started at 702000 kHz returns 1026000 kHz, and started at 1026000 kHz it
returns 384000 kHz. -/
theorem choose_freq_not_idempotent_counterexample :
    choose_freq dip_tunables 0 702000 sample_freq_table 22000000 = some 1026000 ∧
    choose_freq dip_tunables 0 1026000 sample_freq_table 22000000 = some 384000 ∧
    ¬ (choose_freq dip_tunables 0 1026000 sample_freq_table 22000000 = some 1026000) := by
  refine ⟨by decide, by decide, by decide⟩

/-- Claim C22, amended: `choose_freq` is a function of the table, the profile,
`loadadjfreq` and the starting frequency; for every table of non-zero
frequencies, every profile with non-zero target loads that are non-decreasing
in the frequency, every `loadadjfreq` and every starting frequency that is a
table entry, it returns a table entry, and started again with the same
`loadadjfreq` at that entry it returns the same entry. -/
theorem choose_freq_idempotent (g : tunables) (ktime_ms cur loadadjfreq : Nat)
    (table : List Nat)
    (hrange : ∀ e ∈ table, 0 < e ∧ e < UINT_MAX)
    (hcur : cur ∈ table)
    (hnz : loads_nonzero (freq_to_targetload g ktime_ms))
    (hmono : loads_monotone (freq_to_targetload g ktime_ms)) :
    ∃ r, choose_freq g ktime_ms cur table loadadjfreq = some r ∧ r ∈ table ∧
      choose_freq g ktime_ms r table loadadjfreq = some r := by
  unfold choose_freq
  by_cases hex : ∃ e ∈ table, fast_enough (freq_to_targetload g ktime_ms) loadadjfreq e = true
  · obtain ⟨r, hr, hrm, hrf, hrl⟩ := choose_freq_lowest hrange hnz hmono hex cur hcur
    obtain ⟨r2, hr2, hr2m, hr2f, hr2l⟩ := choose_freq_lowest hrange hnz hmono hex r hrm
    have h1 := hrl r2 hr2m hr2f
    have h2 := hr2l r hrm hrf
    have he : r2 = r := by omega
    rw [he] at hr2
    exact ⟨r, hr, hrm, hr2⟩
  · have hnone : ∀ e ∈ table,
        fast_enough (freq_to_targetload g ktime_ms) loadadjfreq e = false := by
      intro e he
      cases hfe : fast_enough (freq_to_targetload g ktime_ms) loadadjfreq e with
      | false => rfl
      | true => exact absurd ⟨e, he, hfe⟩ hex
    obtain ⟨r, hr, hrm, hrl⟩ := choose_freq_highest hrange hnz hnone cur hcur
    obtain ⟨r2, hr2, hr2m, hr2l⟩ := choose_freq_highest hrange hnz hnone r hrm
    have h1 := hrl r2 hr2m
    have h2 := hr2l r hrm
    have he : r2 = r := by omega
    rw [he] at hr2
    exact ⟨r, hr, hrm, hr2⟩

/-- Claim C22 at a concrete input: the default busy profile, the sample table
and `loadadjfreq = 50000000`; started at 384000 kHz the search returns
1026000 kHz, and started there it returns 1026000 kHz again. -/
theorem choose_freq_idempotent_witness :
    choose_freq default_tunables 0 384000 sample_freq_table 50000000 = some 1026000 ∧
    choose_freq default_tunables 0 1026000 sample_freq_table 50000000 = some 1026000 ∧
    ∃ r, choose_freq default_tunables 0 384000 sample_freq_table 50000000 = some r ∧
      r ∈ sample_freq_table ∧
      choose_freq default_tunables 0 r sample_freq_table 50000000 = some r :=
  ⟨by decide, by decide,
    choose_freq_idempotent default_tunables 0 384000 50000000 sample_freq_table
      (by decide) (by decide) (busy_default_nonzero 0) (busy_default_monotone 0)⟩

/-! ## Claim C31: the indices the scan of `freq_to_targetload` reads -/

/-- The scan of a list with an odd element count, started at an even index
below the count: every index it reads is below the count, the index of the
final read is even and below the count, and on an array that holds at least
that many elements the scan returns the element at that index. -/
theorem freq_to_targetload_trace_spec (l : List Nat) (n freq : Nat) (hodd : n % 2 = 1) :
    ∀ (fuel k : Nat), 2 * k < n → n ≤ 2 * k + fuel →
      (∀ idx ∈ (freq_to_targetload_trace l n freq fuel (2 * k)).1, idx < n) ∧
      (freq_to_targetload_trace l n freq fuel (2 * k)).2 < n ∧
      (freq_to_targetload_trace l n freq fuel (2 * k)).2 % 2 = 0 ∧
      (n ≤ l.length →
        freq_to_targetload_scan l n freq fuel (2 * k) =
          l[(freq_to_targetload_trace l n freq fuel (2 * k)).2]?) := by
  intro fuel
  induction fuel with
  | zero => intro k h1 h2; omega
  | succ fuel ih =>
    intro k hk hfuel
    unfold freq_to_targetload_trace freq_to_targetload_scan
    by_cases h1 : 2 * k + 1 < n
    · have h2 : 2 * k + 2 < n := by omega
      rw [if_pos h1, if_pos h1]
      cases hb : l[2 * k + 1]? with
      | none =>
        dsimp only
        refine ⟨by simp; omega, hk, by omega, ?_⟩
        intro hlen
        rw [List.getElem?_eq_none_iff] at hb
        omega
      | some b =>
        dsimp only
        by_cases hf : freq ≥ b
        · rw [if_pos hf, if_pos hf]
          cases hn : l[2 * k + 2]? with
          | none =>
            dsimp only
            refine ⟨by simp; omega, hk, by omega, ?_⟩
            intro hlen
            rw [List.getElem?_eq_none_iff] at hn
            omega
          | some nx =>
            dsimp only
            by_cases hz : nx ≠ 0
            · rw [if_pos hz, if_pos hz]
              obtain ⟨i1, i2, i3, i4⟩ := ih (k + 1) (by omega) (by omega)
              have e : 2 * (k + 1) = 2 * k + 2 := by omega
              rw [e] at i1 i2 i3 i4
              refine ⟨?_, i2, i3, i4⟩
              intro idx hidx
              simp only [List.mem_cons] at hidx
              rcases hidx with h | h | h
              · omega
              · omega
              · exact i1 idx h
            · rw [if_neg hz, if_neg hz]
              exact ⟨by simp; omega, hk, by omega, fun _ => rfl⟩
        · rw [if_neg hf, if_neg hf]
          exact ⟨by simp; omega, hk, by omega, fun _ => rfl⟩
    · rw [if_neg h1, if_neg h1]
      exact ⟨by simp, hk, by omega, fun _ => rfl⟩

/-- What `store_target_loads` leaves when it returns: an error with the
profile as it was, or the byte count with a list of odd length installed and
`ntarget_loads` equal to that length. -/
theorem store_target_loads_shape (scan : List Char → Option Nat) (alloc_ok : Bool)
    (values : interactive_vaules) (buf : List Char) (count : Nat) (r : store_result)
    (h : store_target_loads scan alloc_ok values buf count = some r) :
    (r.ret < 0 ∧ r.values = values) ∨
    (r.ret = count ∧ r.values.ntarget_loads % 2 = 1 ∧
      r.values.target_loads.length = r.values.ntarget_loads) := by
  have hE : -EINVAL < 0 := by decide
  have hM : -ENOMEM < 0 := by decide
  cases buf with
  | nil =>
    unfold store_target_loads store_count_tokens at h
    cases h
  | cons c rest =>
    have hcount := store_count_tokens_eq (c :: rest) (by simp)
    unfold store_target_loads at h
    rw [hcount] at h
    dsimp only at h
    by_cases hev : token_count (c :: rest) % 2 = 0
    · rw [if_pos hev] at h
      cases h
      exact Or.inl ⟨hE, rfl⟩
    · rw [if_neg hev] at h
      cases halloc : alloc_ok with
      | false =>
        rw [halloc, if_pos (by decide)] at h
        cases h
        exact Or.inl ⟨hM, rfl⟩
      | true =>
        rw [halloc, if_neg (by decide)] at h
        cases hp : store_parse scan (token_count (c :: rest) + 1) (c :: rest) 0
            (token_count (c :: rest)) [] with
        | none => rw [hp] at h; cases h
        | some pr =>
          rw [hp] at h
          cases pr with
          | inval =>
            cases h
            exact Or.inl ⟨hE, rfl⟩
          | done i loads =>
            dsimp only at h
            by_cases hi : i = token_count (c :: rest)
            · rw [if_neg (by simpa using hi)] at h
              cases h
              have hl := store_parse_length scan (token_count (c :: rest))
                (token_count (c :: rest) + 1) (c :: rest) 0 [] i loads hp rfl
              exact Or.inr ⟨rfl, by dsimp only; omega, by dsimp only; omega⟩
            · rw [if_pos hi] at h
              cases h
              exact Or.inl ⟨hE, rfl⟩

/-- Claim C31: for every profile whose `ntarget_loads` is odd and whose array
holds at least `ntarget_loads` elements, and every frequency, every index the
scan of `freq_to_targetload` reads in its loop condition is below
`ntarget_loads`, the index of the final read is even and below
`ntarget_loads`, and the value returned is the element at that index.  The
three default profiles are of this kind (11 elements), and so is every profile
`store_target_loads` has installed a list in. -/
theorem freq_to_targetload_reads_in_bounds (values : interactive_vaules) (freq : Nat)
    (hodd : values.ntarget_loads % 2 = 1)
    (hlen : values.ntarget_loads ≤ values.target_loads.length) :
    ((∀ idx ∈ (freq_to_targetload_trace values.target_loads values.ntarget_loads freq
        (values.ntarget_loads + 1) 0).1, idx < values.ntarget_loads) ∧
      (freq_to_targetload_trace values.target_loads values.ntarget_loads freq
        (values.ntarget_loads + 1) 0).2 < values.ntarget_loads ∧
      (freq_to_targetload_trace values.target_loads values.ntarget_loads freq
        (values.ntarget_loads + 1) 0).2 % 2 = 0 ∧
      ∃ load,
        values.target_loads[(freq_to_targetload_trace values.target_loads
          values.ntarget_loads freq (values.ntarget_loads + 1) 0).2]? = some load ∧
        freq_to_targetload_of values freq = some load) ∧
    ((boost_values.ntarget_loads % 2 = 1 ∧
        boost_values.ntarget_loads ≤ boost_values.target_loads.length) ∧
      (busy_values.ntarget_loads % 2 = 1 ∧
        busy_values.ntarget_loads ≤ busy_values.target_loads.length) ∧
      (idle_values.ntarget_loads % 2 = 1 ∧
        idle_values.ntarget_loads ≤ idle_values.target_loads.length)) ∧
    (∀ (scan : List Char → Option Nat) (alloc_ok : Bool) (old : interactive_vaules)
      (buf : List Char) (count : Nat) (r : store_result),
      store_target_loads scan alloc_ok old buf count = some r → r.ret = count →
      r.values.ntarget_loads % 2 = 1 ∧
      r.values.ntarget_loads ≤ r.values.target_loads.length) := by
  refine ⟨?_, ⟨⟨by decide, by decide⟩, ⟨by decide, by decide⟩, ⟨by decide, by decide⟩⟩, ?_⟩
  · obtain ⟨h1, h2, h3, h4⟩ := freq_to_targetload_trace_spec values.target_loads
      values.ntarget_loads freq hodd (values.ntarget_loads + 1) 0 (by omega) (by omega)
    refine ⟨h1, h2, h3, ?_⟩
    have hin : (freq_to_targetload_trace values.target_loads values.ntarget_loads freq
        (values.ntarget_loads + 1) 0).2 < values.target_loads.length := by
      have e : 2 * 0 = 0 := rfl
      rw [e] at h2
      omega
    refine ⟨values.target_loads.get ⟨_, hin⟩, List.getElem?_eq_getElem hin, ?_⟩
    unfold freq_to_targetload_of
    have h5 := h4 hlen
    have e : 2 * 0 = 0 := rfl
    rw [e] at h5
    rw [h5]
    exact List.getElem?_eq_getElem hin
  · intro scan alloc_ok old buf count r h hret
    rcases store_target_loads_shape scan alloc_ok old buf count r h with ⟨hneg, _⟩ | ⟨_, h1, h2⟩
    · rw [hret] at hneg
      omega
    · exact ⟨h1, by omega⟩

/-- Claim C31 at concrete inputs: the list stored from `85 1500000:90`, of
three elements, at 1512000 kHz, where the scan reads indices 1 and 2 and
returns the element at index 2; and the default busy profile at 1512000 kHz,
where it reads indices 1 to 8 and returns the element at index 6. -/
theorem freq_to_targetload_reads_in_bounds_witness :
    freq_to_targetload_trace stored_values.target_loads stored_values.ntarget_loads 1512000
      (stored_values.ntarget_loads + 1) 0 = ([1, 2], 2) ∧
    freq_to_targetload_trace busy_values.target_loads busy_values.ntarget_loads 1512000
      (busy_values.ntarget_loads + 1) 0 = ([1, 2, 3, 4, 5, 6, 7, 8], 6) ∧
    freq_to_targetload_of busy_values 1512000 = some 70 ∧
    ∃ load,
      stored_values.target_loads[(freq_to_targetload_trace stored_values.target_loads
        stored_values.ntarget_loads 1512000 (stored_values.ntarget_loads + 1) 0).2]?
        = some load ∧
      freq_to_targetload_of stored_values 1512000 = some load :=
  ⟨by decide, by decide, by decide,
    (freq_to_targetload_reads_in_bounds stored_values 1512000 (by decide) (by decide)).1.2.2.2⟩

end Mako
